import Mathlib

/-!
# VirtualSerialHub: the kernel-mode virtual serial port pair (`Driver/VirtualSerial.c`)

A shallow embedding of the data-transfer engine of the driver: the ring buffer
(`RingBufferInit`, `RingBufferWrite`, `RingBufferRead`, `RingBufferBytesAvailable`), the
per-port device extension, and the dispatch routines that move bytes between the two ports
and manage the single pending read (`VSerialRead`, `VSerialWrite`, `TryCompleteRead`,
`VSerialReadDpc`, `VSerialCancelRead`, `VSerialCleanup`), and the configuration requests of
`VSerialDeviceControl`.

Conventions of the embedding.

* `ULONG` values are natural numbers; every `ULONG` addition and subtraction of the source is
  written with `uadd` / `usub`, which wrap modulo `2^32`.
* A `PUCHAR` together with the number of bytes it points to is a `List UCHAR`.
  `RtlCopyMemory` fails (`none`) when it would leave either byte range.
* The `while` loops run on fuel; running out of fuel, a fault in `RtlCopyMemory` and a
  division by zero are all `none`.
* Every routine is one atomic step on the driver state. The spin locks are not part of that
  state; the calls that take and release them are listed apart, routine by routine in
  program order (`TryCompleteReadLocks`, `VSerialReadLocks`, ...).
* An `IRP` lives in a heap indexed by its address (a natural number); `IoCompleteRequest`
  appends the address to the log `Completed`.
* A `ULONG` is stored in a byte buffer as four bytes, least significant first.
-/

namespace VirtualSerial

/-! ## Machine integers and memory -/

/-- Number of values of a `ULONG` (32 bits). -/
def ULONG_MODULUS : Nat := 4294967296

/-- A byte. The driver only copies bytes, it never computes with them. -/
abbrev UCHAR := Nat

/-- Addition of `ULONG`s, wrapping modulo `2^32`. -/
def uadd (a b : Nat) : Nat := (a + b) % ULONG_MODULUS

/-- Subtraction of `ULONG`s, wrapping modulo `2^32`. -/
def usub (a b : Nat) : Nat :=
  (a % ULONG_MODULUS + (ULONG_MODULUS - b % ULONG_MODULUS)) % ULONG_MODULUS

/-- The call `RtlCopyMemory(Dst + DstOff, Src + SrcOff, Length)`: the destination with
`Length` bytes replaced; `none` when one of the two byte ranges leaves its buffer. -/
def RtlCopyMemory (Dst : List UCHAR) (DstOff : Nat) (Src : List UCHAR) (SrcOff Length : Nat) :
    Option (List UCHAR) :=
  if DstOff + Length ≤ Dst.length ∧ SrcOff + Length ≤ Src.length then
    some (Dst.take DstOff ++ ((Src.drop SrcOff).take Length ++ Dst.drop (DstOff + Length)))
  else
    none

/-! ## Constants -/

def VSERIAL_BUFFER_SIZE : Nat := 4096

def SERIAL_MSR_CTS : Nat := 0x10
def SERIAL_MSR_DSR : Nat := 0x20
def SERIAL_MSR_RI : Nat := 0x40
def SERIAL_MSR_DCD : Nat := 0x80

/-- The status codes the driver uses. -/
inductive NTSTATUS where
  | STATUS_SUCCESS
  | STATUS_PENDING
  | STATUS_DEVICE_BUSY
  | STATUS_CANCELLED
  | STATUS_PORT_DISCONNECTED
  | STATUS_BUFFER_TOO_SMALL
  | STATUS_NOT_SUPPORTED
  | STATUS_INSUFFICIENT_RESOURCES
  deriving DecidableEq, Repr

open NTSTATUS

/-! ## Ring buffer -/

/-- The structure `RING_BUFFER` (the spin lock is not modelled). `Buffer` is the pool allocation. -/
structure RING_BUFFER where
  Buffer : List UCHAR
  Size : Nat
  Head : Nat
  Tail : Nat
  Count : Nat
  deriving DecidableEq, Repr

/-- The routine `RingBufferInit`. `Pool` is what `ExAllocatePool2` returned: `none` for
`NULL`, otherwise the `Size` allocated bytes. -/
def RingBufferInit (Pool : Option (List UCHAR)) (Size : Nat) : Except NTSTATUS RING_BUFFER :=
  match Pool with
  | none => Except.error STATUS_INSUFFICIENT_RESOURCES
  | some Buffer =>
    Except.ok { Buffer := Buffer, Size := Size, Head := 0, Tail := 0, Count := 0 }

/-- The `while` loop of `RingBufferWrite`; the last argument is the local `Written`. -/
def RingBufferWriteLoop : Nat → RING_BUFFER → List UCHAR → Nat → Nat → Option (RING_BUFFER × Nat)
  | 0, _, _, _, _ => none
  | fuel + 1, Ring, Data, Length, Written =>
    if Written < Length ∧ Ring.Count < Ring.Size then
      let ToWrite := min (min (usub Length Written) (usub Ring.Size Ring.Count))
        (usub Ring.Size Ring.Head)
      match RtlCopyMemory Ring.Buffer Ring.Head Data Written ToWrite with
      | none => none
      | some Buffer =>
        RingBufferWriteLoop fuel
          { Ring with
            Buffer := Buffer
            Head := uadd Ring.Head ToWrite % Ring.Size
            Count := uadd Ring.Count ToWrite }
          Data Length (uadd Written ToWrite)
    else
      some (Ring, Written)

/-- The call `RingBufferWrite(Ring, Data, Length)`: the new ring and the returned `Written`. Every
iteration but a first one with `Head = Size` copies at least one byte, so `Length + 2` units
of fuel are never used up. -/
def RingBufferWrite (Ring : RING_BUFFER) (Data : List UCHAR) (Length : Nat) :
    Option (RING_BUFFER × Nat) :=
  RingBufferWriteLoop (Length + 2) Ring Data Length 0

/-- The `while` loop of `RingBufferRead`; the last argument is the local `Read`. The modulo
by `Ring->Size` faults when `Size` is zero. -/
def RingBufferReadLoop :
    Nat → RING_BUFFER → List UCHAR → Nat → Nat → Option (RING_BUFFER × List UCHAR × Nat)
  | 0, _, _, _, _ => none
  | fuel + 1, Ring, Data, MaxLength, Read =>
    if Read < MaxLength ∧ 0 < Ring.Count then
      let ToRead := min (min (usub MaxLength Read) Ring.Count) (usub Ring.Size Ring.Tail)
      match RtlCopyMemory Data Read Ring.Buffer Ring.Tail ToRead with
      | none => none
      | some Data =>
        if Ring.Size = 0 then none
        else
          RingBufferReadLoop fuel
            { Ring with
              Tail := uadd Ring.Tail ToRead % Ring.Size
              Count := usub Ring.Count ToRead }
            Data MaxLength (uadd Read ToRead)
    else
      some (Ring, Data, Read)

/-- The call `RingBufferRead(Ring, Data, MaxLength)`: the new ring, the caller's buffer `Data` after
the copies, and the returned `Read`. -/
def RingBufferRead (Ring : RING_BUFFER) (Data : List UCHAR) (MaxLength : Nat) :
    Option (RING_BUFFER × List UCHAR × Nat) :=
  RingBufferReadLoop (MaxLength + 2) Ring Data MaxLength 0

/-- The routine `RingBufferBytesAvailable`. -/
def RingBufferBytesAvailable (Ring : RING_BUFFER) : Nat := Ring.Count

/-- The body of `case IOCTL_SERIAL_PURGE` of `VSerialDeviceControl` on the receive buffer. -/
def RingBufferPurge (Ring : RING_BUFFER) : RING_BUFFER :=
  { Ring with Head := 0, Tail := 0, Count := 0 }

/-- The bytes queued in the ring, oldest first: the `Count` bytes found from `Tail` on,
wrapping at the end of the storage. -/
def RING_BUFFER.Queued (Ring : RING_BUFFER) : List UCHAR :=
  ((Ring.Buffer ++ Ring.Buffer).drop Ring.Tail).take Ring.Count

/-- Typing of a ring: the storage is the `Size` bytes that `RingBufferInit` allocated, and
`Size` is a `ULONG`. -/
def RING_BUFFER.Allocated (Ring : RING_BUFFER) : Prop :=
  Ring.Buffer.length = Ring.Size ∧ Ring.Size < ULONG_MODULUS

instance (Ring : RING_BUFFER) : Decidable Ring.Allocated :=
  inferInstanceAs (Decidable (_ ∧ _))

/-- The ring buffer invariant of the data model: `0 ≤ Count ≤ Size`, `Head < Size` and
`Tail < Size`. -/
def RING_BUFFER.Invariant (Ring : RING_BUFFER) : Prop :=
  Ring.Count ≤ Ring.Size ∧ Ring.Head < Ring.Size ∧ Ring.Tail < Ring.Size

instance (Ring : RING_BUFFER) : Decidable Ring.Invariant :=
  inferInstanceAs (Decidable (_ ∧ _))

/-- The cursor relation: the write cursor is `Count` positions after the read cursor. -/
def RING_BUFFER.Cursors (Ring : RING_BUFFER) : Prop :=
  Ring.Head = (Ring.Tail + Ring.Count) % Ring.Size

instance (Ring : RING_BUFFER) : Decidable Ring.Cursors :=
  inferInstanceAs (Decidable (_ = _))

/-! ## Ports, requests and the driver state -/

/-- The two device objects of the driver, `g_DeviceObjects[0]` (the device `VirtualSerial0`)
and `g_DeviceObjects[1]` (the device `VirtualSerial1`). A `PDEVICE_OBJECT` is one of them. -/
inductive DEVICE_OBJECT where
  | VirtualSerial0
  | VirtualSerial1
  deriving DecidableEq, Repr

/-- The structure `SERIAL_CONFIG`. `Timeouts` is the array of five `ULONG`s. -/
structure SERIAL_CONFIG where
  BaudRate : Nat
  DataBits : Nat
  Parity : Nat
  StopBits : Nat
  Timeouts : List Nat
  WaitMask : Nat
  DtrState : Bool
  RtsState : Bool
  deriving DecidableEq, Repr

/-- The structure `DEVICE_EXTENSION`, without the names and the locks. `PendingReadIrp` is
the address of the pending request (`none` for `NULL`); `ReadTimer` is the due time the timer
is set to (`none` when it is not set). -/
structure DEVICE_EXTENSION where
  Peer : Option DEVICE_OBJECT
  PortIndex : Nat
  Config : SERIAL_CONFIG
  RxBuffer : RING_BUFFER
  PendingReadIrp : Option Nat
  ReadTimer : Option Int
  BytesWritten : Nat
  BytesRead : Nat
  deriving DecidableEq, Repr

/-- The fields of an `IRP` the driver uses. `Length` is `Parameters.Read.Length` or
`Parameters.Write.Length` of the current stack location, `SystemBuffer` is
`AssociatedIrp.SystemBuffer`, `CancelRoutine` tells whether `VSerialCancelRead` is registered
(`false` for `NULL`), `PendingReturned` is set by `IoMarkIrpPending`, and `Status` and
`Information` are `IoStatus`. -/
structure IRP where
  Length : Nat
  SystemBuffer : List UCHAR
  Cancel : Bool
  CancelRoutine : Bool
  PendingReturned : Bool
  Status : NTSTATUS
  Information : Nat
  deriving DecidableEq, Repr

/-- The state of the driver: the two device extensions, the requests by address, and the
requests handed to `IoCompleteRequest`, oldest first. -/
structure DRIVER where
  Extension0 : DEVICE_EXTENSION
  Extension1 : DEVICE_EXTENSION
  Irps : Nat → IRP
  Completed : List Nat

/-- The device extension `DeviceObject->DeviceExtension` of a port. -/
def DRIVER.Ext (s : DRIVER) : DEVICE_OBJECT → DEVICE_EXTENSION
  | DEVICE_OBJECT.VirtualSerial0 => s.Extension0
  | DEVICE_OBJECT.VirtualSerial1 => s.Extension1

/-- Store into the device extension of a port. -/
def DRIVER.setExt (s : DRIVER) (Dev : DEVICE_OBJECT) (DevExt : DEVICE_EXTENSION) : DRIVER :=
  match Dev with
  | DEVICE_OBJECT.VirtualSerial0 => { s with Extension0 := DevExt }
  | DEVICE_OBJECT.VirtualSerial1 => { s with Extension1 := DevExt }

/-- Store into the request at address `Irp`. -/
def DRIVER.setIrp (s : DRIVER) (Irp : Nat) (v : IRP) : DRIVER :=
  { s with Irps := fun i => if i = Irp then v else s.Irps i }

/-! ## Kernel routines the driver calls -/

/-- The routine `IoCompleteRequest`: the request is handed back to the I/O manager. -/
def IoCompleteRequest (s : DRIVER) (Irp : Nat) : DRIVER :=
  { s with Completed := s.Completed ++ [Irp] }

/-- The routine `IoSetCancelRoutine`: exchange the cancel routine of the request; the second
component tells whether a routine was registered before. -/
def IoSetCancelRoutine (s : DRIVER) (Irp : Nat) (Routine : Bool) : DRIVER × Bool :=
  (s.setIrp Irp { s.Irps Irp with CancelRoutine := Routine }, (s.Irps Irp).CancelRoutine)

/-- The routine `IoMarkIrpPending`. -/
def IoMarkIrpPending (s : DRIVER) (Irp : Nat) : DRIVER :=
  s.setIrp Irp { s.Irps Irp with PendingReturned := true }

/-- The call `KeCancelTimer(&DevExt->ReadTimer)`. -/
def KeCancelTimer (s : DRIVER) (Dev : DEVICE_OBJECT) : DRIVER :=
  s.setExt Dev { s.Ext Dev with ReadTimer := none }

/-- The call `KeSetTimer(&DevExt->ReadTimer, Timeout, &DevExt->ReadDpc)`. -/
def KeSetTimer (s : DRIVER) (Dev : DEVICE_OBJECT) (Timeout : Int) : DRIVER :=
  s.setExt Dev { s.Ext Dev with ReadTimer := some Timeout }

/-- A value as a `LONGLONG` (64 bits, two's complement). -/
def toLONGLONG (x : Int) : Int :=
  (x + 9223372036854775808) % 18446744073709551616 - 9223372036854775808

/-! ## Dispatch routines -/

/-- The cancel routine `VSerialCancelRead(DeviceObject, Irp)`. -/
def VSerialCancelRead (s : DRIVER) (Dev : DEVICE_OBJECT) (Irp : Nat) : DRIVER :=
  let s :=
    if (s.Ext Dev).PendingReadIrp = some Irp then
      s.setExt Dev { s.Ext Dev with PendingReadIrp := none }
    else s
  let s := KeCancelTimer s Dev
  let s := s.setIrp Irp { s.Irps Irp with Status := STATUS_CANCELLED, Information := 0 }
  IoCompleteRequest s Irp

/-- The dispatch routine `VSerialCleanup(DeviceObject, Irp)`. -/
def VSerialCleanup (s : DRIVER) (Dev : DEVICE_OBJECT) (Irp : Nat) : DRIVER × NTSTATUS :=
  let PendingIrp := (s.Ext Dev).PendingReadIrp
  let s := s.setExt Dev { s.Ext Dev with PendingReadIrp := none }
  let s :=
    match PendingIrp with
    | some PendingIrp =>
      let s := KeCancelTimer s Dev
      let s := s.setIrp PendingIrp
        { s.Irps PendingIrp with Status := STATUS_CANCELLED, Information := 0 }
      IoCompleteRequest s PendingIrp
    | none => s
  let s := s.setIrp Irp { s.Irps Irp with Status := STATUS_SUCCESS, Information := 0 }
  (IoCompleteRequest s Irp, STATUS_SUCCESS)

/-- The routine `TryCompleteRead(DevExt)`. -/
def TryCompleteRead (s : DRIVER) (Dev : DEVICE_OBJECT) : Option DRIVER :=
  match (s.Ext Dev).PendingReadIrp with
  | none => some s
  | some Irp =>
    if RingBufferBytesAvailable (s.Ext Dev).RxBuffer = 0 then some s
    else
      let s := s.setExt Dev { s.Ext Dev with PendingReadIrp := none }
      let (s, Routine) := IoSetCancelRoutine s Irp false
      if Routine = false then some s
      else
        let s := KeCancelTimer s Dev
        let BytesRequested := (s.Irps Irp).Length
        match RingBufferRead (s.Ext Dev).RxBuffer (s.Irps Irp).SystemBuffer BytesRequested with
        | none => none
        | some (Ring, Buffer, BytesRead) =>
          let s := s.setExt Dev { s.Ext Dev with RxBuffer := Ring }
          let s := s.setIrp Irp { s.Irps Irp with SystemBuffer := Buffer }
          let s := s.setExt Dev
            { s.Ext Dev with BytesRead := uadd (s.Ext Dev).BytesRead BytesRead }
          let s := s.setIrp Irp
            { s.Irps Irp with Status := STATUS_SUCCESS, Information := BytesRead }
          some (IoCompleteRequest s Irp)

/-- The routine `VSerialReadDpc`, the routine the read timer runs; `DeferredContext` is `DevExt`. -/
def VSerialReadDpc (s : DRIVER) (Dev : DEVICE_OBJECT) : Option DRIVER :=
  TryCompleteRead s Dev

/-- The end of `VSerialRead`, from `IoMarkIrpPending` on: the request is parked in the slot
and the timer is set. -/
def VSerialReadPend (s : DRIVER) (Dev : DEVICE_OBJECT) (Irp : Nat) : DRIVER × NTSTATUS :=
  let s := IoMarkIrpPending s Irp
  let s := s.setExt Dev { s.Ext Dev with PendingReadIrp := some Irp }
  let ReadTotalConstant := (s.Ext Dev).Config.Timeouts.getD 2 0
  let Timeout : Int :=
    if 0 < ReadTotalConstant then
      toLONGLONG (-(toLONGLONG ((ReadTotalConstant : Int) * 10000)))
    else -10000000
  (KeSetTimer s Dev Timeout, STATUS_PENDING)

/-- The dispatch routine `VSerialRead(DeviceObject, Irp)`: the new state and the returned status. -/
def VSerialRead (s : DRIVER) (Dev : DEVICE_OBJECT) (Irp : Nat) : Option (DRIVER × NTSTATUS) :=
  let BytesRequested := (s.Irps Irp).Length
  if BytesRequested = 0 then
    let s := s.setIrp Irp { s.Irps Irp with Status := STATUS_SUCCESS, Information := 0 }
    some (IoCompleteRequest s Irp, STATUS_SUCCESS)
  else
    match RingBufferRead (s.Ext Dev).RxBuffer (s.Irps Irp).SystemBuffer BytesRequested with
    | none => none
    | some (Ring, Buffer, BytesRead) =>
      let s := s.setExt Dev { s.Ext Dev with RxBuffer := Ring }
      let s := s.setIrp Irp { s.Irps Irp with SystemBuffer := Buffer }
      if 0 < BytesRead then
        let s := s.setExt Dev
          { s.Ext Dev with BytesRead := uadd (s.Ext Dev).BytesRead BytesRead }
        let s := s.setIrp Irp
          { s.Irps Irp with Status := STATUS_SUCCESS, Information := BytesRead }
        some (IoCompleteRequest s Irp, STATUS_SUCCESS)
      else if (s.Ext Dev).PendingReadIrp ≠ none then
        let s := s.setIrp Irp { s.Irps Irp with Status := STATUS_DEVICE_BUSY, Information := 0 }
        some (IoCompleteRequest s Irp, STATUS_DEVICE_BUSY)
      else
        let s := (IoSetCancelRoutine s Irp true).1
        if (s.Irps Irp).Cancel then
          let (s, Routine) := IoSetCancelRoutine s Irp false
          if Routine then
            let s := s.setIrp Irp
              { s.Irps Irp with Status := STATUS_CANCELLED, Information := 0 }
            some (IoCompleteRequest s Irp, STATUS_CANCELLED)
          else some (VSerialReadPend s Dev Irp)
        else some (VSerialReadPend s Dev Irp)

/-- The dispatch routine `VSerialWrite(DeviceObject, Irp)`: the new state and the returned status. -/
def VSerialWrite (s : DRIVER) (Dev : DEVICE_OBJECT) (Irp : Nat) : Option (DRIVER × NTSTATUS) :=
  let BytesToWrite := (s.Irps Irp).Length
  if BytesToWrite = 0 then
    let s := s.setIrp Irp { s.Irps Irp with Status := STATUS_SUCCESS, Information := 0 }
    some (IoCompleteRequest s Irp, STATUS_SUCCESS)
  else
    match (s.Ext Dev).Peer with
    | none =>
      let s := s.setIrp Irp
        { s.Irps Irp with Status := STATUS_PORT_DISCONNECTED, Information := 0 }
      some (IoCompleteRequest s Irp, STATUS_PORT_DISCONNECTED)
    | some Peer =>
      match RingBufferWrite (s.Ext Peer).RxBuffer (s.Irps Irp).SystemBuffer BytesToWrite with
      | none => none
      | some (Ring, BytesWritten) =>
        let s := s.setExt Peer { s.Ext Peer with RxBuffer := Ring }
        let s := s.setExt Dev
          { s.Ext Dev with BytesWritten := uadd (s.Ext Dev).BytesWritten BytesWritten }
        match TryCompleteRead s Peer with
        | none => none
        | some s =>
          let s := s.setIrp Irp
            { s.Irps Irp with Status := STATUS_SUCCESS, Information := BytesWritten }
          some (IoCompleteRequest s Irp, STATUS_SUCCESS)

/-! ## Device control -/

/-- The value of `sizeof(ULONG)`. -/
def sizeof_ULONG : Nat := 4

/-- The four bytes of a `ULONG` in memory, least significant first. -/
def ULONG_bytes (v : Nat) : List UCHAR :=
  [v % 256, v / 256 % 256, v / 65536 % 256, v / 16777216 % 256]

/-- The bytes of an array of `ULONG`s in memory. -/
def ULONGs_bytes : List Nat → List UCHAR
  | [] => []
  | v :: vs => ULONG_bytes v ++ ULONGs_bytes vs

/-- The store `((PULONG)Buffer)[Index] = v`; `none` when it leaves the buffer. -/
def storeULONG (Buffer : List UCHAR) (Index v : Nat) : Option (List UCHAR) :=
  RtlCopyMemory Buffer (sizeof_ULONG * Index) (ULONG_bytes v) 0 sizeof_ULONG

/-- The load `((PULONG)Buffer)[Index]`; `none` when it leaves the buffer. -/
def loadULONG (Buffer : List UCHAR) (Index : Nat) : Option Nat :=
  match Buffer.drop (sizeof_ULONG * Index) with
  | b0 :: b1 :: b2 :: b3 :: _ =>
    some (b0 % 256 + 256 * (b1 % 256) + 65536 * (b2 % 256) + 16777216 * (b3 % 256))
  | _ => none

/-- The call `RtlZeroMemory(Buffer, Length)`. -/
def RtlZeroMemory (Buffer : List UCHAR) (Length : Nat) : Option (List UCHAR) :=
  RtlCopyMemory Buffer 0 (List.replicate Length 0) 0 Length

/-- The control code of a request, by the `case` label of the `switch` of
`VSerialDeviceControl` it is equal to; `Unknown` stands for every code the `switch` sends to
`default`. -/
inductive IOCTL where
  | IOCTL_SERIAL_GET_BAUD_RATE
  | IOCTL_SERIAL_SET_BAUD_RATE
  | IOCTL_SERIAL_GET_LINE_CONTROL
  | IOCTL_SERIAL_SET_LINE_CONTROL
  | IOCTL_SERIAL_GET_TIMEOUTS
  | IOCTL_SERIAL_SET_TIMEOUTS
  | IOCTL_SERIAL_GET_CHARS
  | IOCTL_SERIAL_SET_CHARS
  | IOCTL_SERIAL_GET_HANDFLOW
  | IOCTL_SERIAL_SET_HANDFLOW
  | IOCTL_SERIAL_GET_MODEMSTATUS
  | IOCTL_SERIAL_GET_COMMSTATUS
  | IOCTL_SERIAL_PURGE
  | IOCTL_SERIAL_SET_QUEUE_SIZE
  | IOCTL_SERIAL_SET_DTR
  | IOCTL_SERIAL_CLR_DTR
  | IOCTL_SERIAL_SET_RTS
  | IOCTL_SERIAL_CLR_RTS
  | IOCTL_SERIAL_SET_BREAK_ON
  | IOCTL_SERIAL_SET_BREAK_OFF
  | IOCTL_SERIAL_SET_WAIT_MASK
  | IOCTL_SERIAL_GET_WAIT_MASK
  | IOCTL_SERIAL_WAIT_ON_MASK
  | IOCTL_SERIAL_GET_PROPERTIES
  | Unknown (IoControlCode : Nat)
  deriving DecidableEq, Repr

open IOCTL

/-- The local `ModemStatus` of `case IOCTL_SERIAL_GET_MODEMSTATUS` once it is computed: the
peer's DTR gives DSR and DCD, the peer's RTS gives CTS, no peer gives nothing. -/
def ModemStatus (s : DRIVER) (Dev : DEVICE_OBJECT) : Nat :=
  match (s.Ext Dev).Peer with
  | none => 0
  | some Peer =>
    let PeerExt := s.Ext Peer
    let ModemStatus :=
      if PeerExt.Config.DtrState then 0 ||| (SERIAL_MSR_DSR ||| SERIAL_MSR_DCD) else 0
    if PeerExt.Config.RtsState then ModemStatus ||| SERIAL_MSR_CTS else ModemStatus

/-- The `switch` of `VSerialDeviceControl`: the device extension, the system buffer, `Status`
and `Information` when control leaves it. `IoControlCode`, `InputLength` and `OutputLength`
are the locals of that name, read from the stack location of the request. -/
def VSerialDeviceControlSwitch (s : DRIVER) (Dev : DEVICE_OBJECT) (Buffer : List UCHAR)
    (IoControlCode : IOCTL) (InputLength OutputLength : Nat) :
    Option (DEVICE_EXTENSION × List UCHAR × NTSTATUS × Nat) :=
  let DevExt := s.Ext Dev
  match IoControlCode with
  | IOCTL_SERIAL_GET_BAUD_RATE =>
    if sizeof_ULONG ≤ OutputLength then
      match storeULONG Buffer 0 DevExt.Config.BaudRate with
      | none => none
      | some Buffer => some (DevExt, Buffer, STATUS_SUCCESS, sizeof_ULONG)
    else some (DevExt, Buffer, STATUS_BUFFER_TOO_SMALL, 0)
  | IOCTL_SERIAL_SET_BAUD_RATE =>
    if sizeof_ULONG ≤ InputLength then
      match loadULONG Buffer 0 with
      | none => none
      | some BaudRate =>
        some ({ DevExt with Config := { DevExt.Config with BaudRate := BaudRate } }, Buffer,
          STATUS_SUCCESS, 0)
    else some (DevExt, Buffer, STATUS_BUFFER_TOO_SMALL, 0)
  | IOCTL_SERIAL_GET_LINE_CONTROL =>
    if 3 ≤ OutputLength then
      match RtlCopyMemory Buffer 0
          [DevExt.Config.StopBits, DevExt.Config.Parity, DevExt.Config.DataBits] 0 3 with
      | none => none
      | some Buffer => some (DevExt, Buffer, STATUS_SUCCESS, 3)
    else some (DevExt, Buffer, STATUS_BUFFER_TOO_SMALL, 0)
  | IOCTL_SERIAL_SET_LINE_CONTROL =>
    if 3 ≤ InputLength then
      match Buffer with
      | In0 :: In1 :: In2 :: _ =>
        some ({ DevExt with
            Config := { DevExt.Config with StopBits := In0, Parity := In1, DataBits := In2 } },
          Buffer, STATUS_SUCCESS, 0)
      | _ => none
    else some (DevExt, Buffer, STATUS_BUFFER_TOO_SMALL, 0)
  | IOCTL_SERIAL_GET_TIMEOUTS =>
    if 5 * sizeof_ULONG ≤ OutputLength then
      match RtlCopyMemory Buffer 0 (ULONGs_bytes DevExt.Config.Timeouts) 0
          (5 * sizeof_ULONG) with
      | none => none
      | some Buffer => some (DevExt, Buffer, STATUS_SUCCESS, 5 * sizeof_ULONG)
    else some (DevExt, Buffer, STATUS_BUFFER_TOO_SMALL, 0)
  | IOCTL_SERIAL_SET_TIMEOUTS =>
    if 5 * sizeof_ULONG ≤ InputLength then
      match loadULONG Buffer 0, loadULONG Buffer 1, loadULONG Buffer 2, loadULONG Buffer 3,
          loadULONG Buffer 4 with
      | some t0, some t1, some t2, some t3, some t4 =>
        some ({ DevExt with Config := { DevExt.Config with Timeouts := [t0, t1, t2, t3, t4] } },
          Buffer, STATUS_SUCCESS, 0)
      | _, _, _, _, _ => none
    else some (DevExt, Buffer, STATUS_BUFFER_TOO_SMALL, 0)
  | IOCTL_SERIAL_GET_MODEMSTATUS =>
    if sizeof_ULONG ≤ OutputLength then
      match storeULONG Buffer 0 (ModemStatus s Dev) with
      | none => none
      | some Buffer => some (DevExt, Buffer, STATUS_SUCCESS, sizeof_ULONG)
    else some (DevExt, Buffer, STATUS_BUFFER_TOO_SMALL, 0)
  | IOCTL_SERIAL_SET_DTR =>
    some ({ DevExt with Config := { DevExt.Config with DtrState := true } }, Buffer,
      STATUS_SUCCESS, 0)
  | IOCTL_SERIAL_CLR_DTR =>
    some ({ DevExt with Config := { DevExt.Config with DtrState := false } }, Buffer,
      STATUS_SUCCESS, 0)
  | IOCTL_SERIAL_SET_RTS =>
    some ({ DevExt with Config := { DevExt.Config with RtsState := true } }, Buffer,
      STATUS_SUCCESS, 0)
  | IOCTL_SERIAL_CLR_RTS =>
    some ({ DevExt with Config := { DevExt.Config with RtsState := false } }, Buffer,
      STATUS_SUCCESS, 0)
  | IOCTL_SERIAL_GET_WAIT_MASK =>
    if sizeof_ULONG ≤ OutputLength then
      match storeULONG Buffer 0 DevExt.Config.WaitMask with
      | none => none
      | some Buffer => some (DevExt, Buffer, STATUS_SUCCESS, sizeof_ULONG)
    else some (DevExt, Buffer, STATUS_BUFFER_TOO_SMALL, 0)
  | IOCTL_SERIAL_SET_WAIT_MASK =>
    if sizeof_ULONG ≤ InputLength then
      match loadULONG Buffer 0 with
      | none => none
      | some WaitMask =>
        some ({ DevExt with Config := { DevExt.Config with WaitMask := WaitMask } }, Buffer,
          STATUS_SUCCESS, 0)
    else some (DevExt, Buffer, STATUS_BUFFER_TOO_SMALL, 0)
  | IOCTL_SERIAL_PURGE =>
    some ({ DevExt with RxBuffer := RingBufferPurge DevExt.RxBuffer }, Buffer,
      STATUS_SUCCESS, 0)
  | IOCTL_SERIAL_SET_QUEUE_SIZE => some (DevExt, Buffer, STATUS_SUCCESS, 0)
  | IOCTL_SERIAL_SET_BREAK_ON => some (DevExt, Buffer, STATUS_SUCCESS, 0)
  | IOCTL_SERIAL_SET_BREAK_OFF => some (DevExt, Buffer, STATUS_SUCCESS, 0)
  | IOCTL_SERIAL_GET_CHARS => some (DevExt, Buffer, STATUS_SUCCESS, 0)
  | IOCTL_SERIAL_SET_CHARS => some (DevExt, Buffer, STATUS_SUCCESS, 0)
  | IOCTL_SERIAL_GET_HANDFLOW => some (DevExt, Buffer, STATUS_SUCCESS, 0)
  | IOCTL_SERIAL_SET_HANDFLOW => some (DevExt, Buffer, STATUS_SUCCESS, 0)
  | IOCTL_SERIAL_WAIT_ON_MASK => some (DevExt, Buffer, STATUS_SUCCESS, 0)
  | IOCTL_SERIAL_GET_COMMSTATUS =>
    if 18 ≤ OutputLength then
      match RtlZeroMemory Buffer 18 with
      | none => none
      | some Buffer =>
        match storeULONG Buffer 2 (RingBufferBytesAvailable DevExt.RxBuffer) with
        | none => none
        | some Buffer => some (DevExt, Buffer, STATUS_SUCCESS, 18)
    else some (DevExt, Buffer, STATUS_BUFFER_TOO_SMALL, 0)
  | IOCTL_SERIAL_GET_PROPERTIES =>
    if 64 ≤ OutputLength then
      match RtlZeroMemory Buffer 64 with
      | none => none
      | some Buffer =>
        match RtlCopyMemory Buffer 0
            (ULONGs_bytes [64, 0, 0xFFFFFFFF, 0, VSERIAL_BUFFER_SIZE, VSERIAL_BUFFER_SIZE,
              0x10000001, 0, 0xFF, 0xFF, 0x10000001, 0x0F0F, VSERIAL_BUFFER_SIZE,
              VSERIAL_BUFFER_SIZE]) 0 (14 * sizeof_ULONG) with
        | none => none
        | some Buffer => some (DevExt, Buffer, STATUS_SUCCESS, 64)
    else some (DevExt, Buffer, STATUS_BUFFER_TOO_SMALL, 0)
  | Unknown _ => some (DevExt, Buffer, STATUS_NOT_SUPPORTED, 0)

/-- The dispatch routine `VSerialDeviceControl(DeviceObject, Irp)`: the new state and the
returned status. `IoControlCode`, `InputLength` and `OutputLength` are the parameters of the
request (`Parameters.DeviceIoControl` of its stack location). -/
def VSerialDeviceControl (s : DRIVER) (Dev : DEVICE_OBJECT) (Irp : Nat)
    (IoControlCode : IOCTL) (InputLength OutputLength : Nat) : Option (DRIVER × NTSTATUS) :=
  match VSerialDeviceControlSwitch s Dev (s.Irps Irp).SystemBuffer IoControlCode InputLength
      OutputLength with
  | none => none
  | some (DevExt, Buffer, Status, Information) =>
    let s := s.setExt Dev DevExt
    let s := s.setIrp Irp
      { s.Irps Irp with SystemBuffer := Buffer, Status := Status, Information := Information }
    some (IoCompleteRequest s Irp, Status)

/-- The cancellation signal: the kernel's `IoCancelIrp`. It sets `Irp->Cancel`, takes the
cancel routine out of the request and, when there was one, runs it; the result tells whether
it did. A request whose routine was taken out before is left to whoever took it: this is the
protocol `TryCompleteRead` follows on its side, where a `NULL` result of
`IoSetCancelRoutine(Irp, NULL)` means "IRP is being cancelled, let cancel routine handle
it". -/
def IoCancelIrp (s : DRIVER) (Dev : DEVICE_OBJECT) (Irp : Nat) : DRIVER × Bool :=
  let s := s.setIrp Irp { s.Irps Irp with Cancel := true }
  let (s, Routine) := IoSetCancelRoutine s Irp false
  if Routine then (VSerialCancelRead s Dev Irp, true) else (s, false)

/-- The first half of the kernel's `IoCancelIrp`, up to the call of the cancel routine: it
sets `Irp->Cancel` and takes the cancel routine out of the request; the result tells whether
there was one, that is, whether `VSerialCancelRead` is going to be entered. Other routines
can run before the cancel routine takes `ReadLock`. -/
def IoCancelIrpTakeRoutine (s : DRIVER) (Irp : Nat) : DRIVER × Bool :=
  let s := s.setIrp Irp { s.Irps Irp with Cancel := true }
  IoSetCancelRoutine s Irp false

/-! ## The three completion paths of a pending read -/

/-- The ways a pending read can be brought to completion: a write request arrives on the
peer (`VSerialWrite`, which ends in `TryCompleteRead`), the read timer expires
(`VSerialReadDpc`), or the request is cancelled (`IoCancelIrp`, which runs
`VSerialCancelRead`). -/
inductive COMPLETION_PATH where
  | Producer (Irp : Nat)
  | Timer
  | Cancel
  deriving DecidableEq, Repr

/-- One path fires, as one atomic step, against the read `Read` parked on port `Dev`, whose
peer is `Peer`. -/
def COMPLETION_PATH.fire (s : DRIVER) (Dev Peer : DEVICE_OBJECT) (Read : Nat) :
    COMPLETION_PATH → Option DRIVER
  | COMPLETION_PATH.Producer Irp =>
    match VSerialWrite s Peer Irp with
    | none => none
    | some (s, _) => some s
  | COMPLETION_PATH.Timer => VSerialReadDpc s Dev
  | COMPLETION_PATH.Cancel => some (IoCancelIrp s Dev Read).1

/-- The paths fire one after the other, first to last. -/
def fireAll (s : DRIVER) (Dev Peer : DEVICE_OBJECT) (Read : Nat) : List COMPLETION_PATH → Option DRIVER
  | [] => some s
  | p :: ps =>
    match p.fire s Dev Peer Read with
    | none => none
    | some s => fireAll s Dev Peer Read ps

/-- What holds of the pair throughout: port `B` writes into port `A`, the receive ring of `A`
is well formed, and the write request `W` carries `Length ≥ 1` bytes. -/
def PairLinked (s : DRIVER) (A B : DEVICE_OBJECT) (W : Nat) : Prop :=
  (s.Ext B).Peer = some A ∧ (s.Ext A).RxBuffer.Allocated ∧ (s.Ext A).RxBuffer.Invariant ∧
    (s.Irps W).SystemBuffer.length = (s.Irps W).Length ∧ (s.Irps W).Length ≠ 0 ∧
    (s.Irps W).Length < ULONG_MODULUS

/-- The read `R` is parked on port `A`: it is in the pending slot, its cancel routine is
registered, and the receive buffer is empty. -/
def ReadParked (s : DRIVER) (A B : DEVICE_OBJECT) (R W : Nat) : Prop :=
  PairLinked s A B W ∧ (s.Ext A).PendingReadIrp = some R ∧ (s.Irps R).CancelRoutine = true ∧
    (s.Ext A).RxBuffer.Count = 0 ∧ (s.Irps R).SystemBuffer.length = (s.Irps R).Length ∧
    (s.Irps R).Length < ULONG_MODULUS

/-- The read `R` has left port `A`: the slot is empty and its cancel routine is gone. -/
def ReadSettled (s : DRIVER) (A B : DEVICE_OBJECT) (R W : Nat) : Prop :=
  PairLinked s A B W ∧ (s.Ext A).PendingReadIrp = none ∧ (s.Irps R).CancelRoutine = false

/-! ## A worked example: the linked pair with a read parked on port 0 -/

/-- The configuration `CreateVirtualPort` sets up. -/
def defaultConfig : SERIAL_CONFIG :=
  { BaudRate := 9600, DataBits := 8, Parity := 0, StopBits := 0, Timeouts := [0, 0, 0, 0, 0],
    WaitMask := 0, DtrState := false, RtsState := false }

/-- A port as `CreateVirtualPort` and `DriverEntry` leave it, with a ring of `Size` bytes. -/
def freshPort (Index : Nat) (Peer : DEVICE_OBJECT) (Size : Nat) : DEVICE_EXTENSION :=
  { Peer := some Peer, PortIndex := Index, Config := defaultConfig,
    RxBuffer :=
      { Buffer := List.replicate Size 0, Size := Size, Head := 0, Tail := 0, Count := 0 },
    PendingReadIrp := none, ReadTimer := none, BytesWritten := 0, BytesRead := 0 }

/-- A request of `Length` bytes with the given buffer that nobody has touched yet. -/
def freshIrp (Buffer : List UCHAR) (Length : Nat) : IRP :=
  { Length := Length, SystemBuffer := Buffer, Cancel := false, CancelRoutine := false,
    PendingReturned := false, Status := STATUS_SUCCESS, Information := 0 }

/-- The linked pair after `DriverEntry`. Request 1 is a read of 16 bytes, request 2 a write of
the five bytes of "hello", every other address a read of 4 bytes. -/
def exampleDriver : DRIVER :=
  { Extension0 := freshPort 0 DEVICE_OBJECT.VirtualSerial1 VSERIAL_BUFFER_SIZE,
    Extension1 := freshPort 1 DEVICE_OBJECT.VirtualSerial0 VSERIAL_BUFFER_SIZE,
    Irps := fun i =>
      if i = 1 then freshIrp (List.replicate 16 0) 16
      else if i = 2 then freshIrp [104, 101, 108, 108, 111] 5
      else freshIrp [0, 0, 0, 0] 4,
    Completed := [] }

/-- The pair of `exampleDriver` once `VSerialRead` has parked request 1 on port 0: the
request is in the pending slot with its cancel routine registered, and the timer is set to
one second. -/
def examplePended : DRIVER :=
  (VSerialReadPend
    (exampleDriver.setIrp 1 { exampleDriver.Irps 1 with CancelRoutine := true }) DEVICE_OBJECT.VirtualSerial0 1).1

/-- The pair of `exampleDriver` before `DriverEntry` has linked the ports: no port has a
peer. -/
def exampleUnlinked : DRIVER :=
  { exampleDriver with
    Extension0 := { exampleDriver.Extension0 with Peer := none }
    Extension1 := { exampleDriver.Extension1 with Peer := none } }

/-- The pair of `examplePended` with one more request, request 5, of zero bytes. -/
def exampleZeroLength : DRIVER :=
  examplePended.setIrp 5 (freshIrp [] 0)

/-- The pair of `exampleDriver` in which the caller of request 3 has already asked for its
cancellation. -/
def exampleCancelled : DRIVER :=
  exampleDriver.setIrp 3 { freshIrp [0, 0, 0, 0] 4 with Cancel := true }

/-- The pair of `exampleDriver` after port 0 was given the timeouts `7, 0, 250, 0, 9`: its
read-total-timeout constant is 250 ms. -/
def exampleTimed : DRIVER :=
  { exampleDriver with
    Extension0 :=
      { exampleDriver.Extension0 with
        Config := { defaultConfig with Timeouts := [7, 0, 250, 0, 9] } } }

/-- The pair of `exampleTimed` once `VSerialRead` has parked request 1 on port 0. -/
def exampleTimedPended : DRIVER :=
  (VSerialReadPend
    (exampleTimed.setIrp 1 { exampleTimed.Irps 1 with CancelRoutine := true })
    DEVICE_OBJECT.VirtualSerial0 1).1

/-- The 5000 bytes `0, 1, ..., 255, 0, 1, ...`. -/
@[irreducible] def exampleData : List UCHAR :=
  (List.range 5000).map (fun b => b % 256)

/-- The pair of `exampleDriver` with two more requests: request 4 is a write of the 5000
bytes of `exampleData`, request 6 a read with a buffer of 4096 bytes. -/
def exampleLarge : DRIVER :=
  { exampleDriver with
    Irps := fun i =>
      if i = 4 then freshIrp exampleData 5000
      else if i = 6 then freshIrp (List.replicate 4096 0) 4096
      else exampleDriver.Irps i }

/-- The pair of `exampleDriver` after port 1 has raised DTR and left RTS low. -/
def exampleModem : DRIVER :=
  { exampleDriver with
    Extension1 :=
      { exampleDriver.Extension1 with
        Config := { defaultConfig with DtrState := true, RtsState := false } } }

/-! ## Call sequences on one ring -/

/-- One call on a ring buffer: `RingBufferWrite(Ring, Data, Length)` or
`RingBufferRead(Ring, Data, MaxLength)`, with the caller's buffer. -/
inductive RING_CALL where
  | Write (Data : List UCHAR) (Length : Nat)
  | Read (Data : List UCHAR) (MaxLength : Nat)
  deriving DecidableEq, Repr

/-- Typing of a call: the caller's buffer holds `Length` bytes and `Length` is a `ULONG`. -/
def RING_CALL.WellTyped : RING_CALL → Prop
  | RING_CALL.Write Data Length => Data.length = Length ∧ Length < ULONG_MODULUS
  | RING_CALL.Read Data MaxLength => Data.length = MaxLength ∧ MaxLength < ULONG_MODULUS

instance (c : RING_CALL) : Decidable c.WellTyped := by
  cases c <;> exact inferInstanceAs (Decidable (_ ∧ _))

/-- A ring together with what its callers have observed so far: the accepted part of every
write (`Pushed`), the bytes every read returned (`Popped`), both in call order, and the sums
of the return values. -/
structure RING_HISTORY where
  Ring : RING_BUFFER
  Pushed : List UCHAR
  Popped : List UCHAR
  BytesPushed : Nat
  BytesPopped : Nat
  deriving DecidableEq, Repr

/-- A ring on which nothing has been called yet. -/
def RING_HISTORY.start (Ring : RING_BUFFER) : RING_HISTORY :=
  { Ring := Ring, Pushed := [], Popped := [], BytesPushed := 0, BytesPopped := 0 }

/-- Perform one call and record what the caller observes. -/
def RING_HISTORY.call (h : RING_HISTORY) : RING_CALL → Option RING_HISTORY
  | RING_CALL.Write Data Length =>
    match RingBufferWrite h.Ring Data Length with
    | none => none
    | some (Ring, Written) =>
      some { h with
        Ring := Ring
        Pushed := h.Pushed ++ Data.take Written
        BytesPushed := h.BytesPushed + Written }
  | RING_CALL.Read Data MaxLength =>
    match RingBufferRead h.Ring Data MaxLength with
    | none => none
    | some (Ring, Data, Read) =>
      some { h with
        Ring := Ring
        Popped := h.Popped ++ Data.take Read
        BytesPopped := h.BytesPopped + Read }

/-- Perform a sequence of calls, first to last. -/
def RING_HISTORY.run (h : RING_HISTORY) : List RING_CALL → Option RING_HISTORY
  | [] => some h
  | c :: cs =>
    match h.call c with
    | none => none
    | some h => h.run cs

/-- What links a ring to the observations of its callers: the ring is well formed, the
accepted bytes are the returned bytes followed by the queued ones, and the byte counts agree. -/
def RING_HISTORY.Consistent (h : RING_HISTORY) : Prop :=
  h.Ring.Allocated ∧ h.Ring.Invariant ∧ h.Ring.Cursors ∧
    h.Pushed = h.Popped ++ h.Ring.Queued ∧ h.BytesPushed = h.BytesPopped + h.Ring.Count

/-- A four byte ring holding `7, 8, 9`, with the write cursor on the last free byte. -/
def exampleRing : RING_BUFFER :=
  { Buffer := [7, 8, 9, 0], Size := 4, Head := 3, Tail := 0, Count := 3 }

/-- Calls that make the data wrap around the end of a four byte ring. -/
def exampleCalls : List RING_CALL :=
  [RING_CALL.Write [1, 2, 3] 3, RING_CALL.Read [0, 0] 2, RING_CALL.Write [4, 5, 6, 7] 4,
    RING_CALL.Read [0, 0, 0, 0, 0] 5]

/-- A pair whose port 0 has the four byte ring `exampleRing` (holding `7, 8, 9`) as receive
buffer; request 3 is a read of five bytes. -/
def exampleQueued : DRIVER :=
  { exampleDriver with
    Extension0 := { exampleDriver.Extension0 with RxBuffer := exampleRing }
    Irps := fun i => if i = 3 then freshIrp [0, 0, 0, 0, 0] 5 else exampleDriver.Irps i }

/-! ## The copy loops with their iterations recorded -/

/-- One iteration of a copy loop: the index of the ring storage the `RtlCopyMemory` of that
iteration starts at (`Ring->Head` in a write, `Ring->Tail` in a read) and the number of bytes
it moves (`ToWrite` or `ToRead`). -/
structure RING_COPY where
  Offset : Nat
  Bytes : Nat
  deriving DecidableEq, Repr

/-- The `while` loop of `RingBufferWrite` as in `RingBufferWriteLoop`, with one more result:
the iterations it went through, first to last. -/
def RingBufferWriteLoopTraced :
    Nat → RING_BUFFER → List UCHAR → Nat → Nat → Option (RING_BUFFER × Nat × List RING_COPY)
  | 0, _, _, _, _ => none
  | fuel + 1, Ring, Data, Length, Written =>
    if Written < Length ∧ Ring.Count < Ring.Size then
      let ToWrite := min (min (usub Length Written) (usub Ring.Size Ring.Count))
        (usub Ring.Size Ring.Head)
      match RtlCopyMemory Ring.Buffer Ring.Head Data Written ToWrite with
      | none => none
      | some Buffer =>
        match RingBufferWriteLoopTraced fuel
          { Ring with
            Buffer := Buffer
            Head := uadd Ring.Head ToWrite % Ring.Size
            Count := uadd Ring.Count ToWrite }
          Data Length (uadd Written ToWrite) with
        | none => none
        | some (Ring', Written', Copies) =>
          some (Ring', Written', { Offset := Ring.Head, Bytes := ToWrite } :: Copies)
    else
      some (Ring, Written, [])

/-- The `while` loop of `RingBufferRead` as in `RingBufferReadLoop`, with one more result:
the iterations it went through, first to last. -/
def RingBufferReadLoopTraced :
    Nat → RING_BUFFER → List UCHAR → Nat → Nat →
      Option (RING_BUFFER × List UCHAR × Nat × List RING_COPY)
  | 0, _, _, _, _ => none
  | fuel + 1, Ring, Data, MaxLength, Read =>
    if Read < MaxLength ∧ 0 < Ring.Count then
      let ToRead := min (min (usub MaxLength Read) Ring.Count) (usub Ring.Size Ring.Tail)
      match RtlCopyMemory Data Read Ring.Buffer Ring.Tail ToRead with
      | none => none
      | some Data =>
        if Ring.Size = 0 then none
        else
          match RingBufferReadLoopTraced fuel
            { Ring with
              Tail := uadd Ring.Tail ToRead % Ring.Size
              Count := usub Ring.Count ToRead }
            Data MaxLength (uadd Read ToRead) with
          | none => none
          | some (Ring', Data', Read', Copies) =>
            some (Ring', Data', Read', { Offset := Ring.Tail, Bytes := ToRead } :: Copies)
    else
      some (Ring, Data, Read, [])

/-- A four byte ring holding `7, 8` across the end of its storage. -/
def exampleWrapped : RING_BUFFER :=
  { Buffer := [8, 0, 0, 7], Size := 4, Head := 1, Tail := 3, Count := 2 }

/-! ## The life of one ring -/

/-- What can happen to a ring after `RingBufferInit`: a call of `RingBufferWrite`, a call of
`RingBufferRead`, each with the caller's buffer, or the reset of `IOCTL_SERIAL_PURGE`. -/
inductive RING_OPERATION where
  | Write (Data : List UCHAR) (Length : Nat)
  | Read (Data : List UCHAR) (MaxLength : Nat)
  | Purge
  deriving DecidableEq, Repr

/-- Typing of an operation: the caller's buffer holds `Length` bytes and `Length` is a
`ULONG`. -/
def RING_OPERATION.WellTyped : RING_OPERATION → Prop
  | RING_OPERATION.Write Data Length => Data.length = Length ∧ Length < ULONG_MODULUS
  | RING_OPERATION.Read Data MaxLength => Data.length = MaxLength ∧ MaxLength < ULONG_MODULUS
  | RING_OPERATION.Purge => True

instance (op : RING_OPERATION) : Decidable op.WellTyped := by
  cases op
  · exact inferInstanceAs (Decidable (_ ∧ _))
  · exact inferInstanceAs (Decidable (_ ∧ _))
  · exact inferInstanceAs (Decidable True)

/-- The ring after one operation. -/
def RING_BUFFER.apply (Ring : RING_BUFFER) : RING_OPERATION → Option RING_BUFFER
  | RING_OPERATION.Write Data Length =>
    match RingBufferWrite Ring Data Length with
    | none => none
    | some (Ring, _) => some Ring
  | RING_OPERATION.Read Data MaxLength =>
    match RingBufferRead Ring Data MaxLength with
    | none => none
    | some (Ring, _, _) => some Ring
  | RING_OPERATION.Purge => some (RingBufferPurge Ring)

/-- The ring after a sequence of operations, first to last. -/
def RING_BUFFER.applyAll (Ring : RING_BUFFER) : List RING_OPERATION → Option RING_BUFFER
  | [] => some Ring
  | op :: ops =>
    match Ring.apply op with
    | none => none
    | some Ring => Ring.applyAll ops

/-- Operations that fill a four byte ring, drain part of it, purge it and fill it again
across the end of the storage. -/
def exampleOperations : List RING_OPERATION :=
  [RING_OPERATION.Write [1, 2, 3] 3, RING_OPERATION.Read [0, 0] 2, RING_OPERATION.Purge,
    RING_OPERATION.Write [4, 5, 6] 3, RING_OPERATION.Read [0, 0, 0] 3,
    RING_OPERATION.Write [7, 8] 2]

/-! ## The requests a port pair is sent -/

/-- One step in the life of the pair, taken as a whole: a read or a write request arrives on
a port, the read timer of a port expires, the cancellation of a request is asked for, a handle
of a port is closed, or a device-control request arrives. -/
inductive DRIVER_OPERATION where
  | Read (Dev : DEVICE_OBJECT) (Irp : Nat)
  | Write (Dev : DEVICE_OBJECT) (Irp : Nat)
  | TimerExpiry (Dev : DEVICE_OBJECT)
  | Cancel (Dev : DEVICE_OBJECT) (Irp : Nat)
  | Cleanup (Dev : DEVICE_OBJECT) (Irp : Nat)
  | DeviceControl (Dev : DEVICE_OBJECT) (Irp : Nat) (IoControlCode : IOCTL)
      (InputLength OutputLength : Nat)
  deriving DecidableEq, Repr

/-- The pair after one step: `VSerialRead`, `VSerialWrite`, `VSerialReadDpc`, `IoCancelIrp`,
`VSerialCleanup` or `VSerialDeviceControl` runs from its first statement to its last. -/
def DRIVER.step (s : DRIVER) : DRIVER_OPERATION → Option DRIVER
  | DRIVER_OPERATION.Read Dev Irp =>
    match VSerialRead s Dev Irp with
    | none => none
    | some (s, _) => some s
  | DRIVER_OPERATION.Write Dev Irp =>
    match VSerialWrite s Dev Irp with
    | none => none
    | some (s, _) => some s
  | DRIVER_OPERATION.TimerExpiry Dev => VSerialReadDpc s Dev
  | DRIVER_OPERATION.Cancel Dev Irp => some (IoCancelIrp s Dev Irp).1
  | DRIVER_OPERATION.Cleanup Dev Irp => some (VSerialCleanup s Dev Irp).1
  | DRIVER_OPERATION.DeviceControl Dev Irp IoControlCode InputLength OutputLength =>
    match VSerialDeviceControl s Dev Irp IoControlCode InputLength OutputLength with
    | none => none
    | some (s, _) => some s

/-- The pair after a sequence of steps, first to last. -/
def DRIVER.stepAll (s : DRIVER) : List DRIVER_OPERATION → Option DRIVER
  | [] => some s
  | op :: ops =>
    match s.step op with
    | none => none
    | some s => s.stepAll ops

/-- Typing of the requests: the system buffer of each holds at least `Length` bytes, and
`Length` is a `ULONG`. -/
def DRIVER.IrpsTyped (s : DRIVER) : Prop :=
  ∀ Irp, (s.Irps Irp).Length ≤ (s.Irps Irp).SystemBuffer.length ∧
    (s.Irps Irp).Length < ULONG_MODULUS

/-- A freshly created, linked pair: both ports are as `CreateVirtualPort` and `DriverEntry`
leave them, each the peer of the other, with empty receive buffers of `VSERIAL_BUFFER_SIZE`
bytes and no pending read. -/
def DRIVER.Fresh (s : DRIVER) : Prop :=
  s.Extension0 = freshPort 0 DEVICE_OBJECT.VirtualSerial1 VSERIAL_BUFFER_SIZE ∧
    s.Extension1 = freshPort 1 DEVICE_OBJECT.VirtualSerial0 VSERIAL_BUFFER_SIZE ∧ s.IrpsTyped

/-- What every step keeps: each port has a peer other than itself, the receive rings are well
formed, `Config.Timeouts` is an array of five, and the requests are typed. -/
def DRIVER.WellFormed (s : DRIVER) : Prop :=
  (∀ Dev, ∃ Peer, (s.Ext Dev).Peer = some Peer ∧ Peer ≠ Dev) ∧
    (∀ Dev, (s.Ext Dev).RxBuffer.Allocated ∧ (s.Ext Dev).RxBuffer.Invariant) ∧
    (∀ Dev, (s.Ext Dev).Config.Timeouts.length = 5) ∧ s.IrpsTyped

/-- No request has changed its `Length` or the size of its system buffer from `s` to `s'`. -/
def DRIVER.SameBuffers (s s' : DRIVER) : Prop :=
  ∀ Irp, (s'.Irps Irp).SystemBuffer.length = (s.Irps Irp).SystemBuffer.length ∧
    (s'.Irps Irp).Length = (s.Irps Irp).Length

/-- Typing of a step against the requests of `s`: the system buffer of a device-control
request (`METHOD_BUFFERED`) holds `InputLength` bytes and has room for `OutputLength`. -/
def DRIVER_OPERATION.Sized (s : DRIVER) : DRIVER_OPERATION → Prop
  | DRIVER_OPERATION.DeviceControl _ Irp _ InputLength OutputLength =>
    InputLength ≤ (s.Irps Irp).SystemBuffer.length ∧
      OutputLength ≤ (s.Irps Irp).SystemBuffer.length
  | _ => True

instance (s : DRIVER) (op : DRIVER_OPERATION) : Decidable (op.Sized s) := by
  cases op
  case DeviceControl => exact inferInstanceAs (Decidable (_ ∧ _))
  all_goals exact inferInstanceAs (Decidable True)

/-- A read is pending on a port only while the receive buffer of that port is empty. -/
def DRIVER.PendingImpliesEmpty (s : DRIVER) : Prop :=
  ∀ Dev, (s.Ext Dev).PendingReadIrp ≠ none → (s.Ext Dev).RxBuffer.Count = 0

/-- Requests on `exampleDriver`: a read parks on port 0, a second read is turned away, port 1
writes "hello", the timer of port 0 expires, a read parks on port 1, is cancelled, port 0 is
asked for its baud rate, purged and closed. -/
def exampleSteps : List DRIVER_OPERATION :=
  [DRIVER_OPERATION.Read DEVICE_OBJECT.VirtualSerial0 1,
    DRIVER_OPERATION.Read DEVICE_OBJECT.VirtualSerial0 3,
    DRIVER_OPERATION.Write DEVICE_OBJECT.VirtualSerial1 2,
    DRIVER_OPERATION.TimerExpiry DEVICE_OBJECT.VirtualSerial0,
    DRIVER_OPERATION.Read DEVICE_OBJECT.VirtualSerial1 4,
    DRIVER_OPERATION.Cancel DEVICE_OBJECT.VirtualSerial1 4,
    DRIVER_OPERATION.DeviceControl DEVICE_OBJECT.VirtualSerial0 5 IOCTL_SERIAL_GET_BAUD_RATE 0 4,
    DRIVER_OPERATION.DeviceControl DEVICE_OBJECT.VirtualSerial0 5 IOCTL_SERIAL_PURGE 4 0,
    DRIVER_OPERATION.Cleanup DEVICE_OBJECT.VirtualSerial0 6]

/-! ## Spin locks -/

/-- The spin locks the core takes: `DevExt->ReadLock` and `DevExt->RxBuffer.Lock` of a port,
and the cancel spin lock of the I/O manager, which is held when a cancel routine is entered. -/
inductive LOCK where
  | ReadLock (Dev : DEVICE_OBJECT)
  | RingLock (Dev : DEVICE_OBJECT)
  | CancelSpinLock
  deriving DecidableEq, Repr

/-- A call of `KeAcquireSpinLock`, or a call of `KeReleaseSpinLock` or
`IoReleaseCancelSpinLock`. -/
inductive LOCK_EVENT where
  | Acquire (Lock : LOCK)
  | Release (Lock : LOCK)
  deriving DecidableEq, Repr

/-- The lock calls of `RingBufferWrite`, `RingBufferRead` and `RingBufferBytesAvailable` on
the receive ring of a port, in program order: each takes `Ring->Lock` on entry and releases
it before it returns, and calls nothing in between. -/
def RingBufferLocks (Dev : DEVICE_OBJECT) : List LOCK_EVENT :=
  [LOCK_EVENT.Acquire (LOCK.RingLock Dev), LOCK_EVENT.Release (LOCK.RingLock Dev)]

/-- The lock calls of `TryCompleteRead(DevExt)` in program order, along the branch the state
selects: `ReadLock` is taken first; with a request in the slot `RingBufferBytesAvailable` is
called before `ReadLock` is released, and `RingBufferRead` after. -/
def TryCompleteReadLocks (s : DRIVER) (Dev : DEVICE_OBJECT) : List LOCK_EVENT :=
  LOCK_EVENT.Acquire (LOCK.ReadLock Dev) ::
    match (s.Ext Dev).PendingReadIrp with
    | none => [LOCK_EVENT.Release (LOCK.ReadLock Dev)]
    | some Irp =>
      RingBufferLocks Dev ++
        if RingBufferBytesAvailable (s.Ext Dev).RxBuffer = 0 then
          [LOCK_EVENT.Release (LOCK.ReadLock Dev)]
        else
          let s := s.setExt Dev { s.Ext Dev with PendingReadIrp := none }
          if (IoSetCancelRoutine s Irp false).2 = false then
            [LOCK_EVENT.Release (LOCK.ReadLock Dev)]
          else
            LOCK_EVENT.Release (LOCK.ReadLock Dev) :: RingBufferLocks Dev

/-- The lock calls of `VSerialReadDpc`, which only calls `TryCompleteRead`. -/
def VSerialReadDpcLocks (s : DRIVER) (Dev : DEVICE_OBJECT) : List LOCK_EVENT :=
  TryCompleteReadLocks s Dev

/-- The lock calls of `VSerialRead(DeviceObject, Irp)` in program order: `RingBufferRead`
comes first; when it returned nothing `ReadLock` is taken, and each of the three ways on
(busy, cancelled, parked) releases it once. -/
def VSerialReadLocks (s : DRIVER) (Dev : DEVICE_OBJECT) (Irp : Nat) : List LOCK_EVENT :=
  let BytesRequested := (s.Irps Irp).Length
  if BytesRequested = 0 then []
  else
    RingBufferLocks Dev ++
      match RingBufferRead (s.Ext Dev).RxBuffer (s.Irps Irp).SystemBuffer BytesRequested with
      | none => []
      | some (_, _, BytesRead) =>
        if 0 < BytesRead then []
        else [LOCK_EVENT.Acquire (LOCK.ReadLock Dev), LOCK_EVENT.Release (LOCK.ReadLock Dev)]

/-- The lock calls of `VSerialWrite(DeviceObject, Irp)` in program order: `RingBufferWrite`
on the ring of the peer, then `TryCompleteRead(PeerExt)` in the state the write has left. -/
def VSerialWriteLocks (s : DRIVER) (Dev : DEVICE_OBJECT) (Irp : Nat) : List LOCK_EVENT :=
  let BytesToWrite := (s.Irps Irp).Length
  if BytesToWrite = 0 then []
  else
    match (s.Ext Dev).Peer with
    | none => []
    | some Peer =>
      RingBufferLocks Peer ++
        match RingBufferWrite (s.Ext Peer).RxBuffer (s.Irps Irp).SystemBuffer BytesToWrite with
        | none => []
        | some (Ring, BytesWritten) =>
          let s := s.setExt Peer { s.Ext Peer with RxBuffer := Ring }
          let s := s.setExt Dev
            { s.Ext Dev with BytesWritten := uadd (s.Ext Dev).BytesWritten BytesWritten }
          TryCompleteReadLocks s Peer

/-- The lock calls of `VSerialCancelRead(DeviceObject, Irp)` in program order: the cancel spin
lock it is entered with is released first. -/
def VSerialCancelReadLocks (Dev : DEVICE_OBJECT) : List LOCK_EVENT :=
  [LOCK_EVENT.Release LOCK.CancelSpinLock, LOCK_EVENT.Acquire (LOCK.ReadLock Dev),
    LOCK_EVENT.Release (LOCK.ReadLock Dev)]

/-- The lock calls of `VSerialCleanup(DeviceObject, Irp)` in program order. -/
def VSerialCleanupLocks (Dev : DEVICE_OBJECT) : List LOCK_EVENT :=
  [LOCK_EVENT.Acquire (LOCK.ReadLock Dev), LOCK_EVENT.Release (LOCK.ReadLock Dev)]

/-- The lock calls of `case IOCTL_SERIAL_PURGE` of `VSerialDeviceControl` in program order. -/
def PurgeLocks (Dev : DEVICE_OBJECT) : List LOCK_EVENT :=
  [LOCK_EVENT.Acquire (LOCK.RingLock Dev), LOCK_EVENT.Release (LOCK.RingLock Dev)]

/-- The nested acquisitions of a run of lock calls entered with the locks `Held`: every pair
of a lock that is held and a lock that is acquired while it is held, in program order. -/
def NestedAcquisitions : List LOCK → List LOCK_EVENT → List (LOCK × LOCK)
  | _, [] => []
  | Held, LOCK_EVENT.Acquire Lock :: Events =>
    Held.map (fun h => (h, Lock)) ++ NestedAcquisitions (Lock :: Held) Events
  | Held, LOCK_EVENT.Release Lock :: Events => NestedAcquisitions (Held.erase Lock) Events

/-! ## Arithmetic and memory lemmas -/

theorem usub_eq_sub {a b : Nat} (ha : a < ULONG_MODULUS) (hb : b ≤ a) : usub a b = a - b := by
  simp only [usub, ULONG_MODULUS] at *
  omega

theorem uadd_eq_add {a b : Nat} (h : a + b < ULONG_MODULUS) : uadd a b = a + b := by
  simp only [uadd, ULONG_MODULUS] at *
  omega

theorem mod_wrap {x n : Nat} (h : x < n + n) :
    x % n = if x < n then x else x - n := by
  split
  · next h1 => exact Nat.mod_eq_of_lt h1
  · next h1 =>
    rw [Nat.mod_eq_sub_mod (by omega)]
    exact Nat.mod_eq_of_lt (by omega)

theorem write_chunk {L W S C H k : Nat} (h1 : W < L) (h2 : C < S) (h3 : H < S)
    (hk : min (min (L - W) (S - C)) (S - H) = k) :
    1 ≤ k ∧ W + k ≤ L ∧ C + k ≤ S ∧ H + k ≤ S := by
  omega

theorem chunk_rest {L W S C k : Nat} (h1 : W + k ≤ L) (h2 : C + k ≤ S) :
    k + min (L - (W + k)) (S - (C + k)) = min (L - W) (S - C) := by
  omega

theorem read_chunk {M R S C T k : Nat} (h1 : R < M) (h2 : 0 < C) (h3 : T < S)
    (hk : min (min (M - R) C) (S - T) = k) :
    1 ≤ k ∧ R + k ≤ M ∧ k ≤ C ∧ T + k ≤ S := by
  omega

theorem chunk_rest_read {M R C k : Nat} (h1 : R + k ≤ M) (h2 : k ≤ C) :
    k + min (M - (R + k)) (C - k) = min (M - R) C := by
  omega

theorem RtlCopyMemory_eq_some {Dst Src : List UCHAR} {DstOff SrcOff Length : Nat}
    (hd : DstOff + Length ≤ Dst.length) (hs : SrcOff + Length ≤ Src.length) :
    RtlCopyMemory Dst DstOff Src SrcOff Length =
      some (Dst.take DstOff ++ ((Src.drop SrcOff).take Length ++ Dst.drop (DstOff + Length))) := by
  simp [RtlCopyMemory, hd, hs]

theorem RtlCopyMemory_length {Dst Src B : List UCHAR} {DstOff SrcOff Length : Nat}
    (h : RtlCopyMemory Dst DstOff Src SrcOff Length = some B) : B.length = Dst.length := by
  unfold RtlCopyMemory at h
  split at h
  · next hb =>
    cases h
    simp only [List.length_append, List.length_take, List.length_drop]
    omega
  · cases h

theorem RtlCopyMemory_getElem? {Dst Src B : List UCHAR} {DstOff SrcOff Length : Nat}
    (h : RtlCopyMemory Dst DstOff Src SrcOff Length = some B) (j : Nat) :
    B[j]? = if DstOff ≤ j ∧ j < DstOff + Length then Src[SrcOff + (j - DstOff)]? else Dst[j]? := by
  unfold RtlCopyMemory at h
  split at h
  · next hb =>
    cases h
    simp only [List.getElem?_append, List.getElem?_take, List.getElem?_drop, List.length_take,
      List.length_drop]
    have h1 : min DstOff Dst.length = DstOff := by omega
    have h2 : min Length (Src.length - SrcOff) = Length := by omega
    rw [h1, h2]
    by_cases c1 : j < DstOff
    · have c0 : ¬ (DstOff ≤ j) := by omega
      simp only [c1, c0, if_true, if_false, false_and]
    · by_cases c2 : j < DstOff + Length
      · have c3 : j - DstOff < Length := by omega
        have c4 : DstOff ≤ j := by omega
        simp only [c1, c2, c3, c4, if_true, if_false, and_self]
      · have c3 : ¬ (j - DstOff < Length) := by omega
        simp only [c1, c2, c3, if_false, and_false]
        congr 1
        omega
  · cases h

/-! ## The queued bytes under one copy -/

theorem window_getElem? (B : List UCHAR) (T C i : Nat) :
    (((B ++ B).drop T).take C)[i]? =
      if i < C then (if T + i < B.length then B[T + i]? else B[T + i - B.length]?) else none := by
  simp only [List.getElem?_take, List.getElem?_drop, List.getElem?_append]

theorem window_length (B : List UCHAR) (T C : Nat) (hT : T ≤ B.length) (hC : C ≤ B.length) :
    (((B ++ B).drop T).take C).length = C := by
  simp only [List.length_take, List.length_drop, List.length_append]
  omega

theorem write_step_queued (B B' Data : List UCHAR) (S H T C W k : Nat)
    (hB : B.length = S) (hB' : B'.length = S) (hT : T < S) (hH : H = (T + C) % S)
    (hk1 : C + k ≤ S) (hk2 : H + k ≤ S)
    (hcopy : ∀ j, B'[j]? = if H ≤ j ∧ j < H + k then Data[W + (j - H)]? else B[j]?) :
    ((B' ++ B').drop T).take (C + k) = ((B ++ B).drop T).take C ++ (Data.drop W).take k := by
  rw [mod_wrap (by omega)] at hH
  apply List.ext_getElem?
  intro i
  rw [List.getElem?_append, window_length B T C (by omega) (by omega), window_getElem?,
    window_getElem?, List.getElem?_take, List.getElem?_drop, hB, hB', hcopy, hcopy]
  split_ifs at hH ⊢ <;> first | rfl | omega | (congr 1; omega)

theorem write_step_cursor (S H T C k : Nat) (hT : T < S) (hH : H = (T + C) % S)
    (hk1 : C + k ≤ S) (hk2 : H + k ≤ S) : (H + k) % S = (T + (C + k)) % S := by
  rw [mod_wrap (by omega)] at hH
  rw [mod_wrap (x := H + k) (by omega), mod_wrap (x := T + (C + k)) (by omega)]
  split_ifs at hH ⊢ <;> omega

theorem read_step_queued (B : List UCHAR) (S T C k : Nat)
    (hB : B.length = S) (hT : T < S) (hk1 : k ≤ C) (hC : C ≤ S) (hk2 : T + k ≤ S) :
    ((B ++ B).drop ((T + k) % S)).take (C - k) = (((B ++ B).drop T).take C).drop k := by
  rw [mod_wrap (by omega)]
  apply List.ext_getElem?
  intro i
  rw [List.getElem?_drop, window_getElem?, window_getElem?, hB]
  split_ifs <;> first | rfl | omega | (congr 1; omega)

theorem read_step_cursor (S H T C k : Nat) (hT : T < S) (hH : H = (T + C) % S)
    (hk1 : k ≤ C) (hC : C ≤ S) (hk2 : T + k ≤ S) : H = ((T + k) % S + (C - k)) % S := by
  rw [mod_wrap (by omega)] at hH
  have h1 := mod_wrap (x := T + k) (n := S) (by omega)
  rw [h1]
  split_ifs at hH h1 ⊢
  all_goals rw [mod_wrap (by omega)]
  all_goals split_ifs <;> omega

theorem read_step_data (B Data Data' : List UCHAR) (S T C R k : Nat)
    (hB : B.length = S) (hk1 : k ≤ C) (hk2 : T + k ≤ S) (hR : R + k ≤ Data.length)
    (hcopy : ∀ j, Data'[j]? = if R ≤ j ∧ j < R + k then B[T + (j - R)]? else Data[j]?) :
    Data'.take (R + k) = Data.take R ++ (((B ++ B).drop T).take C).take k := by
  apply List.ext_getElem?
  intro j
  rw [List.getElem?_append, List.getElem?_take, List.getElem?_take, List.getElem?_take,
    window_getElem?, hcopy, hB, List.length_take]
  have : min R Data.length = R := by omega
  rw [this]
  split_ifs <;> first | rfl | omega

theorem read_step_rest (Data Data' : List UCHAR) (T R k : Nat) (B : List UCHAR)
    (hcopy : ∀ j, Data'[j]? = if R ≤ j ∧ j < R + k then B[T + (j - R)]? else Data[j]?) :
    Data'.drop (R + k) = Data.drop (R + k) := by
  apply List.ext_getElem?
  intro j
  rw [List.getElem?_drop, List.getElem?_drop, hcopy]
  split_ifs <;> first | rfl | omega

/-! ## The write loop -/

theorem RingBufferWriteLoop_spec (Data : List UCHAR) (Length : Nat)
    (hL : Length ≤ Data.length) (hLM : Length < ULONG_MODULUS) :
    ∀ (fuel : Nat) (Ring : RING_BUFFER) (Written : Nat),
      Ring.Allocated → Ring.Count ≤ Ring.Size → Ring.Head < Ring.Size →
      Written ≤ Length → Length - Written < fuel →
      ∃ Ring', RingBufferWriteLoop fuel Ring Data Length Written =
          some (Ring', Written + min (Length - Written) (Ring.Size - Ring.Count)) ∧
        Ring'.Allocated ∧ Ring'.Size = Ring.Size ∧ Ring'.Tail = Ring.Tail ∧
        Ring'.Count = Ring.Count + min (Length - Written) (Ring.Size - Ring.Count) ∧
        Ring'.Head < Ring'.Size ∧
        (Ring.Tail < Ring.Size → Ring.Cursors →
          Ring'.Cursors ∧
          Ring'.Queued = Ring.Queued ++
            (Data.drop Written).take (min (Length - Written) (Ring.Size - Ring.Count))) := by
  intro fuel
  induction fuel with
  | zero => intro Ring Written _ _ _ _ hf; omega
  | succ fuel ih =>
    intro Ring Written hA hC hH hW hf
    obtain ⟨hlen, hSM⟩ := hA
    by_cases hc : Written < Length ∧ Ring.Count < Ring.Size
    · obtain ⟨hc1, hc2⟩ := hc
      have e1 : usub Length Written = Length - Written := usub_eq_sub hLM (by omega)
      have e2 : usub Ring.Size Ring.Count = Ring.Size - Ring.Count := usub_eq_sub hSM (by omega)
      have e3 : usub Ring.Size Ring.Head = Ring.Size - Ring.Head := usub_eq_sub hSM (by omega)
      simp only [RingBufferWriteLoop, hc1, hc2, and_self, if_true, e1, e2, e3]
      generalize hk : min (min (Length - Written) (Ring.Size - Ring.Count))
        (Ring.Size - Ring.Head) = k
      obtain ⟨hk1, hk2, hk3, hk4⟩ := write_chunk hc1 hc2 hH hk
      clear hk e1 e2 e3
      obtain ⟨B1, hB1⟩ : ∃ B1, RtlCopyMemory Ring.Buffer Ring.Head Data Written k = some B1 :=
        ⟨_, RtlCopyMemory_eq_some (hlen ▸ hk4) (Nat.le_trans hk2 hL)⟩
      have hB1len : B1.length = Ring.Size := by rw [RtlCopyMemory_length hB1, hlen]
      rw [hB1]
      have e4 : uadd Ring.Head k = Ring.Head + k :=
        uadd_eq_add (Nat.lt_of_le_of_lt hk4 hSM)
      have e5 : uadd Ring.Count k = Ring.Count + k :=
        uadd_eq_add (Nat.lt_of_le_of_lt hk3 hSM)
      have e6 : uadd Written k = Written + k :=
        uadd_eq_add (Nat.lt_of_le_of_lt hk2 hLM)
      simp only [e4, e5, e6]
      have hpos : 0 < Ring.Size := Nat.lt_of_le_of_lt (Nat.zero_le _) hH
      have hf' : Length - (Written + k) < fuel := by omega
      obtain ⟨Ring', h1, h2, h3, h4, h5, h6, h7⟩ := ih
        { Ring with
          Buffer := B1
          Head := (Ring.Head + k) % Ring.Size
          Count := Ring.Count + k } (Written + k)
        ⟨hB1len, hSM⟩ hk3 (Nat.mod_lt _ hpos) hk2 hf'
      simp only at h1 h3 h4 h5 h7
      have hm := chunk_rest hk2 hk3
      refine ⟨Ring', ?_, h2, h3, h4, ?_, h6, ?_⟩
      · rw [h1, ← hm, Nat.add_assoc]
      · rw [h5, ← hm, Nat.add_assoc]
      · intro hT hCur
        obtain ⟨h8, h9⟩ := h7 hT (write_step_cursor _ _ _ _ _ hT hCur hk3 hk4)
        refine ⟨h8, ?_⟩
        rw [h9, ← hm, List.take_add, List.drop_drop, ← List.append_assoc]
        congr 1
        exact write_step_queued Ring.Buffer B1 Data Ring.Size Ring.Head Ring.Tail Ring.Count
          Written k hlen hB1len hT hCur hk3 hk4 (RtlCopyMemory_getElem? hB1)
    · refine ⟨Ring, ?_, ⟨hlen, hSM⟩, rfl, rfl, ?_, hH, ?_⟩
      · simp only [RingBufferWriteLoop, hc, if_false]
        congr 2
        omega
      · omega
      · intro _ hCur
        refine ⟨hCur, ?_⟩
        have : min (Length - Written) (Ring.Size - Ring.Count) = 0 := by omega
        rw [this, List.take_zero, List.append_nil]

/-! ## The read loop -/

theorem RingBufferReadLoop_spec (MaxLength : Nat) (hMM : MaxLength < ULONG_MODULUS) :
    ∀ (fuel : Nat) (Ring : RING_BUFFER) (Data : List UCHAR) (Read : Nat),
      Ring.Allocated → Ring.Count ≤ Ring.Size → Ring.Tail < Ring.Size →
      MaxLength ≤ Data.length → Read ≤ MaxLength → MaxLength - Read < fuel →
      ∃ Ring' Data', RingBufferReadLoop fuel Ring Data MaxLength Read =
          some (Ring', Data', Read + min (MaxLength - Read) Ring.Count) ∧
        Ring'.Allocated ∧ Ring'.Size = Ring.Size ∧ Ring'.Head = Ring.Head ∧
        Ring'.Buffer = Ring.Buffer ∧
        Ring'.Count = Ring.Count - min (MaxLength - Read) Ring.Count ∧
        Ring'.Tail < Ring'.Size ∧ Data'.length = Data.length ∧
        Ring'.Queued = Ring.Queued.drop (min (MaxLength - Read) Ring.Count) ∧
        Data'.take (Read + min (MaxLength - Read) Ring.Count) =
          Data.take Read ++ Ring.Queued.take (min (MaxLength - Read) Ring.Count) ∧
        Data'.drop (Read + min (MaxLength - Read) Ring.Count) =
          Data.drop (Read + min (MaxLength - Read) Ring.Count) ∧
        (Ring.Cursors → Ring'.Cursors) := by
  intro fuel
  induction fuel with
  | zero => intro Ring Data Read _ _ _ _ _ hf; omega
  | succ fuel ih =>
    intro Ring Data Read hA hC hT hD hR hf
    obtain ⟨hlen, hSM⟩ := hA
    by_cases hc : Read < MaxLength ∧ 0 < Ring.Count
    · obtain ⟨hc1, hc2⟩ := hc
      have e1 : usub MaxLength Read = MaxLength - Read := usub_eq_sub hMM (by omega)
      have e3 : usub Ring.Size Ring.Tail = Ring.Size - Ring.Tail := usub_eq_sub hSM (by omega)
      have hS0 : ¬ Ring.Size = 0 := by omega
      simp only [RingBufferReadLoop, hc1, hc2, and_self, if_true, e1, e3]
      generalize hk : min (min (MaxLength - Read) Ring.Count) (Ring.Size - Ring.Tail) = k
      obtain ⟨hk1, hk2, hk3, hk4⟩ := read_chunk hc1 hc2 hT hk
      clear hk e1 e3
      obtain ⟨D1, hD1⟩ : ∃ D1, RtlCopyMemory Data Read Ring.Buffer Ring.Tail k = some D1 :=
        ⟨_, RtlCopyMemory_eq_some (Nat.le_trans hk2 hD) (hlen ▸ hk4)⟩
      have hD1len : D1.length = Data.length := RtlCopyMemory_length hD1
      rw [hD1]
      have e4 : uadd Ring.Tail k = Ring.Tail + k :=
        uadd_eq_add (Nat.lt_of_le_of_lt hk4 hSM)
      have e5 : usub Ring.Count k = Ring.Count - k :=
        usub_eq_sub (Nat.lt_of_le_of_lt hC hSM) hk3
      have e6 : uadd Read k = Read + k :=
        uadd_eq_add (Nat.lt_of_le_of_lt hk2 hMM)
      simp only [e4, e5, e6, hS0, if_false]
      have hpos : 0 < Ring.Size := Nat.lt_of_le_of_lt (Nat.zero_le _) hT
      have hf' : MaxLength - (Read + k) < fuel := by omega
      have hC' : Ring.Count - k ≤ Ring.Size := Nat.le_trans (Nat.sub_le _ _) hC
      obtain ⟨Ring', Data', h1, h2, h3, h4, h5, h6, h7, h8, h9, h10, h11, h12⟩ := ih
        { Ring with
          Tail := (Ring.Tail + k) % Ring.Size
          Count := Ring.Count - k } D1 (Read + k)
        ⟨hlen, hSM⟩ hC' (Nat.mod_lt _ hpos) (hD1len ▸ hD) hk2 hf'
      simp only at h1 h3 h4 h5 h6 h9 h10 h11 h12
      have hm := chunk_rest_read hk2 hk3
      have hq : RING_BUFFER.Queued { Ring with
          Tail := (Ring.Tail + k) % Ring.Size
          Count := Ring.Count - k } = Ring.Queued.drop k :=
        read_step_queued Ring.Buffer Ring.Size Ring.Tail Ring.Count k hlen hT hk3 hC hk4
      have hd : D1.take (Read + k) = Data.take Read ++ Ring.Queued.take k :=
        read_step_data Ring.Buffer Data D1 Ring.Size Ring.Tail Ring.Count Read k hlen hk3
          hk4 (Nat.le_trans hk2 hD) (RtlCopyMemory_getElem? hD1)
      have hr : D1.drop (Read + k) = Data.drop (Read + k) :=
        read_step_rest Data D1 Ring.Tail Read k Ring.Buffer (RtlCopyMemory_getElem? hD1)
      refine ⟨Ring', Data', ?_, h2, h3, h4, h5, ?_, h7, h8.trans hD1len, ?_, ?_, ?_, ?_⟩
      · rw [h1, ← hm, Nat.add_assoc]
      · rw [h6, ← hm, Nat.sub_sub]
      · rw [h9, hq, List.drop_drop, hm]
      · rw [← hm, ← Nat.add_assoc, h10, hd, hq, List.take_add, List.append_assoc]
      · rw [← hm, ← Nat.add_assoc, h11, ← List.drop_drop, hr, List.drop_drop]
      · intro hCur
        exact h12 (read_step_cursor _ _ _ _ _ hT hCur hk3 hC hk4)
    · refine ⟨Ring, Data, ?_, ⟨hlen, hSM⟩, rfl, rfl, rfl, ?_, hT, rfl, ?_, ?_, ?_, id⟩
      · simp only [RingBufferReadLoop, hc, if_false]
        congr 3
        omega
      · omega
      · have : min (MaxLength - Read) Ring.Count = 0 := by omega
        rw [this, List.drop_zero]
      · have : min (MaxLength - Read) Ring.Count = 0 := by omega
        rw [this, List.take_zero, List.append_nil, Nat.add_zero]
      · rfl

/-! ## The ring buffer calls -/

theorem RingBufferWrite_spec (Ring : RING_BUFFER) (Data : List UCHAR) (Length : Nat)
    (hA : Ring.Allocated) (hC : Ring.Count ≤ Ring.Size) (hH : Ring.Head < Ring.Size)
    (hL : Length ≤ Data.length) (hLM : Length < ULONG_MODULUS) :
    ∃ Ring', RingBufferWrite Ring Data Length =
        some (Ring', min Length (Ring.Size - Ring.Count)) ∧
      Ring'.Allocated ∧ Ring'.Size = Ring.Size ∧ Ring'.Tail = Ring.Tail ∧
      Ring'.Count = Ring.Count + min Length (Ring.Size - Ring.Count) ∧
      Ring'.Head < Ring'.Size ∧
      (Ring.Tail < Ring.Size → Ring.Cursors →
        Ring'.Cursors ∧
        Ring'.Queued = Ring.Queued ++ Data.take (min Length (Ring.Size - Ring.Count))) := by
  have h := RingBufferWriteLoop_spec Data Length hL hLM (Length + 2) Ring 0 hA hC hH
    (Nat.zero_le _) (by omega)
  simpa only [Nat.zero_add, Nat.sub_zero, List.drop_zero, RingBufferWrite] using h

theorem RingBufferRead_spec (Ring : RING_BUFFER) (Data : List UCHAR) (MaxLength : Nat)
    (hA : Ring.Allocated) (hC : Ring.Count ≤ Ring.Size) (hT : Ring.Tail < Ring.Size)
    (hD : MaxLength ≤ Data.length) (hMM : MaxLength < ULONG_MODULUS) :
    ∃ Ring' Data', RingBufferRead Ring Data MaxLength =
        some (Ring', Data', min MaxLength Ring.Count) ∧
      Ring'.Allocated ∧ Ring'.Size = Ring.Size ∧ Ring'.Head = Ring.Head ∧
      Ring'.Buffer = Ring.Buffer ∧
      Ring'.Count = Ring.Count - min MaxLength Ring.Count ∧
      Ring'.Tail < Ring'.Size ∧ Data'.length = Data.length ∧
      Ring'.Queued = Ring.Queued.drop (min MaxLength Ring.Count) ∧
      Data'.take (min MaxLength Ring.Count) = Ring.Queued.take (min MaxLength Ring.Count) ∧
      Data'.drop (min MaxLength Ring.Count) = Data.drop (min MaxLength Ring.Count) ∧
      (Ring.Cursors → Ring'.Cursors) := by
  have h := RingBufferReadLoop_spec MaxLength hMM (MaxLength + 2) Ring Data 0 hA hC hT hD
    (Nat.zero_le _) (by omega)
  simpa only [Nat.zero_add, Nat.sub_zero, List.take_zero, List.nil_append, RingBufferRead]
    using h

/-! ## Call sequences -/

theorem RING_HISTORY.call_consistent (h : RING_HISTORY) (c : RING_CALL)
    (hh : h.Consistent) (hc : c.WellTyped) :
    ∃ h', h.call c = some h' ∧ h'.Consistent := by
  obtain ⟨hA, ⟨hC, hH, hT⟩, hCur, hP, hB⟩ := hh
  cases c with
  | Write Data Length =>
    obtain ⟨hD, hLM⟩ := hc
    obtain ⟨Ring', h1, h2, h3, h4, h5, h6, h7⟩ :=
      RingBufferWrite_spec h.Ring Data Length hA hC hH (by omega) hLM
    obtain ⟨h8, h9⟩ := h7 hT hCur
    have e : h.call (RING_CALL.Write Data Length) = some { h with
        Ring := Ring'
        Pushed := h.Pushed ++ Data.take (min Length (h.Ring.Size - h.Ring.Count))
        BytesPushed := h.BytesPushed + min Length (h.Ring.Size - h.Ring.Count) } := by
      simp only [RING_HISTORY.call, h1]
    refine ⟨_, e, h2, ⟨?_, h6, ?_⟩, h8, ?_, ?_⟩
    · simp only [h5, h3]; omega
    · simp only [h4, h3]; exact hT
    · simp only [h9, hP, List.append_assoc]
    · simp only [h5, hB]; omega
  | Read Data MaxLength =>
    obtain ⟨hD, hMM⟩ := hc
    obtain ⟨Ring', Data', h1, h2, h3, h4, h5, h6, h7, h8, h9, h10, h11, h12⟩ :=
      RingBufferRead_spec h.Ring Data MaxLength hA hC hT (by omega) hMM
    have e : h.call (RING_CALL.Read Data MaxLength) = some { h with
        Ring := Ring'
        Popped := h.Popped ++ Data'.take (min MaxLength h.Ring.Count)
        BytesPopped := h.BytesPopped + min MaxLength h.Ring.Count } := by
      simp only [RING_HISTORY.call, h1]
    refine ⟨_, e, h2, ⟨?_, ?_, h7⟩, h12 hCur, ?_, ?_⟩
    · simp only [h6, h3]; omega
    · simp only [h4, h3]; exact hH
    · simp only [h9, h10, hP, List.append_assoc, List.take_append_drop]
    · simp only [h6, hB]; omega

theorem RING_HISTORY.run_consistent (cs : List RING_CALL) :
    ∀ h : RING_HISTORY, h.Consistent → (∀ c ∈ cs, c.WellTyped) →
      ∃ h', h.run cs = some h' ∧ h'.Consistent := by
  induction cs with
  | nil => intro h hh _; exact ⟨h, rfl, hh⟩
  | cons c cs ih =>
    intro h hh hcs
    obtain ⟨h1, e1, hh1⟩ := h.call_consistent c hh (hcs c (List.mem_cons_self _ _))
    obtain ⟨h2, e2, hh2⟩ := ih h1 hh1 (fun d hd => hcs d (List.mem_cons_of_mem _ hd))
    exact ⟨h2, by simp only [RING_HISTORY.run, e1, e2], hh2⟩

theorem RING_HISTORY.start_consistent (Buffer : List UCHAR) (Size : Nat) (Ring : RING_BUFFER)
    (hSize : 0 < Size) (hULONG : Size < ULONG_MODULUS) (hPool : Buffer.length = Size)
    (hInit : RingBufferInit (some Buffer) Size = Except.ok Ring) :
    (RING_HISTORY.start Ring).Consistent := by
  simp only [RingBufferInit, Except.ok.injEq] at hInit
  subst hInit
  refine ⟨⟨hPool, hULONG⟩, ⟨Nat.zero_le _, hSize, hSize⟩, ?_, ?_, rfl⟩
  · simp only [RING_HISTORY.start, RING_BUFFER.Cursors, Nat.add_zero, Nat.zero_mod]
  · simp only [RING_HISTORY.start, RING_BUFFER.Queued, List.take_zero, List.append_nil]

/-! ## Claims on the ring buffer -/

/-- C1. The ring buffer is a FIFO byte queue: after every sequence of `RingBufferWrite` and
`RingBufferRead` calls on a ring created by `RingBufferInit` with `Size > 0`, the bytes the
reads returned, in call order, are a prefix of the accepted bytes of the writes, in call
order; what is still queued is exactly the rest of the accepted bytes, so that a further read
returns the oldest of them in the order they were pushed, wrapped around or not. -/
theorem C1_ring_buffer_fifo (Buffer : List UCHAR) (Size : Nat) (Ring : RING_BUFFER)
    (calls : List RING_CALL) (Data : List UCHAR) (MaxLength : Nat)
    (hSize : 0 < Size) (hULONG : Size < ULONG_MODULUS) (hPool : Buffer.length = Size)
    (hInit : RingBufferInit (some Buffer) Size = Except.ok Ring)
    (hCalls : ∀ c ∈ calls, c.WellTyped) (hRead : (RING_CALL.Read Data MaxLength).WellTyped) :
    ∃ h, (RING_HISTORY.start Ring).run calls = some h ∧
      h.Popped <+: h.Pushed ∧
      h.Pushed = h.Popped ++ h.Ring.Queued ∧
      ∃ Ring' Data', RingBufferRead h.Ring Data MaxLength =
          some (Ring', Data', min MaxLength h.Ring.Count) ∧
        Data'.take (min MaxLength h.Ring.Count) =
          (h.Pushed.drop h.Popped.length).take (min MaxLength h.Ring.Count) := by
  obtain ⟨h, e, hA, ⟨hC, _, hT⟩, _, hP, _⟩ := RING_HISTORY.run_consistent calls _
    (RING_HISTORY.start_consistent Buffer Size Ring hSize hULONG hPool hInit) hCalls
  obtain ⟨hD, hMM⟩ := hRead
  obtain ⟨Ring', Data', h1, _, _, _, _, _, _, _, _, h10, _⟩ :=
    RingBufferRead_spec h.Ring Data MaxLength hA hC hT (by omega) hMM
  refine ⟨h, e, ⟨_, hP.symm⟩, hP, Ring', Data', h1, ?_⟩
  rw [h10, hP, List.drop_left]

/-- The calls of `exampleCalls` on a fresh four byte ring. -/
theorem C1_ring_buffer_fifo_witness :
    ∃ h, (RING_HISTORY.start
        { Buffer := [0, 0, 0, 0], Size := 4, Head := 0, Tail := 0, Count := 0 }).run
          exampleCalls = some h ∧
      h.Popped <+: h.Pushed ∧
      h.Pushed = h.Popped ++ h.Ring.Queued ∧
      ∃ Ring' Data', RingBufferRead h.Ring [0, 0] 2 =
          some (Ring', Data', min 2 h.Ring.Count) ∧
        Data'.take (min 2 h.Ring.Count) =
          (h.Pushed.drop h.Popped.length).take (min 2 h.Ring.Count) :=
  C1_ring_buffer_fifo [0, 0, 0, 0] 4 _ exampleCalls [0, 0] 2 (by decide) (by decide) rfl rfl
    (by decide) (by decide)

/-- C2. On a ring with `Count ≤ Size` and `Head < Size`, `RingBufferWrite` of `L` bytes
returns exactly `min L (Size - Count)`, increases `Count` by that amount and leaves `Tail`
unchanged; a write of more than the remaining capacity writes exactly the remaining capacity
and a write into a full ring returns 0. -/
theorem C2_RingBufferWrite_count (Ring : RING_BUFFER) (Data : List UCHAR) (L : Nat)
    (hAlloc : Ring.Allocated) (hData : Data.length = L) (hULONG : L < ULONG_MODULUS)
    (hCount : Ring.Count ≤ Ring.Size) (hHead : Ring.Head < Ring.Size) :
    ∃ Ring', RingBufferWrite Ring Data L = some (Ring', min L (Ring.Size - Ring.Count)) ∧
      Ring'.Count = Ring.Count + min L (Ring.Size - Ring.Count) ∧
      Ring'.Tail = Ring.Tail ∧
      (Ring.Size - Ring.Count < L → min L (Ring.Size - Ring.Count) = Ring.Size - Ring.Count) ∧
      (Ring.Count = Ring.Size → min L (Ring.Size - Ring.Count) = 0) := by
  obtain ⟨Ring', h1, _, _, h4, h5, _⟩ :=
    RingBufferWrite_spec Ring Data L hAlloc hCount hHead (by omega) hULONG
  exact ⟨Ring', h1, h5, h4, fun h => by omega, fun h => by omega⟩

/-- Three bytes offered to `exampleRing`, which has one free byte. -/
theorem C2_RingBufferWrite_count_witness :
    ∃ Ring', RingBufferWrite exampleRing [1, 2, 3] 3 =
        some (Ring', min 3 (exampleRing.Size - exampleRing.Count)) ∧
      Ring'.Count = exampleRing.Count + min 3 (exampleRing.Size - exampleRing.Count) ∧
      Ring'.Tail = exampleRing.Tail ∧
      (exampleRing.Size - exampleRing.Count < 3 →
        min 3 (exampleRing.Size - exampleRing.Count) = exampleRing.Size - exampleRing.Count) ∧
      (exampleRing.Count = exampleRing.Size →
        min 3 (exampleRing.Size - exampleRing.Count) = 0) :=
  C2_RingBufferWrite_count exampleRing [1, 2, 3] 3 (by decide) rfl (by decide) (by decide)
    (by decide)

/-- C3. On a ring with `Count ≤ Size` and `Tail < Size`, `RingBufferRead` of at most
`MaxLength` bytes returns exactly `min MaxLength Count`, decreases `Count` by that amount and
leaves `Head` unchanged; a read of more than is available returns exactly the available
count and a read on an empty ring returns 0. -/
theorem C3_RingBufferRead_count (Ring : RING_BUFFER) (Data : List UCHAR) (MaxLength : Nat)
    (hAlloc : Ring.Allocated) (hData : Data.length = MaxLength)
    (hULONG : MaxLength < ULONG_MODULUS)
    (hCount : Ring.Count ≤ Ring.Size) (hTail : Ring.Tail < Ring.Size) :
    ∃ Ring' Data', RingBufferRead Ring Data MaxLength =
        some (Ring', Data', min MaxLength Ring.Count) ∧
      Ring'.Count = Ring.Count - min MaxLength Ring.Count ∧
      Ring'.Head = Ring.Head ∧
      (Ring.Count < MaxLength → min MaxLength Ring.Count = Ring.Count) ∧
      (Ring.Count = 0 → min MaxLength Ring.Count = 0) := by
  obtain ⟨Ring', Data', h1, _, _, h4, _, h6, _⟩ :=
    RingBufferRead_spec Ring Data MaxLength hAlloc hCount hTail (by omega) hULONG
  exact ⟨Ring', Data', h1, h6, h4, fun h => by omega, fun h => by omega⟩

/-- Five bytes asked of `exampleRing`, which holds three. -/
theorem C3_RingBufferRead_count_witness :
    ∃ Ring' Data', RingBufferRead exampleRing [0, 0, 0, 0, 0] 5 =
        some (Ring', Data', min 5 exampleRing.Count) ∧
      Ring'.Count = exampleRing.Count - min 5 exampleRing.Count ∧
      Ring'.Head = exampleRing.Head ∧
      (exampleRing.Count < 5 → min 5 exampleRing.Count = exampleRing.Count) ∧
      (exampleRing.Count = 0 → min 5 exampleRing.Count = 0) :=
  C3_RingBufferRead_count exampleRing [0, 0, 0, 0, 0] 5 (by decide) rfl (by decide)
    (by decide) (by decide)

/-- C4. After every prefix of a sequence of `RingBufferWrite` and `RingBufferRead` calls on a
freshly initialised ring of capacity `Size > 0`, `RingBufferBytesAvailable` is the sum of the
values the writes returned minus the sum of the values the reads returned, and the bytes
popped never exceed the bytes pushed. -/
theorem C4_available_is_pushed_minus_popped (Buffer : List UCHAR) (Size : Nat)
    (Ring : RING_BUFFER) (calls done : List RING_CALL)
    (hSize : 0 < Size) (hULONG : Size < ULONG_MODULUS) (hPool : Buffer.length = Size)
    (hInit : RingBufferInit (some Buffer) Size = Except.ok Ring)
    (hCalls : ∀ c ∈ calls, c.WellTyped) (hPrefix : done <+: calls) :
    ∃ h, (RING_HISTORY.start Ring).run done = some h ∧
      RingBufferBytesAvailable h.Ring = h.BytesPushed - h.BytesPopped ∧
      h.BytesPopped ≤ h.BytesPushed := by
  obtain ⟨h, e, _, _, _, _, hB⟩ := RING_HISTORY.run_consistent done _
    (RING_HISTORY.start_consistent Buffer Size Ring hSize hULONG hPool hInit)
    (fun c hc => hCalls c (hPrefix.subset hc))
  refine ⟨h, e, ?_, ?_⟩
  · simp only [RingBufferBytesAvailable]; omega
  · omega

/-- The first three calls of `exampleCalls` on a fresh four byte ring. -/
theorem C4_available_is_pushed_minus_popped_witness :
    ∃ h, (RING_HISTORY.start
        { Buffer := [0, 0, 0, 0], Size := 4, Head := 0, Tail := 0, Count := 0 }).run
          (exampleCalls.take 3) = some h ∧
      RingBufferBytesAvailable h.Ring = h.BytesPushed - h.BytesPopped ∧
      h.BytesPopped ≤ h.BytesPushed :=
  C4_available_is_pushed_minus_popped [0, 0, 0, 0] 4 _ exampleCalls (exampleCalls.take 3)
    (by decide) (by decide) rfl rfl (by decide) (List.take_prefix 3 exampleCalls)

/-- C5. The ring buffer invariant `0 ≤ Count ≤ Size`, `Head < Size`, `Tail < Size` holds
after `RingBufferInit` with `Size > 0`, and every `RingBufferWrite`, every `RingBufferRead`
and the purge reset return a ring on which it holds again, whatever their arguments. -/
theorem C5_ring_invariant (Ring : RING_BUFFER) (Data Dest : List UCHAR)
    (Length MaxLength : Nat) (hAlloc : Ring.Allocated) (hInv : Ring.Invariant)
    (hData : Data.length = Length) (hLength : Length < ULONG_MODULUS)
    (hDest : Dest.length = MaxLength) (hMaxLength : MaxLength < ULONG_MODULUS) :
    (∀ (Buffer : List UCHAR) (Size : Nat) (New : RING_BUFFER), 0 < Size →
      RingBufferInit (some Buffer) Size = Except.ok New → New.Invariant) ∧
    (∃ Ring' Written, RingBufferWrite Ring Data Length = some (Ring', Written) ∧
      Ring'.Invariant) ∧
    (∃ Ring' Dest' Read, RingBufferRead Ring Dest MaxLength = some (Ring', Dest', Read) ∧
      Ring'.Invariant) ∧
    (RingBufferPurge Ring).Invariant := by
  obtain ⟨hC, hH, hT⟩ := hInv
  refine ⟨?_, ?_, ?_, ?_⟩
  · intro Buffer Size New hSize hInit
    simp only [RingBufferInit, Except.ok.injEq] at hInit
    subst hInit
    exact ⟨Nat.zero_le _, hSize, hSize⟩
  · obtain ⟨Ring', h1, _, h3, h4, h5, h6, _⟩ :=
      RingBufferWrite_spec Ring Data Length hAlloc hC hH (by omega) hLength
    exact ⟨Ring', _, h1, by rw [h5, h3]; omega, h6, by rw [h4, h3]; exact hT⟩
  · obtain ⟨Ring', Dest', h1, _, h3, h4, _, h6, h7, _⟩ :=
      RingBufferRead_spec Ring Dest MaxLength hAlloc hC hT (by omega) hMaxLength
    exact ⟨Ring', Dest', _, h1, by rw [h6, h3]; omega, by rw [h4, h3]; exact hH, h7⟩
  · exact ⟨Nat.zero_le _, by simp only [RingBufferPurge]; omega,
      by simp only [RingBufferPurge]; omega⟩

/-- A write, a read and a purge on `exampleRing`. -/
theorem C5_ring_invariant_witness :
    (∀ (Buffer : List UCHAR) (Size : Nat) (New : RING_BUFFER), 0 < Size →
      RingBufferInit (some Buffer) Size = Except.ok New → New.Invariant) ∧
    (∃ Ring' Written, RingBufferWrite exampleRing [1, 2, 3] 3 = some (Ring', Written) ∧
      Ring'.Invariant) ∧
    (∃ Ring' Dest' Read, RingBufferRead exampleRing [0, 0] 2 = some (Ring', Dest', Read) ∧
      Ring'.Invariant) ∧
    (RingBufferPurge exampleRing).Invariant :=
  C5_ring_invariant exampleRing [1, 2, 3] [0, 0] 3 2 (by decide) (by decide) rfl (by decide)
    rfl (by decide)

/-! ## The driver state: loads after stores -/

@[simp] theorem DRIVER.Ext_setExt_same (s : DRIVER) (Dev : DEVICE_OBJECT) (e : DEVICE_EXTENSION) :
    (s.setExt Dev e).Ext Dev = e := by
  cases Dev <;> rfl

@[simp] theorem DRIVER.Ext_setExt_ne (s : DRIVER) {Dev Dev' : DEVICE_OBJECT} (e : DEVICE_EXTENSION)
    (h : Dev' ≠ Dev) : (s.setExt Dev e).Ext Dev' = s.Ext Dev' := by
  cases Dev <;> cases Dev' <;> first | rfl | exact absurd rfl h

@[simp] theorem DRIVER.Irps_setExt (s : DRIVER) (Dev : DEVICE_OBJECT) (e : DEVICE_EXTENSION) :
    (s.setExt Dev e).Irps = s.Irps := by
  cases Dev <;> rfl

@[simp] theorem DRIVER.Completed_setExt (s : DRIVER) (Dev : DEVICE_OBJECT) (e : DEVICE_EXTENSION) :
    (s.setExt Dev e).Completed = s.Completed := by
  cases Dev <;> rfl

@[simp] theorem DRIVER.Ext_setIrp (s : DRIVER) (Irp : Nat) (v : IRP) (Dev : DEVICE_OBJECT) :
    (s.setIrp Irp v).Ext Dev = s.Ext Dev := by
  cases Dev <;> rfl

@[simp] theorem DRIVER.Completed_setIrp (s : DRIVER) (Irp : Nat) (v : IRP) :
    (s.setIrp Irp v).Completed = s.Completed := rfl

@[simp] theorem DRIVER.Irps_setIrp_same (s : DRIVER) (Irp : Nat) (v : IRP) :
    (s.setIrp Irp v).Irps Irp = v := by
  simp only [DRIVER.setIrp, if_true]

@[simp] theorem DRIVER.Irps_setIrp_ne (s : DRIVER) {Irp Irp' : Nat} (v : IRP)
    (h : Irp' ≠ Irp) : (s.setIrp Irp v).Irps Irp' = s.Irps Irp' := by
  simp only [DRIVER.setIrp, h, if_false]

@[simp] theorem IoCompleteRequest_Ext (s : DRIVER) (Irp : Nat) (Dev : DEVICE_OBJECT) :
    (IoCompleteRequest s Irp).Ext Dev = s.Ext Dev := by
  cases Dev <;> rfl

@[simp] theorem IoCompleteRequest_Irps (s : DRIVER) (Irp : Nat) :
    (IoCompleteRequest s Irp).Irps = s.Irps := rfl

@[simp] theorem IoCompleteRequest_Completed (s : DRIVER) (Irp : Nat) :
    (IoCompleteRequest s Irp).Completed = s.Completed ++ [Irp] := rfl

/-! ## The completion attempt -/

theorem TryCompleteRead_idle (s : DRIVER) (Dev : DEVICE_OBJECT)
    (h : (s.Ext Dev).PendingReadIrp = none) : TryCompleteRead s Dev = some s := by
  simp only [TryCompleteRead, h]

theorem TryCompleteRead_empty (s : DRIVER) (Dev : DEVICE_OBJECT)
    (h : (s.Ext Dev).RxBuffer.Count = 0) : TryCompleteRead s Dev = some s := by
  unfold TryCompleteRead
  cases (s.Ext Dev).PendingReadIrp with
  | none => rfl
  | some Irp => simp only [RingBufferBytesAvailable, h, if_true]

theorem TryCompleteRead_delivers (s : DRIVER) (Dev : DEVICE_OBJECT) (Irp : Nat)
    (Ring : RING_BUFFER) (Buffer : List UCHAR) (BytesRead : Nat)
    (hSlot : (s.Ext Dev).PendingReadIrp = some Irp)
    (hData : (s.Ext Dev).RxBuffer.Count ≠ 0)
    (hHook : (s.Irps Irp).CancelRoutine = true)
    (hRead : RingBufferRead (s.Ext Dev).RxBuffer (s.Irps Irp).SystemBuffer (s.Irps Irp).Length =
      some (Ring, Buffer, BytesRead)) :
    ∃ s', TryCompleteRead s Dev = some s' ∧
      s'.Ext Dev = { s.Ext Dev with
        PendingReadIrp := none
        ReadTimer := none
        RxBuffer := Ring
        BytesRead := uadd (s.Ext Dev).BytesRead BytesRead } ∧
      (∀ Dev', Dev' ≠ Dev → s'.Ext Dev' = s.Ext Dev') ∧
      s'.Irps Irp = { s.Irps Irp with
        CancelRoutine := false
        SystemBuffer := Buffer
        Status := STATUS_SUCCESS
        Information := BytesRead } ∧
      (∀ Irp', Irp' ≠ Irp → s'.Irps Irp' = s.Irps Irp') ∧
      s'.Completed = s.Completed ++ [Irp] := by
  simp only [TryCompleteRead, hSlot, RingBufferBytesAvailable, hData, if_false,
    IoSetCancelRoutine, hHook, KeCancelTimer, DRIVER.Ext_setExt_same, DRIVER.Irps_setExt,
    DRIVER.Irps_setIrp_same, DRIVER.Ext_setIrp, hRead]
  refine ⟨_, rfl, ?_, ?_, ?_, ?_, ?_⟩
  · simp
  · intro Dev' h
    simp [h]
  · simp
  · intro Irp' h
    simp [h]
  · simp

/-! ## Claims on the pending read -/

/-- C6. Producer-triggered completion. In a linked pair where port `A` has an empty receive
buffer of 4096 bytes and a pending read `R` of capacity `cap` (any capacity, so every
`cap ≥ 1`) whose cancel routine is still registered, a write `W` of `n ≥ 1` bytes on the peer
`B` returns success with `min n 4096` bytes written, empties the pending slot of `A`, and
completes `R` with success, byte count `min n cap 4096` and the first `min n cap 4096` bytes
of the data. -/
theorem C6_producer_completes_pending_read (s : DRIVER) (A B : DEVICE_OBJECT) (R W cap n : Nat)
    (hAB : A ≠ B) (hLink : (s.Ext B).Peer = some A)
    (hAlloc : (s.Ext A).RxBuffer.Allocated) (hInv : (s.Ext A).RxBuffer.Invariant)
    (hCursors : (s.Ext A).RxBuffer.Cursors)
    (hSize : (s.Ext A).RxBuffer.Size = VSERIAL_BUFFER_SIZE)
    (hEmpty : (s.Ext A).RxBuffer.Count = 0)
    (hSlot : (s.Ext A).PendingReadIrp = some R)
    (hHook : (s.Irps R).CancelRoutine = true)
    (hCap : (s.Irps R).Length = cap) (hCapBuffer : (s.Irps R).SystemBuffer.length = cap)
    (hCapULONG : cap < ULONG_MODULUS) (hWR : W ≠ R)
    (hN : (s.Irps W).Length = n) (hNBuffer : (s.Irps W).SystemBuffer.length = n)
    (hNPos : 1 ≤ n) (hNULONG : n < ULONG_MODULUS) :
    ∃ s', VSerialWrite s B W = some (s', STATUS_SUCCESS) ∧
      (s'.Irps W).Status = STATUS_SUCCESS ∧
      (s'.Irps W).Information = min n VSERIAL_BUFFER_SIZE ∧
      (s'.Ext A).PendingReadIrp = none ∧
      s'.Completed = s.Completed ++ [R, W] ∧
      (s'.Irps R).Status = STATUS_SUCCESS ∧
      (s'.Irps R).Information = min (min n cap) VSERIAL_BUFFER_SIZE ∧
      (s'.Irps R).SystemBuffer.take (min (min n cap) VSERIAL_BUFFER_SIZE) =
        (s.Irps W).SystemBuffer.take (min (min n cap) VSERIAL_BUFFER_SIZE) := by
  obtain ⟨hC, hH, hT⟩ := hInv
  obtain ⟨Ring1, e1, a1, a2, a3, a4, a5, a6⟩ :=
    RingBufferWrite_spec (s.Ext A).RxBuffer (s.Irps W).SystemBuffer n hAlloc hC hH
      (by omega) hNULONG
  obtain ⟨a7, a8⟩ := a6 hT hCursors
  rw [hEmpty, hSize, Nat.sub_zero] at e1 a4 a8
  rw [Nat.zero_add] at a4
  have hq : (s.Ext A).RxBuffer.Queued = [] := by
    simp only [RING_BUFFER.Queued, hEmpty, List.take_zero]
  rw [hq, List.nil_append] at a8
  obtain ⟨Ring2, Buffer, e2, _, _, _, _, _, _, _, _, b10, _⟩ :=
    RingBufferRead_spec Ring1 (s.Irps R).SystemBuffer cap a1 (by rw [a4, a2, hSize]; omega)
      (by rw [a3, a2]; exact hT) (by omega) hCapULONG
  rw [a8, a4, List.take_take] at b10
  rw [a4] at e2
  have hm : min (min cap (min n VSERIAL_BUFFER_SIZE)) (min n VSERIAL_BUFFER_SIZE) =
      min (min n cap) VSERIAL_BUFFER_SIZE := by omega
  have hm' : min cap (min n VSERIAL_BUFFER_SIZE) = min (min n cap) VSERIAL_BUFFER_SIZE := by
    omega
  rw [hm, hm'] at b10
  rw [hm'] at e2
  have hn0 : ¬ n = 0 := by omega
  have hBA : B ≠ A := fun h => hAB h.symm
  have hc1 : min n VSERIAL_BUFFER_SIZE ≠ 0 := by
    simp only [VSERIAL_BUFFER_SIZE]; omega
  obtain ⟨s3, e3, c1, _, c3, c4, c5⟩ := TryCompleteRead_delivers
    ((s.setExt A { s.Ext A with RxBuffer := Ring1 }).setExt B
      { (s.setExt A { s.Ext A with RxBuffer := Ring1 }).Ext B with
        BytesWritten := uadd ((s.setExt A { s.Ext A with RxBuffer := Ring1 }).Ext B).BytesWritten
          (min n VSERIAL_BUFFER_SIZE) })
    A R Ring2 Buffer (min (min n cap) VSERIAL_BUFFER_SIZE)
    (by simp [hAB, hSlot]) (by simp [hAB, a4, hc1]) (by simp [hHook])
    (by simp [hAB, hCap, e2])
  have e : VSerialWrite s B W = some (IoCompleteRequest (s3.setIrp W
      { s3.Irps W with Status := STATUS_SUCCESS, Information := min n VSERIAL_BUFFER_SIZE }) W,
      STATUS_SUCCESS) := by
    simp only [VSerialWrite, hN, hn0, if_false, hLink, e1, e3]
  refine ⟨_, e, ?_, ?_, ?_, ?_, ?_, ?_, ?_⟩
  · simp
  · simp
  · simp [c1]
  · simp [c5]
  · simp [hWR.symm, c3]
  · simp [hWR.symm, c3]
  · simp only [IoCompleteRequest_Irps, DRIVER.Irps_setIrp_ne _ _ hWR.symm, c3, b10]

/-- The scenario of the specification: read of 16 bytes pending on port 0, "hello" written on
port 1. -/
theorem C6_producer_completes_pending_read_witness :
    ∃ s', VSerialWrite examplePended DEVICE_OBJECT.VirtualSerial1 2 = some (s', STATUS_SUCCESS) ∧
      (s'.Irps 2).Status = STATUS_SUCCESS ∧
      (s'.Irps 2).Information = min 5 VSERIAL_BUFFER_SIZE ∧
      (s'.Ext DEVICE_OBJECT.VirtualSerial0).PendingReadIrp = none ∧
      s'.Completed = examplePended.Completed ++ [1, 2] ∧
      (s'.Irps 1).Status = STATUS_SUCCESS ∧
      (s'.Irps 1).Information = min (min 5 16) VSERIAL_BUFFER_SIZE ∧
      (s'.Irps 1).SystemBuffer.take (min (min 5 16) VSERIAL_BUFFER_SIZE) =
        (examplePended.Irps 2).SystemBuffer.take (min (min 5 16) VSERIAL_BUFFER_SIZE) :=
  C6_producer_completes_pending_read examplePended DEVICE_OBJECT.VirtualSerial0 DEVICE_OBJECT.VirtualSerial1 1 2 16 5
    (by decide) rfl ⟨List.length_replicate _ _, by decide⟩ (by decide) rfl rfl rfl rfl rfl rfl
    (List.length_replicate _ _) (by decide) (by decide) rfl rfl (by decide) (by decide)

/-! ## Reads on an empty receive buffer -/

theorem RingBufferRead_empty (Ring : RING_BUFFER) (Data : List UCHAR) (MaxLength : Nat)
    (h : Ring.Count = 0) : RingBufferRead Ring Data MaxLength = some (Ring, Data, 0) := by
  unfold RingBufferRead
  rw [RingBufferReadLoop, if_neg]
  intro hc
  omega

theorem DRIVER.setExt_RxBuffer_self (s : DRIVER) (Dev : DEVICE_OBJECT) :
    s.setExt Dev { s.Ext Dev with RxBuffer := (s.Ext Dev).RxBuffer } = s := by
  cases Dev <;> rfl

theorem DRIVER.setIrp_SystemBuffer_self (s : DRIVER) (Irp : Nat) :
    s.setIrp Irp { s.Irps Irp with SystemBuffer := (s.Irps Irp).SystemBuffer } = s := by
  have h : (fun i => if i = Irp then
      { s.Irps Irp with SystemBuffer := (s.Irps Irp).SystemBuffer } else s.Irps i) = s.Irps := by
    funext i
    by_cases hi : i = Irp
    · simp only [hi, if_true]
    · simp only [hi, if_false]
  simp only [DRIVER.setIrp, h]

theorem VSerialRead_of_empty (s : DRIVER) (Dev : DEVICE_OBJECT) (Irp : Nat)
    (hLength : (s.Irps Irp).Length ≠ 0) (hEmpty : (s.Ext Dev).RxBuffer.Count = 0) :
    VSerialRead s Dev Irp =
      if (s.Ext Dev).PendingReadIrp ≠ none then
        some (IoCompleteRequest (s.setIrp Irp
          { s.Irps Irp with Status := STATUS_DEVICE_BUSY, Information := 0 }) Irp,
          STATUS_DEVICE_BUSY)
      else if (s.Irps Irp).Cancel then
        some (IoCompleteRequest (s.setIrp Irp
          { s.Irps Irp with
            CancelRoutine := false
            Status := STATUS_CANCELLED
            Information := 0 }) Irp, STATUS_CANCELLED)
      else
        some (VSerialReadPend (s.setIrp Irp { s.Irps Irp with CancelRoutine := true }) Dev Irp) := by
  unfold VSerialRead
  simp only [hLength, if_false, RingBufferRead_empty _ _ _ hEmpty,
    DRIVER.setExt_RxBuffer_self, DRIVER.setIrp_SystemBuffer_self, Nat.lt_irrefl]
  split
  · rfl
  · simp only [IoSetCancelRoutine, DRIVER.Irps_setIrp_same, if_true]
    split
    · have h : ∀ (f : Nat → IRP) (a b c : IRP),
          (fun i => if i = Irp then a else if i = Irp then b else if i = Irp then c else f i) =
            (fun i => if i = Irp then a else f i) := by
        intro f a b c
        funext i
        split <;> rfl
      simp only [DRIVER.setIrp, if_true, h]
    · rfl

/-- C10. Busy rejection. On a port that already holds a pending read and whose receive buffer
is empty, `VSerialRead` of a request of non-zero length completes the new request at once
with `STATUS_DEVICE_BUSY` and zero bytes, returns that status (not `STATUS_PENDING`), and
leaves the device extensions (pending slot still holding the first request, receive buffer,
timer) and every other request unchanged. -/
theorem C10_busy_rejection (s : DRIVER) (Dev : DEVICE_OBJECT) (First Irp : Nat)
    (hSlot : (s.Ext Dev).PendingReadIrp = some First)
    (hEmpty : (s.Ext Dev).RxBuffer.Count = 0)
    (hLength : (s.Irps Irp).Length ≠ 0) :
    ∃ s', VSerialRead s Dev Irp = some (s', STATUS_DEVICE_BUSY) ∧
      STATUS_DEVICE_BUSY ≠ STATUS_PENDING ∧
      (s'.Irps Irp).Status = STATUS_DEVICE_BUSY ∧
      (s'.Irps Irp).Information = 0 ∧
      s'.Completed = s.Completed ++ [Irp] ∧
      (s'.Ext Dev).PendingReadIrp = some First ∧
      (∀ Dev', s'.Ext Dev' = s.Ext Dev') ∧
      (∀ Irp', Irp' ≠ Irp → s'.Irps Irp' = s.Irps Irp') := by
  have e : VSerialRead s Dev Irp = some (IoCompleteRequest (s.setIrp Irp
      { s.Irps Irp with Status := STATUS_DEVICE_BUSY, Information := 0 }) Irp,
      STATUS_DEVICE_BUSY) := by
    rw [VSerialRead_of_empty s Dev Irp hLength hEmpty]
    simp only [hSlot, ne_eq, not_false_eq_true, if_true, reduceCtorEq]
  refine ⟨_, e, by decide, ?_, ?_, ?_, ?_, ?_, ?_⟩
  · simp
  · simp
  · simp
  · simp [hSlot]
  · intro Dev'
    simp
  · intro Irp' h
    simp [h]

/-- A second read (request 3) on port 0 of `examplePended`. -/
theorem C10_busy_rejection_witness :
    ∃ s', VSerialRead examplePended DEVICE_OBJECT.VirtualSerial0 3 = some (s', STATUS_DEVICE_BUSY) ∧
      STATUS_DEVICE_BUSY ≠ STATUS_PENDING ∧
      (s'.Irps 3).Status = STATUS_DEVICE_BUSY ∧
      (s'.Irps 3).Information = 0 ∧
      s'.Completed = examplePended.Completed ++ [3] ∧
      (s'.Ext DEVICE_OBJECT.VirtualSerial0).PendingReadIrp = some 1 ∧
      (∀ Dev', s'.Ext Dev' = examplePended.Ext Dev') ∧
      (∀ Irp', Irp' ≠ 3 → s'.Irps Irp' = examplePended.Irps Irp') :=
  C10_busy_rejection examplePended DEVICE_OBJECT.VirtualSerial0 1 3 rfl rfl (by decide)

theorem examplePended_eq :
    VSerialRead exampleDriver DEVICE_OBJECT.VirtualSerial0 1 = some (examplePended, STATUS_PENDING) := by
  rw [VSerialRead_of_empty exampleDriver DEVICE_OBJECT.VirtualSerial0 1 (by decide) rfl]
  rfl

/-- C8 (the code departs from the claim). When the read timer fires on a port whose pending
slot holds a read and whose receive buffer is empty, `VSerialReadDpc` returns the state it
was given: in `examplePended`, the state in which `VSerialRead` parked request 1, the request
stays in the slot and nothing is completed. -/
theorem C8_timer_expiry_leaves_read_pending :
    VSerialRead exampleDriver DEVICE_OBJECT.VirtualSerial0 1 = some (examplePended, STATUS_PENDING) ∧
    (examplePended.Ext DEVICE_OBJECT.VirtualSerial0).RxBuffer.Count = 0 ∧
    VSerialReadDpc examplePended DEVICE_OBJECT.VirtualSerial0 = some examplePended ∧
    (examplePended.Ext DEVICE_OBJECT.VirtualSerial0).PendingReadIrp = some 1 ∧
    examplePended.Completed = [] :=
  ⟨examplePended_eq, rfl, TryCompleteRead_empty examplePended DEVICE_OBJECT.VirtualSerial0 rfl, rfl, rfl⟩

/-! ## The completion paths, one step at a time -/

theorem VSerialWrite_parked (s : DRIVER) (A B : DEVICE_OBJECT) (R W : Nat) (hAB : A ≠ B) (hWR : W ≠ R)
    (h : ReadParked s A B R W) :
    ∃ s', VSerialWrite s B W = some (s', STATUS_SUCCESS) ∧ ReadSettled s' A B R W ∧
      s'.Completed = s.Completed ++ [R, W] := by
  obtain ⟨⟨hLink, hAlloc, ⟨hC, hH, hT⟩, hWlen, hW0, hWM⟩, hSlot, hHook, hEmpty, hRlen, hRM⟩ := h
  obtain ⟨Ring1, e1, a1, a2, a3, a4, a5, _⟩ :=
    RingBufferWrite_spec (s.Ext A).RxBuffer (s.Irps W).SystemBuffer (s.Irps W).Length hAlloc
      hC hH (by omega) hWM
  have hc1 : Ring1.Count ≠ 0 := by omega
  obtain ⟨Ring2, Buffer, e2, b1, b2, b3, _, b5, b6, _⟩ :=
    RingBufferRead_spec Ring1 (s.Irps R).SystemBuffer (s.Irps R).Length a1 (by omega)
      (by omega) (by omega) hRM
  generalize min (s.Irps W).Length ((s.Ext A).RxBuffer.Size - (s.Ext A).RxBuffer.Count) = k
    at e1
  generalize min (s.Irps R).Length Ring1.Count = m at e2
  obtain ⟨s3, e3, c1, c2, c3, c4, c5⟩ := TryCompleteRead_delivers
    ((s.setExt A { s.Ext A with RxBuffer := Ring1 }).setExt B
      { (s.setExt A { s.Ext A with RxBuffer := Ring1 }).Ext B with
        BytesWritten :=
          uadd ((s.setExt A { s.Ext A with RxBuffer := Ring1 }).Ext B).BytesWritten k })
    A R Ring2 Buffer m
    (by simp [hAB, hSlot]) (by simp [hAB, hc1]) (by simp [hHook]) (by simp [hAB, e2])
  have hBA : B ≠ A := fun h => hAB h.symm
  have e : VSerialWrite s B W = some (IoCompleteRequest (s3.setIrp W
      { s3.Irps W with Status := STATUS_SUCCESS, Information := k }) W, STATUS_SUCCESS) := by
    simp only [VSerialWrite, hW0, if_false, hLink, e1, e3]
  have hW3 : s3.Irps W = s.Irps W := by rw [c4 W hWR]; simp
  refine ⟨_, e, ⟨⟨?_, ?_, ?_, ?_, ?_, ?_⟩, ?_, ?_⟩, ?_⟩
  · simp [c2 B hBA, hAB, hBA, hLink]
  · simp [c1, b1]
  · simp only [IoCompleteRequest_Ext, DRIVER.Ext_setIrp, c1]
    exact ⟨by omega, by omega, b6⟩
  · simp [hW3, hWlen]
  · simp [hW3, hW0]
  · simp [hW3, hWM]
  · simp [c1]
  · simp [hWR.symm, c3]
  · simp [c5]

theorem VSerialWrite_settled (s : DRIVER) (A B : DEVICE_OBJECT) (R W : Nat) (hAB : A ≠ B) (hWR : W ≠ R)
    (h : ReadSettled s A B R W) :
    ∃ s', VSerialWrite s B W = some (s', STATUS_SUCCESS) ∧ ReadSettled s' A B R W ∧
      s'.Completed = s.Completed ++ [W] := by
  obtain ⟨⟨hLink, hAlloc, ⟨hC, hH, hT⟩, hWlen, hW0, hWM⟩, hSlot, hHook⟩ := h
  obtain ⟨Ring1, e1, a1, a2, a3, a4, a5, _⟩ :=
    RingBufferWrite_spec (s.Ext A).RxBuffer (s.Irps W).SystemBuffer (s.Irps W).Length hAlloc
      hC hH (by omega) hWM
  have hInv1 : Ring1.Invariant := ⟨by omega, a5, by omega⟩
  generalize min (s.Irps W).Length ((s.Ext A).RxBuffer.Size - (s.Ext A).RxBuffer.Count) = k
    at e1
  have hBA : B ≠ A := fun h => hAB h.symm
  have e3 := TryCompleteRead_idle
    ((s.setExt A { s.Ext A with RxBuffer := Ring1 }).setExt B
      { (s.setExt A { s.Ext A with RxBuffer := Ring1 }).Ext B with
        BytesWritten :=
          uadd ((s.setExt A { s.Ext A with RxBuffer := Ring1 }).Ext B).BytesWritten k })
    A (by simp [hAB, hSlot])
  have e : VSerialWrite s B W = some (IoCompleteRequest
      (((s.setExt A { s.Ext A with RxBuffer := Ring1 }).setExt B
        { (s.setExt A { s.Ext A with RxBuffer := Ring1 }).Ext B with
          BytesWritten :=
            uadd ((s.setExt A { s.Ext A with RxBuffer := Ring1 }).Ext B).BytesWritten k }).setIrp
        W { s.Irps W with Status := STATUS_SUCCESS, Information := k }) W, STATUS_SUCCESS) := by
    simp only [VSerialWrite, hW0, if_false, hLink, e1, e3, DRIVER.Irps_setExt]
  refine ⟨_, e, ⟨⟨?_, ?_, ?_, ?_, ?_, ?_⟩, ?_, ?_⟩, ?_⟩
  · simp [hAB, hBA, hLink]
  · simp [hAB, a1]
  · simp [hAB, hInv1]
  · simp [hWlen]
  · simp [hW0]
  · simp [hWM]
  · simp [hAB, hSlot]
  · simp [hWR.symm, hHook]
  · simp

theorem IoCancelIrp_parked (s : DRIVER) (A B : DEVICE_OBJECT) (R W : Nat) (hWR : W ≠ R)
    (h : ReadParked s A B R W) :
    ReadSettled (IoCancelIrp s A R).1 A B R W ∧
      (IoCancelIrp s A R).1.Completed = s.Completed ++ [R] := by
  obtain ⟨⟨hLink, hAlloc, hInv, hWlen, hW0, hWM⟩, hSlot, hHook, hEmpty, hRlen, hRM⟩ := h
  have e : IoCancelIrp s A R = (VSerialCancelRead
      ((s.setIrp R { s.Irps R with Cancel := true }).setIrp R
        { s.Irps R with Cancel := true, CancelRoutine := false }) A R, true) := by
    simp [IoCancelIrp, IoSetCancelRoutine, hHook]
  rw [e]
  by_cases hAB : B = A
  · subst hAB
    refine ⟨⟨⟨?_, ?_, ?_, ?_, ?_, ?_⟩, ?_, ?_⟩, ?_⟩ <;>
      simp [VSerialCancelRead, KeCancelTimer, hSlot, hLink, hAlloc, hInv, hWR, hWlen, hW0, hWM]
  · refine ⟨⟨⟨?_, ?_, ?_, ?_, ?_, ?_⟩, ?_, ?_⟩, ?_⟩ <;>
      simp [VSerialCancelRead, KeCancelTimer, hSlot, hLink, hAlloc, hInv, hWR, hWlen, hW0, hWM,
        hAB]

theorem IoCancelIrp_settled (s : DRIVER) (A B : DEVICE_OBJECT) (R W : Nat) (hWR : W ≠ R)
    (h : ReadSettled s A B R W) :
    ReadSettled (IoCancelIrp s A R).1 A B R W ∧ (IoCancelIrp s A R).1.Completed = s.Completed := by
  obtain ⟨⟨hLink, hAlloc, hInv, hWlen, hW0, hWM⟩, hSlot, hHook⟩ := h
  have e : IoCancelIrp s A R = ((s.setIrp R { s.Irps R with Cancel := true }).setIrp R
      { s.Irps R with Cancel := true, CancelRoutine := false }, false) := by
    simp [IoCancelIrp, IoSetCancelRoutine, hHook]
  rw [e]
  refine ⟨⟨⟨?_, ?_, ?_, ?_, ?_, ?_⟩, ?_, ?_⟩, ?_⟩ <;>
    simp [hSlot, hLink, hAlloc, hInv, hWR, hWlen, hW0, hWM]

theorem VSerialRead_pending (s0 s : DRIVER) (A : DEVICE_OBJECT) (R : Nat)
    (hAlloc : (s0.Ext A).RxBuffer.Allocated) (hInv : (s0.Ext A).RxBuffer.Invariant)
    (hRlen : (s0.Irps R).SystemBuffer.length = (s0.Irps R).Length)
    (hRM : (s0.Irps R).Length < ULONG_MODULUS)
    (h : VSerialRead s0 A R = some (s, STATUS_PENDING)) :
    (s0.Ext A).RxBuffer.Count = 0 ∧ (s0.Ext A).PendingReadIrp = none ∧
      s = (VSerialReadPend (s0.setIrp R { s0.Irps R with CancelRoutine := true }) A R).1 := by
  obtain ⟨hC, hH, hT⟩ := hInv
  by_cases hL : (s0.Irps R).Length = 0
  · rw [VSerialRead] at h
    simp only [hL, if_true, Option.some.injEq, Prod.mk.injEq, reduceCtorEq, and_false] at h
  · by_cases hE : (s0.Ext A).RxBuffer.Count = 0
    · rw [VSerialRead_of_empty s0 A R hL hE] at h
      split at h
      · simp only [Option.some.injEq, Prod.mk.injEq, reduceCtorEq, and_false] at h
      · rename_i hs
        split at h
        · simp only [Option.some.injEq, Prod.mk.injEq, reduceCtorEq, and_false] at h
        · simp only [Option.some.injEq] at h
          refine ⟨hE, by simpa using hs, ?_⟩
          rw [h]
    · obtain ⟨Ring', Data', e, _⟩ :=
        RingBufferRead_spec (s0.Ext A).RxBuffer (s0.Irps R).SystemBuffer (s0.Irps R).Length
          hAlloc hC hT (by omega) hRM
      have hm : 0 < min (s0.Irps R).Length (s0.Ext A).RxBuffer.Count := by omega
      rw [VSerialRead] at h
      simp only [hL, if_false, e, hm, if_true, Option.some.injEq, Prod.mk.injEq, reduceCtorEq,
        and_false] at h

theorem VSerialRead_parks (s0 s : DRIVER) (A B : DEVICE_OBJECT) (R W : Nat) (hAB : A ≠ B) (hWR : W ≠ R)
    (hLink : PairLinked s0 A B W)
    (hRlen : (s0.Irps R).SystemBuffer.length = (s0.Irps R).Length)
    (hRM : (s0.Irps R).Length < ULONG_MODULUS)
    (h : VSerialRead s0 A R = some (s, STATUS_PENDING)) :
    ReadParked s A B R W ∧ s.Completed = s0.Completed := by
  obtain ⟨hPeer, hAlloc, hInv, hWlen, hW0, hWM⟩ := hLink
  obtain ⟨hE, _, hs⟩ := VSerialRead_pending s0 s A R hAlloc hInv hRlen hRM h
  have hBA : B ≠ A := fun h => hAB h.symm
  subst hs
  refine ⟨⟨⟨?_, ?_, ?_, ?_, ?_, ?_⟩, ?_, ?_, ?_, ?_, ?_⟩, ?_⟩ <;>
    simp [VSerialReadPend, KeSetTimer, IoMarkIrpPending, hBA, hPeer, hAlloc, hInv, hWR, hWlen,
      hW0, hWM, hE, hRlen, hRM]

/-! ## The completion paths in any order -/

theorem fireAll_settled (A B : DEVICE_OBJECT) (R W : Nat) (hAB : A ≠ B) (hWR : W ≠ R)
    (order : List COMPLETION_PATH) :
    ∀ s : DRIVER, ReadSettled s A B R W →
      (∀ p ∈ order, p = COMPLETION_PATH.Producer W ∨ p = COMPLETION_PATH.Timer ∨
        p = COMPLETION_PATH.Cancel) →
      ∃ s', fireAll s A B R order = some s' ∧ ReadSettled s' A B R W ∧
        s'.Completed.count R = s.Completed.count R := by
  induction order with
  | nil => intro s h _; exact ⟨s, rfl, h, rfl⟩
  | cons p ps ih =>
    intro s h hps
    have hrest := fun q hq => hps q (List.mem_cons_of_mem _ hq)
    rcases hps p (List.mem_cons_self _ _) with hp | hp | hp
    · subst hp
      obtain ⟨s1, e1, h1, c1⟩ := VSerialWrite_settled s A B R W hAB hWR h
      obtain ⟨s2, e2, h2, c2⟩ := ih s1 h1 hrest
      refine ⟨s2, by simp only [fireAll, COMPLETION_PATH.fire, e1, e2], h2, ?_⟩
      rw [c2, c1, List.count_append, List.count_singleton, if_neg (by simpa using hWR)]
      rfl
    · subst hp
      obtain ⟨s2, e2, h2, c2⟩ := ih s h hrest
      exact ⟨s2, by simp only [fireAll, COMPLETION_PATH.fire, VSerialReadDpc,
        TryCompleteRead_idle s A h.2.1, e2], h2, c2⟩
    · subst hp
      obtain ⟨h1, c1⟩ := IoCancelIrp_settled s A B R W hWR h
      obtain ⟨s2, e2, h2, c2⟩ := ih _ h1 hrest
      exact ⟨s2, by simp only [fireAll, COMPLETION_PATH.fire, e2], h2, by rw [c2, c1]⟩

theorem fireAll_parked (A B : DEVICE_OBJECT) (R W : Nat) (hAB : A ≠ B) (hWR : W ≠ R)
    (order : List COMPLETION_PATH) :
    ∀ s : DRIVER, ReadParked s A B R W →
      (∀ p ∈ order, p = COMPLETION_PATH.Producer W ∨ p = COMPLETION_PATH.Timer ∨
        p = COMPLETION_PATH.Cancel) →
      ∃ s', fireAll s A B R order = some s' ∧
        ((s' = s ∧ ∀ p ∈ order, p = COMPLETION_PATH.Timer) ∨
          (ReadSettled s' A B R W ∧ s'.Completed.count R = s.Completed.count R + 1)) := by
  induction order with
  | nil =>
    intro s _ _
    exact ⟨s, rfl, Or.inl ⟨rfl, fun p hp => absurd hp (List.not_mem_nil p)⟩⟩
  | cons p ps ih =>
    intro s h hps
    have hrest := fun q hq => hps q (List.mem_cons_of_mem _ hq)
    rcases hps p (List.mem_cons_self _ _) with hp | hp | hp
    · subst hp
      obtain ⟨s1, e1, h1, c1⟩ := VSerialWrite_parked s A B R W hAB hWR h
      obtain ⟨s2, e2, h2, c2⟩ := fireAll_settled A B R W hAB hWR ps s1 h1 hrest
      refine ⟨s2, by simp only [fireAll, COMPLETION_PATH.fire, e1, e2], Or.inr ⟨h2, ?_⟩⟩
      rw [c2, c1, List.count_append, List.count_cons_self, List.count_singleton,
        if_neg (by simpa using hWR)]
    · subst hp
      obtain ⟨s2, e2, h2⟩ := ih s h hrest
      refine ⟨s2, by simp only [fireAll, COMPLETION_PATH.fire, VSerialReadDpc,
        TryCompleteRead_empty s A h.2.2.2.1, e2], ?_⟩
      rcases h2 with ⟨h3, h4⟩ | h3
      · refine Or.inl ⟨h3, ?_⟩
        intro q hq
        rcases List.mem_cons.1 hq with hq | hq
        · exact hq
        · exact h4 q hq
      · exact Or.inr h3
    · subst hp
      obtain ⟨h1, c1⟩ := IoCancelIrp_parked s A B R W hWR h
      obtain ⟨s2, e2, h2, c2⟩ := fireAll_settled A B R W hAB hWR ps _ h1 hrest
      refine ⟨s2, by simp only [fireAll, COMPLETION_PATH.fire, e2], Or.inr ⟨h2, ?_⟩⟩
      rw [c2, c1, List.count_append, List.count_singleton, if_pos (beq_self_eq_true R)]

/-- C7. Exactly-once completion. Let `VSerialRead` have parked the read `R` on port `A` of a
linked pair (it returned `STATUS_PENDING`). When the three completion paths fire against it in
any order, each as one atomic step (a write `W` of at least one byte on the peer `B`, the
expiry of the read timer, and the cancellation signal), `R` is handed to `IoCompleteRequest`
exactly once in all, never zero times and never twice, and the pending slot ends up empty. -/
theorem C7_exactly_once_completion (s0 s : DRIVER) (A B : DEVICE_OBJECT) (R W : Nat)
    (order : List COMPLETION_PATH) (hAB : A ≠ B) (hWR : W ≠ R) (hLink : PairLinked s0 A B W)
    (hBuffer : (s0.Irps R).SystemBuffer.length = (s0.Irps R).Length)
    (hULONG : (s0.Irps R).Length < ULONG_MODULUS)
    (hPended : VSerialRead s0 A R = some (s, STATUS_PENDING))
    (hOrder : order.Perm
      [COMPLETION_PATH.Producer W, COMPLETION_PATH.Timer, COMPLETION_PATH.Cancel]) :
    ∃ s', fireAll s A B R order = some s' ∧
      s'.Completed.count R = s.Completed.count R + 1 ∧
      (s'.Ext A).PendingReadIrp = none := by
  obtain ⟨hP, _⟩ := VSerialRead_parks s0 s A B R W hAB hWR hLink hBuffer hULONG hPended
  have hmem : ∀ p ∈ order, p = COMPLETION_PATH.Producer W ∨ p = COMPLETION_PATH.Timer ∨
      p = COMPLETION_PATH.Cancel := by
    intro p hp
    simpa using hOrder.mem_iff.1 hp
  obtain ⟨s', e, h⟩ := fireAll_parked A B R W hAB hWR order s hP hmem
  rcases h with ⟨_, hT⟩ | ⟨h1, c⟩
  · have hW : COMPLETION_PATH.Producer W ∈ order := hOrder.mem_iff.2 (List.mem_cons_self _ _)
    exact absurd (hT _ hW) (by simp)
  · exact ⟨s', e, c, h1.2.1⟩

/-- The read of `examplePended`: the timer expires, then "hello" is written on port 1, then
the read is cancelled. -/
theorem C7_exactly_once_completion_witness :
    ∃ s', fireAll examplePended DEVICE_OBJECT.VirtualSerial0 DEVICE_OBJECT.VirtualSerial1 1
        [COMPLETION_PATH.Timer, COMPLETION_PATH.Producer 2, COMPLETION_PATH.Cancel] = some s' ∧
      s'.Completed.count 1 = examplePended.Completed.count 1 + 1 ∧
      (s'.Ext DEVICE_OBJECT.VirtualSerial0).PendingReadIrp = none :=
  C7_exactly_once_completion exampleDriver examplePended DEVICE_OBJECT.VirtualSerial0 DEVICE_OBJECT.VirtualSerial1 1 2
    [COMPLETION_PATH.Timer, COMPLETION_PATH.Producer 2, COMPLETION_PATH.Cancel]
    (by decide) (by decide)
    ⟨rfl, ⟨List.length_replicate _ _, by decide⟩, by decide, rfl, by decide, by decide⟩
    rfl (by decide) examplePended_eq (List.Perm.swap _ _ _)

/-! ## Claims on requests that move no data -/

/-- C13. Disconnected write. On a port whose `Peer` is unset, `VSerialWrite` of a request of
non-zero length fails with `STATUS_PORT_DISCONNECTED` and zero bytes written and changes no
state: both device extensions (ring buffers, pending slots, `BytesWritten`) and every other
request are as before, and only the write request itself is completed. -/
theorem C13_disconnected_write (s : DRIVER) (Dev : DEVICE_OBJECT) (Irp : Nat)
    (hPeer : (s.Ext Dev).Peer = none) (hLength : (s.Irps Irp).Length ≠ 0) :
    ∃ s', VSerialWrite s Dev Irp = some (s', STATUS_PORT_DISCONNECTED) ∧
      (s'.Irps Irp).Status = STATUS_PORT_DISCONNECTED ∧
      (s'.Irps Irp).Information = 0 ∧
      s'.Completed = s.Completed ++ [Irp] ∧
      (∀ Dev', s'.Ext Dev' = s.Ext Dev') ∧
      (∀ Irp', Irp' ≠ Irp → s'.Irps Irp' = s.Irps Irp') := by
  have e : VSerialWrite s Dev Irp = some (IoCompleteRequest (s.setIrp Irp
      { s.Irps Irp with Status := STATUS_PORT_DISCONNECTED, Information := 0 }) Irp,
      STATUS_PORT_DISCONNECTED) := by
    simp only [VSerialWrite, hLength, if_false, hPeer]
  refine ⟨_, e, ?_, ?_, ?_, ?_, ?_⟩
  · simp
  · simp
  · simp
  · intro Dev'
    simp
  · intro Irp' h
    simp [h]

/-- The write of "hello" (request 2) on port 1 of `exampleUnlinked`, whose peer is unset. -/
theorem C13_disconnected_write_witness :
    ∃ s', VSerialWrite exampleUnlinked DEVICE_OBJECT.VirtualSerial1 2 =
        some (s', STATUS_PORT_DISCONNECTED) ∧
      (s'.Irps 2).Status = STATUS_PORT_DISCONNECTED ∧
      (s'.Irps 2).Information = 0 ∧
      s'.Completed = exampleUnlinked.Completed ++ [2] ∧
      (∀ Dev', s'.Ext Dev' = exampleUnlinked.Ext Dev') ∧
      (∀ Irp', Irp' ≠ 2 → s'.Irps Irp' = exampleUnlinked.Irps Irp') :=
  C13_disconnected_write exampleUnlinked DEVICE_OBJECT.VirtualSerial1 2 rfl (by decide)

/-- C15. Zero-length read. Whatever the state of the port (buffer empty or not, read pending
or not), `VSerialRead` of a request of zero bytes completes it at once with `STATUS_SUCCESS`
and zero bytes transferred and leaves both device extensions (receive buffer, pending slot,
timer, statistics), the buffer of the request and every other request unchanged. -/
theorem C15_zero_length_read (s : DRIVER) (Dev : DEVICE_OBJECT) (Irp : Nat)
    (hLength : (s.Irps Irp).Length = 0) :
    ∃ s', VSerialRead s Dev Irp = some (s', STATUS_SUCCESS) ∧
      (s'.Irps Irp).Status = STATUS_SUCCESS ∧
      (s'.Irps Irp).Information = 0 ∧
      (s'.Irps Irp).SystemBuffer = (s.Irps Irp).SystemBuffer ∧
      s'.Completed = s.Completed ++ [Irp] ∧
      (∀ Dev', s'.Ext Dev' = s.Ext Dev') ∧
      (∀ Irp', Irp' ≠ Irp → s'.Irps Irp' = s.Irps Irp') := by
  have e : VSerialRead s Dev Irp = some (IoCompleteRequest (s.setIrp Irp
      { s.Irps Irp with Status := STATUS_SUCCESS, Information := 0 }) Irp, STATUS_SUCCESS) := by
    simp only [VSerialRead, hLength, if_true]
  refine ⟨_, e, ?_, ?_, ?_, ?_, ?_, ?_⟩
  · simp
  · simp
  · simp
  · simp
  · intro Dev'
    simp
  · intro Irp' h
    simp [h]

/-- A read of zero bytes (request 5) on port 0 of `exampleZeroLength`, where request 1 is
pending. -/
theorem C15_zero_length_read_witness :
    ∃ s', VSerialRead exampleZeroLength DEVICE_OBJECT.VirtualSerial0 5 =
        some (s', STATUS_SUCCESS) ∧
      (s'.Irps 5).Status = STATUS_SUCCESS ∧
      (s'.Irps 5).Information = 0 ∧
      (s'.Irps 5).SystemBuffer = (exampleZeroLength.Irps 5).SystemBuffer ∧
      s'.Completed = exampleZeroLength.Completed ++ [5] ∧
      (∀ Dev', s'.Ext Dev' = exampleZeroLength.Ext Dev') ∧
      (∀ Irp', Irp' ≠ 5 → s'.Irps Irp' = exampleZeroLength.Irps Irp') :=
  C15_zero_length_read exampleZeroLength DEVICE_OBJECT.VirtualSerial0 5 rfl

/-- C16. Zero-length write. Whatever the state, with or without a peer, `VSerialWrite` of a
request of zero bytes completes it with `STATUS_SUCCESS` and zero bytes written and has no
other effect: both device extensions (the receive buffer and pending slot of the peer, the
`BytesWritten` of the writer) and every other request are unchanged, and the write request
is the only request completed. -/
theorem C16_zero_length_write (s : DRIVER) (Dev : DEVICE_OBJECT) (Irp : Nat)
    (hLength : (s.Irps Irp).Length = 0) :
    ∃ s', VSerialWrite s Dev Irp = some (s', STATUS_SUCCESS) ∧
      (s'.Irps Irp).Status = STATUS_SUCCESS ∧
      (s'.Irps Irp).Information = 0 ∧
      s'.Completed = s.Completed ++ [Irp] ∧
      (∀ Dev', s'.Ext Dev' = s.Ext Dev') ∧
      (∀ Irp', Irp' ≠ Irp → s'.Irps Irp' = s.Irps Irp') := by
  have e : VSerialWrite s Dev Irp = some (IoCompleteRequest (s.setIrp Irp
      { s.Irps Irp with Status := STATUS_SUCCESS, Information := 0 }) Irp, STATUS_SUCCESS) := by
    simp only [VSerialWrite, hLength, if_true]
  refine ⟨_, e, ?_, ?_, ?_, ?_, ?_⟩
  · simp
  · simp
  · simp
  · intro Dev'
    simp
  · intro Irp' h
    simp [h]

/-- A write of zero bytes (request 5) on port 1 of the pair in which request 1 is pending on
port 0. -/
theorem C16_zero_length_write_witness :
    ∃ s', VSerialWrite exampleZeroLength DEVICE_OBJECT.VirtualSerial1 5 =
        some (s', STATUS_SUCCESS) ∧
      (s'.Irps 5).Status = STATUS_SUCCESS ∧
      (s'.Irps 5).Information = 0 ∧
      s'.Completed = exampleZeroLength.Completed ++ [5] ∧
      (∀ Dev', s'.Ext Dev' = exampleZeroLength.Ext Dev') ∧
      (∀ Irp', Irp' ≠ 5 → s'.Irps Irp' = exampleZeroLength.Irps Irp') :=
  C16_zero_length_write exampleZeroLength DEVICE_OBJECT.VirtualSerial1 5 rfl

/-- C17. The completion attempt is a safe no-op on an empty buffer. When the receive buffer
of the port is empty, with a read pending or not, and likewise when no read is pending,
`TryCompleteRead` returns the state it was given: nothing is completed, and the pending
slot, the cancel routine, the timer and the buffer are untouched. -/
theorem C17_completion_attempt_noop (s : DRIVER) (Dev : DEVICE_OBJECT)
    (h : (s.Ext Dev).RxBuffer.Count = 0 ∨ (s.Ext Dev).PendingReadIrp = none) :
    TryCompleteRead s Dev = some s := by
  rcases h with h | h
  · exact TryCompleteRead_empty s Dev h
  · exact TryCompleteRead_idle s Dev h

/-- The attempt on port 0 of `examplePended` (read pending, buffer empty) and on port 1 (no
read pending). -/
theorem C17_completion_attempt_noop_witness :
    TryCompleteRead examplePended DEVICE_OBJECT.VirtualSerial0 = some examplePended ∧
    TryCompleteRead examplePended DEVICE_OBJECT.VirtualSerial1 = some examplePended :=
  ⟨C17_completion_attempt_noop examplePended DEVICE_OBJECT.VirtualSerial0 (Or.inl rfl),
    C17_completion_attempt_noop examplePended DEVICE_OBJECT.VirtualSerial1 (Or.inr rfl)⟩

/-! ## Claims on parking a read -/

/-- C18. Pre-cancelled read backs out. On a port with an empty receive buffer and an empty
pending slot, `VSerialRead` of a request of non-zero length whose `Cancel` flag is already set
completes it with `STATUS_CANCELLED` and zero bytes, the slot stays empty and the timer is not
set (both device extensions are unchanged); without the flag the same read returns
`STATUS_PENDING` with the request in the slot, its cancel routine registered and the timer
set. -/
theorem C18_pre_cancelled_read (s : DRIVER) (Dev : DEVICE_OBJECT) (Irp : Nat)
    (hEmpty : (s.Ext Dev).RxBuffer.Count = 0) (hSlot : (s.Ext Dev).PendingReadIrp = none)
    (hLength : (s.Irps Irp).Length ≠ 0) :
    ((s.Irps Irp).Cancel = true →
      ∃ s', VSerialRead s Dev Irp = some (s', STATUS_CANCELLED) ∧
        (s'.Irps Irp).Status = STATUS_CANCELLED ∧
        (s'.Irps Irp).Information = 0 ∧
        s'.Completed = s.Completed ++ [Irp] ∧
        (s'.Ext Dev).PendingReadIrp = none ∧
        (s'.Ext Dev).ReadTimer = (s.Ext Dev).ReadTimer ∧
        (∀ Dev', s'.Ext Dev' = s.Ext Dev')) ∧
    ((s.Irps Irp).Cancel = false →
      ∃ s', VSerialRead s Dev Irp = some (s', STATUS_PENDING) ∧
        (s'.Ext Dev).PendingReadIrp = some Irp ∧
        (s'.Irps Irp).CancelRoutine = true ∧
        (s'.Ext Dev).ReadTimer ≠ none ∧
        s'.Completed = s.Completed) := by
  have e := VSerialRead_of_empty s Dev Irp hLength hEmpty
  simp only [hSlot, ne_eq, not_true_eq_false, if_false] at e
  constructor
  · intro hc
    simp only [hc, if_true] at e
    refine ⟨_, e, ?_, ?_, ?_, ?_, ?_, ?_⟩
    · simp
    · simp
    · simp
    · simp [hSlot]
    · simp
    · intro Dev'
      simp
  · intro hc
    simp only [hc, Bool.false_eq_true, if_false] at e
    refine ⟨_, e, ?_, ?_, ?_, ?_⟩
    · simp [VSerialReadPend, KeSetTimer, IoMarkIrpPending]
    · simp [VSerialReadPend, KeSetTimer, IoMarkIrpPending]
    · simp [VSerialReadPend, KeSetTimer, IoMarkIrpPending]
    · simp [VSerialReadPend, KeSetTimer, IoMarkIrpPending]

/-- Request 3 of `exampleCancelled`, whose `Cancel` flag is set, and request 1 of
`exampleDriver`, whose flag is not, each read on port 0. -/
theorem C18_pre_cancelled_read_witness :
    (∃ s', VSerialRead exampleCancelled DEVICE_OBJECT.VirtualSerial0 3 =
        some (s', STATUS_CANCELLED) ∧
      (s'.Irps 3).Status = STATUS_CANCELLED ∧
      (s'.Irps 3).Information = 0 ∧
      s'.Completed = exampleCancelled.Completed ++ [3] ∧
      (s'.Ext DEVICE_OBJECT.VirtualSerial0).PendingReadIrp = none ∧
      (s'.Ext DEVICE_OBJECT.VirtualSerial0).ReadTimer =
        (exampleCancelled.Ext DEVICE_OBJECT.VirtualSerial0).ReadTimer ∧
      (∀ Dev', s'.Ext Dev' = exampleCancelled.Ext Dev')) ∧
    (∃ s', VSerialRead exampleDriver DEVICE_OBJECT.VirtualSerial0 1 =
        some (s', STATUS_PENDING) ∧
      (s'.Ext DEVICE_OBJECT.VirtualSerial0).PendingReadIrp = some 1 ∧
      (s'.Irps 1).CancelRoutine = true ∧
      (s'.Ext DEVICE_OBJECT.VirtualSerial0).ReadTimer ≠ none ∧
      s'.Completed = exampleDriver.Completed) :=
  ⟨(C18_pre_cancelled_read exampleCancelled DEVICE_OBJECT.VirtualSerial0 3 rfl rfl
      (by decide)).1 rfl,
    (C18_pre_cancelled_read exampleDriver DEVICE_OBJECT.VirtualSerial0 1 rfl rfl
      (by decide)).2 rfl⟩

theorem toLONGLONG_timeout (c : Nat) (hc : c < ULONG_MODULUS) :
    toLONGLONG ((c : Int) * 10000) = (c : Int) * 10000 ∧
      toLONGLONG (-((c : Int) * 10000)) = -((c : Int) * 10000) := by
  simp only [toLONGLONG, ULONG_MODULUS] at *
  omega

theorem VSerialReadPend_timer (s : DRIVER) (Dev : DEVICE_OBJECT) (Irp : Nat) :
    ((VSerialReadPend s Dev Irp).1.Ext Dev).ReadTimer =
      some (if 0 < (s.Ext Dev).Config.Timeouts.getD 2 0 then
        toLONGLONG (-(toLONGLONG (((s.Ext Dev).Config.Timeouts.getD 2 0 : Nat) * 10000)))
      else -10000000) := by
  simp [VSerialReadPend, KeSetTimer, IoMarkIrpPending]

theorem VSerialRead_pending_timer (s s' : DRIVER) (Dev : DEVICE_OBJECT) (Irp : Nat)
    (h : VSerialRead s Dev Irp = some (s', STATUS_PENDING)) :
    (s'.Ext Dev).ReadTimer =
      some (if 0 < (s.Ext Dev).Config.Timeouts.getD 2 0 then
        toLONGLONG (-(toLONGLONG (((s.Ext Dev).Config.Timeouts.getD 2 0 : Nat) * 10000)))
      else -10000000) := by
  have hs : ∀ t : DRIVER, (t.Ext Dev).Config = (s.Ext Dev).Config →
      some (VSerialReadPend t Dev Irp) = some (s', STATUS_PENDING) →
      (s'.Ext Dev).ReadTimer =
        some (if 0 < (s.Ext Dev).Config.Timeouts.getD 2 0 then
          toLONGLONG (-(toLONGLONG (((s.Ext Dev).Config.Timeouts.getD 2 0 : Nat) * 10000)))
        else -10000000) := by
    intro t ht e
    have e1 : s' = (VSerialReadPend t Dev Irp).1 := by
      simp only [Option.some.injEq] at e
      rw [e]
    rw [e1, VSerialReadPend_timer, ht]
  by_cases hL : (s.Irps Irp).Length = 0
  · simp [VSerialRead, hL] at h
  · cases hr : RingBufferRead (s.Ext Dev).RxBuffer (s.Irps Irp).SystemBuffer
        (s.Irps Irp).Length with
    | none => simp [VSerialRead, hL, hr] at h
    | some r =>
      obtain ⟨Ring, Buffer, BytesRead⟩ := r
      simp only [VSerialRead, hL, if_false, hr, IoSetCancelRoutine] at h
      split at h
      · simp only [Option.some.injEq, Prod.mk.injEq, reduceCtorEq, and_false] at h
      · split at h
        · simp only [Option.some.injEq, Prod.mk.injEq, reduceCtorEq, and_false] at h
        · split at h
          · split at h
            · simp only [Option.some.injEq, Prod.mk.injEq, reduceCtorEq, and_false] at h
            · exact hs _ (by simp) h
          · exact hs _ (by simp) h

/-- C19. Read timeout value. When `VSerialRead` parks a read, the relative due time it sets the
timer to is, for every 32-bit read-total-timeout constant `c` (`Config.Timeouts[2]`), exactly
`-(c * 10000)` (that is `c` milliseconds in units of 100 ns) when `c > 0`, the 64-bit signed
product and negation not overflowing, and exactly `-10000000` (one second) when `c = 0`; the
other four entries of `Timeouts` play no part. -/
theorem C19_read_timeout_value (s s' : DRIVER) (Dev : DEVICE_OBJECT) (Irp : Nat)
    (t0 t1 c t3 t4 : Nat)
    (hTimeouts : (s.Ext Dev).Config.Timeouts = [t0, t1, c, t3, t4])
    (hULONG : c < ULONG_MODULUS)
    (hPended : VSerialRead s Dev Irp = some (s', STATUS_PENDING)) :
    (s'.Ext Dev).ReadTimer = some (if 0 < c then -((c : Int) * 10000) else -10000000) ∧
      toLONGLONG ((c : Int) * 10000) = (c : Int) * 10000 ∧
      toLONGLONG (-((c : Int) * 10000)) = -((c : Int) * 10000) := by
  obtain ⟨h1, h2⟩ := toLONGLONG_timeout c hULONG
  refine ⟨?_, h1, h2⟩
  rw [VSerialRead_pending_timer s s' Dev Irp hPended, hTimeouts]
  simp only [List.getD_cons_succ, List.getD_cons_zero, h1, h2]

/-- The read of request 1 on port 0 of `exampleTimed`, whose read-total-timeout constant is
250 ms. -/
theorem C19_read_timeout_value_witness :
    (exampleTimedPended.Ext DEVICE_OBJECT.VirtualSerial0).ReadTimer =
        some (if 0 < 250 then -(((250 : Nat) : Int) * 10000) else -10000000) ∧
      toLONGLONG (((250 : Nat) : Int) * 10000) = ((250 : Nat) : Int) * 10000 ∧
      toLONGLONG (-(((250 : Nat) : Int) * 10000)) = -(((250 : Nat) : Int) * 10000) :=
  C19_read_timeout_value exampleTimed exampleTimedPended DEVICE_OBJECT.VirtualSerial0 1
    7 0 250 0 9 rfl (by decide)
    (by rw [VSerialRead_of_empty exampleTimed DEVICE_OBJECT.VirtualSerial0 1 (by decide) rfl]
        rfl)

/-! ## Claim on cleanup -/

theorem DEVICE_EXTENSION.clear_empty_slot (e : DEVICE_EXTENSION)
    (h : e.PendingReadIrp = none) : { e with PendingReadIrp := none } = e := by
  cases e
  simp only at h
  simp only [h]

/-- C20. Cleanup cancels the pending read. `VSerialCleanup` always completes the cleanup
request with `STATUS_SUCCESS` and returns that status. On a port holding a pending read it
empties the pending slot, cancels the timer and completes that read with `STATUS_CANCELLED`
and zero bytes, leaving the receive buffer and the rest of the state unchanged; on a port
with no pending read it changes no device extension. -/
theorem C20_cleanup_cancels_pending_read (s : DRIVER) (Dev : DEVICE_OBJECT) (Irp : Nat)
    (hDistinct : (s.Ext Dev).PendingReadIrp ≠ some Irp) :
    (VSerialCleanup s Dev Irp).2 = STATUS_SUCCESS ∧
    ((VSerialCleanup s Dev Irp).1.Irps Irp).Status = STATUS_SUCCESS ∧
    ((VSerialCleanup s Dev Irp).1.Irps Irp).Information = 0 ∧
    (∀ Pending, (s.Ext Dev).PendingReadIrp = some Pending →
      ((VSerialCleanup s Dev Irp).1.Ext Dev).PendingReadIrp = none ∧
      ((VSerialCleanup s Dev Irp).1.Ext Dev).ReadTimer = none ∧
      ((VSerialCleanup s Dev Irp).1.Irps Pending).Status = STATUS_CANCELLED ∧
      ((VSerialCleanup s Dev Irp).1.Irps Pending).Information = 0 ∧
      (VSerialCleanup s Dev Irp).1.Completed = s.Completed ++ [Pending, Irp] ∧
      ((VSerialCleanup s Dev Irp).1.Ext Dev).RxBuffer = (s.Ext Dev).RxBuffer ∧
      (VSerialCleanup s Dev Irp).1.Ext Dev =
        { s.Ext Dev with PendingReadIrp := none, ReadTimer := none } ∧
      (∀ Dev', Dev' ≠ Dev → (VSerialCleanup s Dev Irp).1.Ext Dev' = s.Ext Dev')) ∧
    ((s.Ext Dev).PendingReadIrp = none →
      (∀ Dev', (VSerialCleanup s Dev Irp).1.Ext Dev' = s.Ext Dev') ∧
      (VSerialCleanup s Dev Irp).1.Completed = s.Completed ++ [Irp]) := by
  refine ⟨rfl, ?_, ?_, ?_, ?_⟩
  · simp [VSerialCleanup]
  · simp [VSerialCleanup]
  · intro Pending hP
    have hne : Pending ≠ Irp := fun h => hDistinct (h ▸ hP)
    refine ⟨?_, ?_, ?_, ?_, ?_, ?_, ?_, ?_⟩
    · simp [VSerialCleanup, hP, KeCancelTimer]
    · simp [VSerialCleanup, hP, KeCancelTimer]
    · simp [VSerialCleanup, hP, KeCancelTimer, hne]
    · simp [VSerialCleanup, hP, KeCancelTimer, hne]
    · simp [VSerialCleanup, hP, KeCancelTimer]
    · simp [VSerialCleanup, hP, KeCancelTimer]
    · simp [VSerialCleanup, hP, KeCancelTimer]
    · intro Dev' hd
      simp [VSerialCleanup, hP, KeCancelTimer, hd]
  · intro hP
    refine ⟨?_, ?_⟩
    · intro Dev'
      by_cases hd : Dev' = Dev
      · subst hd
        simp only [VSerialCleanup, hP, IoCompleteRequest_Ext, DRIVER.Ext_setIrp,
          DRIVER.Ext_setExt_same]
        exact DEVICE_EXTENSION.clear_empty_slot _ hP
      · simp [VSerialCleanup, hP, hd]
    · simp [VSerialCleanup, hP]

/-- Cleanup (request 3) on port 0 of `examplePended`, where request 1 is pending. -/
theorem C20_cleanup_cancels_pending_read_witness :
    (VSerialCleanup examplePended DEVICE_OBJECT.VirtualSerial0 3).2 = STATUS_SUCCESS ∧
    ((VSerialCleanup examplePended DEVICE_OBJECT.VirtualSerial0 3).1.Ext
      DEVICE_OBJECT.VirtualSerial0).PendingReadIrp = none ∧
    ((VSerialCleanup examplePended DEVICE_OBJECT.VirtualSerial0 3).1.Ext
      DEVICE_OBJECT.VirtualSerial0).ReadTimer = none ∧
    ((VSerialCleanup examplePended DEVICE_OBJECT.VirtualSerial0 3).1.Irps 1).Status =
      STATUS_CANCELLED ∧
    (VSerialCleanup examplePended DEVICE_OBJECT.VirtualSerial0 3).1.Completed =
      examplePended.Completed ++ [1, 3] :=
  have h := C20_cleanup_cancels_pending_read examplePended DEVICE_OBJECT.VirtualSerial0 3
    (by decide)
  have hp := h.2.2.2.1 1 rfl
  ⟨h.1, hp.1, hp.2.1, hp.2.2.1, hp.2.2.2.2.1⟩

/-! ## Claims on reads and writes that move data at once -/

theorem VSerialRead_immediate (s : DRIVER) (Dev : DEVICE_OBJECT) (Irp : Nat)
    (Ring : RING_BUFFER) (Buffer : List UCHAR) (BytesRead : Nat)
    (hLength : (s.Irps Irp).Length ≠ 0)
    (hRead : RingBufferRead (s.Ext Dev).RxBuffer (s.Irps Irp).SystemBuffer (s.Irps Irp).Length =
      some (Ring, Buffer, BytesRead))
    (hPos : 0 < BytesRead) :
    ∃ s', VSerialRead s Dev Irp = some (s', STATUS_SUCCESS) ∧
      s'.Ext Dev = { s.Ext Dev with
        RxBuffer := Ring
        BytesRead := uadd (s.Ext Dev).BytesRead BytesRead } ∧
      (∀ Dev', Dev' ≠ Dev → s'.Ext Dev' = s.Ext Dev') ∧
      s'.Irps Irp = { s.Irps Irp with
        SystemBuffer := Buffer
        Status := STATUS_SUCCESS
        Information := BytesRead } ∧
      (∀ Irp', Irp' ≠ Irp → s'.Irps Irp' = s.Irps Irp') ∧
      s'.Completed = s.Completed ++ [Irp] := by
  have e : VSerialRead s Dev Irp = some (IoCompleteRequest
      ((((s.setExt Dev { s.Ext Dev with RxBuffer := Ring }).setIrp Irp
        { s.Irps Irp with SystemBuffer := Buffer }).setExt Dev
          { s.Ext Dev with
            RxBuffer := Ring
            BytesRead := uadd (s.Ext Dev).BytesRead BytesRead }).setIrp Irp
        { s.Irps Irp with
          SystemBuffer := Buffer
          Status := STATUS_SUCCESS
          Information := BytesRead }) Irp, STATUS_SUCCESS) := by
    simp only [VSerialRead, hLength, if_false, hRead, hPos, if_true, DRIVER.Ext_setExt_same,
      DRIVER.Ext_setIrp, DRIVER.Irps_setExt, DRIVER.Irps_setIrp_same]
  refine ⟨_, e, ?_, ?_, ?_, ?_, ?_⟩
  · simp
  · intro Dev' h
    simp [h]
  · simp
  · intro Irp' h
    simp [h]
  · simp

/-- C11. Immediate read. On a port whose receive buffer holds `k ≥ 1` bytes, `VSerialRead` of
a request of `n ≥ 1` bytes completes it at once with `STATUS_SUCCESS` and byte count
`min n k`, the destination receiving the oldest `min n k` queued bytes in order (and the ring
losing them), and retains no state: the pending slot, the timer and the cancel routine of the
request are as before, and so is the other port. -/
theorem C11_immediate_read (s : DRIVER) (Dev : DEVICE_OBJECT) (Irp k n : Nat)
    (hAlloc : (s.Ext Dev).RxBuffer.Allocated) (hInv : (s.Ext Dev).RxBuffer.Invariant)
    (hK : (s.Ext Dev).RxBuffer.Count = k) (hKPos : 1 ≤ k)
    (hN : (s.Irps Irp).Length = n) (hNPos : 1 ≤ n)
    (hBuffer : (s.Irps Irp).SystemBuffer.length = n) (hULONG : n < ULONG_MODULUS) :
    ∃ s', VSerialRead s Dev Irp = some (s', STATUS_SUCCESS) ∧
      (s'.Irps Irp).Status = STATUS_SUCCESS ∧
      (s'.Irps Irp).Information = min n k ∧
      (s'.Irps Irp).SystemBuffer.take (min n k) =
        (s.Ext Dev).RxBuffer.Queued.take (min n k) ∧
      (s'.Ext Dev).RxBuffer.Queued = (s.Ext Dev).RxBuffer.Queued.drop (min n k) ∧
      s'.Completed = s.Completed ++ [Irp] ∧
      (s'.Ext Dev).PendingReadIrp = (s.Ext Dev).PendingReadIrp ∧
      (s'.Ext Dev).ReadTimer = (s.Ext Dev).ReadTimer ∧
      (s'.Irps Irp).CancelRoutine = (s.Irps Irp).CancelRoutine ∧
      (∀ Dev', Dev' ≠ Dev → s'.Ext Dev' = s.Ext Dev') := by
  obtain ⟨hC, _, hT⟩ := hInv
  obtain ⟨Ring, Buffer, e, _, _, _, _, _, _, _, b9, b10, _⟩ :=
    RingBufferRead_spec (s.Ext Dev).RxBuffer (s.Irps Irp).SystemBuffer n hAlloc hC hT
      (by omega) hULONG
  rw [hK] at e b9 b10
  obtain ⟨s', e', c1, c2, c3, _, c5⟩ := VSerialRead_immediate s Dev Irp Ring Buffer (min n k)
    (by omega) (by rw [hN]; exact e) (by omega)
  refine ⟨s', e', ?_, ?_, ?_, ?_, c5, ?_, ?_, ?_, c2⟩
  · rw [c3]
  · rw [c3]
  · rw [c3]; exact b10
  · rw [c1]; exact b9
  · rw [c1]
  · rw [c1]
  · rw [c3]

/-- A read of five bytes (request 3 of `exampleQueued`) on port 0, whose ring holds the
three bytes of `exampleRing`. -/
theorem C11_immediate_read_witness :
    ∃ s', VSerialRead exampleQueued DEVICE_OBJECT.VirtualSerial0 3 =
        some (s', STATUS_SUCCESS) ∧
      (s'.Irps 3).Status = STATUS_SUCCESS ∧
      (s'.Irps 3).Information = min 5 3 ∧
      (s'.Irps 3).SystemBuffer.take (min 5 3) =
        (exampleQueued.Ext DEVICE_OBJECT.VirtualSerial0).RxBuffer.Queued.take (min 5 3) ∧
      (s'.Ext DEVICE_OBJECT.VirtualSerial0).RxBuffer.Queued =
        (exampleQueued.Ext DEVICE_OBJECT.VirtualSerial0).RxBuffer.Queued.drop (min 5 3) ∧
      s'.Completed = exampleQueued.Completed ++ [3] ∧
      (s'.Ext DEVICE_OBJECT.VirtualSerial0).PendingReadIrp =
        (exampleQueued.Ext DEVICE_OBJECT.VirtualSerial0).PendingReadIrp ∧
      (s'.Ext DEVICE_OBJECT.VirtualSerial0).ReadTimer =
        (exampleQueued.Ext DEVICE_OBJECT.VirtualSerial0).ReadTimer ∧
      (s'.Irps 3).CancelRoutine = (exampleQueued.Irps 3).CancelRoutine ∧
      (∀ Dev', Dev' ≠ DEVICE_OBJECT.VirtualSerial0 →
        s'.Ext Dev' = exampleQueued.Ext Dev') :=
  C11_immediate_read exampleQueued DEVICE_OBJECT.VirtualSerial0 3 3 5 (by decide) (by decide)
    rfl (by decide) rfl (by decide) rfl (by decide)

theorem VSerialWrite_no_reader (s : DRIVER) (A B : DEVICE_OBJECT) (W : Nat)
    (Ring : RING_BUFFER) (BytesWritten : Nat) (hAB : A ≠ B)
    (hLink : (s.Ext B).Peer = some A) (hLength : (s.Irps W).Length ≠ 0)
    (hSlot : (s.Ext A).PendingReadIrp = none)
    (hWrite : RingBufferWrite (s.Ext A).RxBuffer (s.Irps W).SystemBuffer (s.Irps W).Length =
      some (Ring, BytesWritten)) :
    ∃ s', VSerialWrite s B W = some (s', STATUS_SUCCESS) ∧
      s'.Ext A = { s.Ext A with RxBuffer := Ring } ∧
      s'.Ext B = { s.Ext B with
        BytesWritten := uadd (s.Ext B).BytesWritten BytesWritten } ∧
      (∀ i, s'.Irps i =
        if i = W then { s.Irps W with Status := STATUS_SUCCESS, Information := BytesWritten }
        else s.Irps i) ∧
      s'.Completed = s.Completed ++ [W] := by
  have hBA : B ≠ A := fun h => hAB h.symm
  have e3 := TryCompleteRead_idle
    ((s.setExt A { s.Ext A with RxBuffer := Ring }).setExt B
      { (s.setExt A { s.Ext A with RxBuffer := Ring }).Ext B with
        BytesWritten :=
          uadd ((s.setExt A { s.Ext A with RxBuffer := Ring }).Ext B).BytesWritten
            BytesWritten })
    A (by simp [hAB, hSlot])
  have e : VSerialWrite s B W = some (IoCompleteRequest
      (((s.setExt A { s.Ext A with RxBuffer := Ring }).setExt B
        { (s.setExt A { s.Ext A with RxBuffer := Ring }).Ext B with
          BytesWritten :=
            uadd ((s.setExt A { s.Ext A with RxBuffer := Ring }).Ext B).BytesWritten
              BytesWritten }).setIrp
        W { s.Irps W with Status := STATUS_SUCCESS, Information := BytesWritten }) W,
      STATUS_SUCCESS) := by
    simp only [VSerialWrite, hLength, if_false, hLink, hWrite, e3, DRIVER.Irps_setExt]
  refine ⟨_, e, ?_, ?_, ?_, ?_⟩
  · simp [hAB]
  · simp [hBA]
  · intro i
    simp [DRIVER.setIrp]
  · simp

theorem exampleData_length : exampleData.length = 5000 := by
  rw [exampleData, List.length_map, List.length_range]

/-- C12. Truncated write round trip. In a linked pair where the peer `A` of port `B` has an
empty receive buffer of 4096 bytes and no pending read, `VSerialWrite` on `B` of `L ≥ 1` bytes
returns success with `min L 4096` bytes written and adds that count to the `BytesWritten` of
`B` (a `ULONG` addition, the plain sum whenever that fits 32 bits); a following `VSerialRead` on `A` of capacity at least `min L 4096`
then returns success with exactly the first `min L 4096` bytes of the data, in order. -/
theorem C12_truncated_write_round_trip (s : DRIVER) (A B : DEVICE_OBJECT) (W R L cap : Nat)
    (hAB : A ≠ B) (hLink : (s.Ext B).Peer = some A)
    (hAlloc : (s.Ext A).RxBuffer.Allocated) (hInv : (s.Ext A).RxBuffer.Invariant)
    (hCursors : (s.Ext A).RxBuffer.Cursors)
    (hSize : (s.Ext A).RxBuffer.Size = VSERIAL_BUFFER_SIZE)
    (hEmpty : (s.Ext A).RxBuffer.Count = 0)
    (hSlot : (s.Ext A).PendingReadIrp = none)
    (hL : (s.Irps W).Length = L) (hLBuffer : (s.Irps W).SystemBuffer.length = L)
    (hLPos : 1 ≤ L) (hLULONG : L < ULONG_MODULUS)
    (hCap : (s.Irps R).Length = cap) (hCapBuffer : (s.Irps R).SystemBuffer.length = cap)
    (hCapGe : min L VSERIAL_BUFFER_SIZE ≤ cap) (hCapULONG : cap < ULONG_MODULUS) :
    ∃ s1, VSerialWrite s B W = some (s1, STATUS_SUCCESS) ∧
      (s1.Irps W).Information = min L VSERIAL_BUFFER_SIZE ∧
      (s1.Ext B).BytesWritten = uadd (s.Ext B).BytesWritten (min L VSERIAL_BUFFER_SIZE) ∧
      ((s.Ext B).BytesWritten + min L VSERIAL_BUFFER_SIZE < ULONG_MODULUS →
        (s1.Ext B).BytesWritten = (s.Ext B).BytesWritten + min L VSERIAL_BUFFER_SIZE) ∧
      ∃ s2, VSerialRead s1 A R = some (s2, STATUS_SUCCESS) ∧
        (s2.Irps R).Information = min L VSERIAL_BUFFER_SIZE ∧
        (s2.Irps R).SystemBuffer.take (min L VSERIAL_BUFFER_SIZE) =
          (s.Irps W).SystemBuffer.take (min L VSERIAL_BUFFER_SIZE) := by
  obtain ⟨hC, hH, hT⟩ := hInv
  obtain ⟨Ring1, e1, a1, a2, a3, a4, a5, a6⟩ :=
    RingBufferWrite_spec (s.Ext A).RxBuffer (s.Irps W).SystemBuffer L hAlloc hC hH
      (by omega) hLULONG
  obtain ⟨_, a8⟩ := a6 hT hCursors
  rw [hEmpty, hSize, Nat.sub_zero] at e1 a4 a8
  rw [Nat.zero_add] at a4
  have hq : (s.Ext A).RxBuffer.Queued = [] := by
    simp only [RING_BUFFER.Queued, hEmpty, List.take_zero]
  rw [hq, List.nil_append] at a8
  obtain ⟨s1, w1, w2, w3, w4, _⟩ := VSerialWrite_no_reader s A B W Ring1
    (min L VSERIAL_BUFFER_SIZE) hAB hLink (by omega) hSlot (by rw [hL]; exact e1)
  have hI : (s1.Irps R).Length = cap ∧ (s1.Irps R).SystemBuffer = (s.Irps R).SystemBuffer := by
    rw [w4 R]
    by_cases hRW : R = W
    · subst hRW
      simp [hCap]
    · simp [hRW, hCap]
  obtain ⟨Ring2, Buffer, e2, _, _, _, _, _, _, _, _, b10, _⟩ :=
    RingBufferRead_spec Ring1 (s.Irps R).SystemBuffer cap a1 (by rw [a4, a2, hSize]; omega)
      (by rw [a3, a2]; exact hT) (by omega) hCapULONG
  have hm : min cap Ring1.Count = min L VSERIAL_BUFFER_SIZE := by rw [a4]; omega
  rw [hm] at e2 b10
  rw [a8, List.take_take, Nat.min_self] at b10
  have hpos : 0 < min L VSERIAL_BUFFER_SIZE := by
    simp only [VSERIAL_BUFFER_SIZE]; omega
  obtain ⟨s2, r1, _, _, r4, _⟩ := VSerialRead_immediate s1 A R Ring2 Buffer
    (min L VSERIAL_BUFFER_SIZE) (by rw [hI.1]; omega)
    (by rw [w2, hI.1, hI.2]; exact e2) hpos
  refine ⟨s1, w1, ?_, ?_, ?_, s2, r1, ?_, ?_⟩
  · rw [w4 W]; simp
  · rw [w3]
  · intro h
    rw [w3]
    exact uadd_eq_add h
  · rw [r4]
  · rw [r4]; exact b10

/-- The scenario of the specification: 5000 bytes (request 4 of `exampleLarge`) written on
port 1, then read back on port 0 with a buffer of 4096 bytes (request 6). -/
theorem C12_truncated_write_round_trip_witness :
    ∃ s1, VSerialWrite exampleLarge DEVICE_OBJECT.VirtualSerial1 4 =
        some (s1, STATUS_SUCCESS) ∧
      (s1.Irps 4).Information = min 5000 VSERIAL_BUFFER_SIZE ∧
      (s1.Ext DEVICE_OBJECT.VirtualSerial1).BytesWritten =
        uadd (exampleLarge.Ext DEVICE_OBJECT.VirtualSerial1).BytesWritten
          (min 5000 VSERIAL_BUFFER_SIZE) ∧
      ((exampleLarge.Ext DEVICE_OBJECT.VirtualSerial1).BytesWritten +
          min 5000 VSERIAL_BUFFER_SIZE < ULONG_MODULUS →
        (s1.Ext DEVICE_OBJECT.VirtualSerial1).BytesWritten =
          (exampleLarge.Ext DEVICE_OBJECT.VirtualSerial1).BytesWritten +
            min 5000 VSERIAL_BUFFER_SIZE) ∧
      ∃ s2, VSerialRead s1 DEVICE_OBJECT.VirtualSerial0 6 = some (s2, STATUS_SUCCESS) ∧
        (s2.Irps 6).Information = min 5000 VSERIAL_BUFFER_SIZE ∧
        (s2.Irps 6).SystemBuffer.take (min 5000 VSERIAL_BUFFER_SIZE) =
          (exampleLarge.Irps 4).SystemBuffer.take (min 5000 VSERIAL_BUFFER_SIZE) :=
  C12_truncated_write_round_trip exampleLarge DEVICE_OBJECT.VirtualSerial0
    DEVICE_OBJECT.VirtualSerial1 4 6 5000 4096 (by decide) rfl
    ⟨List.length_replicate _ _, by decide⟩ (by decide) rfl rfl rfl rfl rfl
    exampleData_length (by decide) (by decide) rfl
    (List.length_replicate _ _) (by decide) (by decide)

/-! ## Claim on the modem status -/

theorem storeULONG_first (Buffer : List UCHAR) (v : Nat) (h : sizeof_ULONG ≤ Buffer.length) :
    storeULONG Buffer 0 v = some (ULONG_bytes v ++ Buffer.drop sizeof_ULONG) := by
  have h4 : 0 + 4 ≤ Buffer.length := by simpa [sizeof_ULONG] using h
  simp [storeULONG, RtlCopyMemory, sizeof_ULONG, ULONG_bytes, h4]

theorem loadULONG_first (Rest : List UCHAR) (v : Nat) (h : v < ULONG_MODULUS) :
    loadULONG (ULONG_bytes v ++ Rest) 0 = some v := by
  simp only [loadULONG, ULONG_bytes, sizeof_ULONG, Nat.mul_zero, List.drop_zero,
    List.cons_append, List.nil_append, Option.some.injEq]
  simp only [ULONG_MODULUS] at h
  omega

theorem ModemStatus_value (s : DRIVER) (Dev : DEVICE_OBJECT) :
    ModemStatus s Dev =
      match (s.Ext Dev).Peer with
      | none => 0
      | some Peer =>
        (if (s.Ext Peer).Config.DtrState then SERIAL_MSR_DSR ||| SERIAL_MSR_DCD else 0) |||
          (if (s.Ext Peer).Config.RtsState then SERIAL_MSR_CTS else 0) := by
  unfold ModemStatus
  cases (s.Ext Dev).Peer with
  | none => rfl
  | some Peer =>
    simp only
    cases (s.Ext Peer).Config.DtrState <;> cases (s.Ext Peer).Config.RtsState <;> rfl

theorem modem_bits (d r : Bool) (i : Nat) :
    ((if d then SERIAL_MSR_DSR ||| SERIAL_MSR_DCD else 0) |||
        (if r then SERIAL_MSR_CTS else 0)).testBit i = true ↔
      (d = true ∧ (i = 5 ∨ i = 7)) ∨ (r = true ∧ i = 4) := by
  by_cases hi : i < 8
  · interval_cases i <;> cases d <;> cases r <;> decide
  · have hlt : ∀ v : Nat, v < 256 → v.testBit i = false := by
      intro v hv
      apply Nat.testBit_lt_two_pow
      calc v < 2 ^ 8 := hv
        _ ≤ 2 ^ i := Nat.pow_le_pow_right (by decide) (by omega)
    have hv : ((if d then SERIAL_MSR_DSR ||| SERIAL_MSR_DCD else 0) |||
        (if r then SERIAL_MSR_CTS else 0)) < 256 := by
      cases d <;> cases r <;> decide
    rw [hlt _ hv]
    constructor
    · intro h; cases h
    · rintro (⟨_, h | h⟩ | ⟨_, h⟩) <;> omega

/-- C14. Modem-status mapping. `IOCTL_SERIAL_GET_MODEMSTATUS` with room for a `ULONG` succeeds
and stores a status with exactly these bits: DSR (`0x20`) and DCD (`0x80`) if and only if the
peer's `DtrState` is on, CTS (`0x10`) if and only if the peer's `RtsState` is on, and no
other bit; on a port without a peer it stores 0. The status is that of the peer's lines only:
it is the same whatever the port's own `DtrState` and `RtsState`; and the query changes no
device extension. -/
theorem C14_modem_status (s : DRIVER) (Dev : DEVICE_OBJECT) (Irp InputLength OutputLength : Nat)
    (hOutput : sizeof_ULONG ≤ OutputLength)
    (hBuffer : OutputLength ≤ (s.Irps Irp).SystemBuffer.length) :
    ∃ s', VSerialDeviceControl s Dev Irp IOCTL_SERIAL_GET_MODEMSTATUS InputLength
        OutputLength = some (s', STATUS_SUCCESS) ∧
      (s'.Irps Irp).Status = STATUS_SUCCESS ∧
      (s'.Irps Irp).Information = sizeof_ULONG ∧
      loadULONG (s'.Irps Irp).SystemBuffer 0 = some (ModemStatus s Dev) ∧
      (∀ Peer, (s.Ext Dev).Peer = some Peer →
        ModemStatus s Dev =
          ((if (s.Ext Peer).Config.DtrState then SERIAL_MSR_DSR ||| SERIAL_MSR_DCD else 0) |||
            (if (s.Ext Peer).Config.RtsState then SERIAL_MSR_CTS else 0)) ∧
        (∀ i, (ModemStatus s Dev).testBit i = true ↔
          ((s.Ext Peer).Config.DtrState = true ∧ (i = 5 ∨ i = 7)) ∨
            ((s.Ext Peer).Config.RtsState = true ∧ i = 4)) ∧
        (Peer ≠ Dev → ∀ Dtr Rts : Bool,
          ModemStatus (s.setExt Dev { s.Ext Dev with
            Config := { (s.Ext Dev).Config with DtrState := Dtr, RtsState := Rts } }) Dev =
            ModemStatus s Dev)) ∧
      ((s.Ext Dev).Peer = none → ModemStatus s Dev = 0) ∧
      (∀ Dev', s'.Ext Dev' = s.Ext Dev') := by
  have hlen : sizeof_ULONG ≤ (s.Irps Irp).SystemBuffer.length := Nat.le_trans hOutput hBuffer
  have hval := ModemStatus_value s Dev
  have hlt : ModemStatus s Dev < ULONG_MODULUS := by
    rw [hval]
    split
    · decide
    · rename_i Peer _
      cases (s.Ext Peer).Config.DtrState <;> cases (s.Ext Peer).Config.RtsState <;> decide
  have e : VSerialDeviceControl s Dev Irp IOCTL_SERIAL_GET_MODEMSTATUS InputLength
      OutputLength = some (IoCompleteRequest ((s.setExt Dev (s.Ext Dev)).setIrp Irp
        { s.Irps Irp with
          SystemBuffer := ULONG_bytes (ModemStatus s Dev) ++
            (s.Irps Irp).SystemBuffer.drop sizeof_ULONG
          Status := STATUS_SUCCESS
          Information := sizeof_ULONG }) Irp, STATUS_SUCCESS) := by
    simp only [VSerialDeviceControl, VSerialDeviceControlSwitch, hOutput, if_true,
      storeULONG_first _ _ hlen, DRIVER.Irps_setExt]
  refine ⟨_, e, ?_, ?_, ?_, ?_, ?_, ?_⟩
  · simp
  · simp
  · simp only [IoCompleteRequest_Irps, DRIVER.Irps_setIrp_same]
    exact loadULONG_first _ _ hlt
  · intro Peer hP
    rw [hP] at hval
    refine ⟨hval, ?_, ?_⟩
    · intro i
      rw [hval]
      exact modem_bits _ _ i
    · intro hne Dtr Rts
      rw [hval, ModemStatus_value]
      simp [hP, hne]
  · intro hP
    rw [hP] at hval
    exact hval
  · intro Dev'
    by_cases hd : Dev' = Dev
    · subst hd; simp
    · simp [hd]

/-- The scenario of the specification: in `exampleModem` port 1 has DTR on and RTS off, and
port 0 is asked for its modem status (request 3, four bytes). -/
theorem C14_modem_status_witness :
    (∃ s', VSerialDeviceControl exampleModem DEVICE_OBJECT.VirtualSerial0 3
        IOCTL_SERIAL_GET_MODEMSTATUS 0 4 = some (s', STATUS_SUCCESS) ∧
      loadULONG (s'.Irps 3).SystemBuffer 0 =
        some (ModemStatus exampleModem DEVICE_OBJECT.VirtualSerial0)) ∧
    ModemStatus exampleModem DEVICE_OBJECT.VirtualSerial0 = SERIAL_MSR_DSR ||| SERIAL_MSR_DCD :=
  have h := C14_modem_status exampleModem DEVICE_OBJECT.VirtualSerial0 3 0 4 (by decide)
    (by decide)
  ⟨h.elim fun s' hs => ⟨s', hs.1, hs.2.2.2.1⟩, by decide⟩

/-! ## The recorded loops -/

theorem RingBufferWriteLoopTraced_erase (Data : List UCHAR) (Length : Nat) :
    ∀ (fuel : Nat) (Ring : RING_BUFFER) (Written : Nat),
      (RingBufferWriteLoopTraced fuel Ring Data Length Written).map (fun r => (r.1, r.2.1)) =
        RingBufferWriteLoop fuel Ring Data Length Written := by
  intro fuel
  induction fuel with
  | zero => intro Ring Written; rfl
  | succ fuel ih =>
    intro Ring Written
    rw [RingBufferWriteLoopTraced, RingBufferWriteLoop]
    by_cases hc : Written < Length ∧ Ring.Count < Ring.Size
    · rw [if_pos hc, if_pos hc]
      dsimp only
      generalize RtlCopyMemory Ring.Buffer Ring.Head Data Written _ = o
      cases o with
      | none => rfl
      | some Buffer =>
        dsimp only
        rw [← ih]
        generalize RingBufferWriteLoopTraced fuel _ Data Length _ = t
        cases t <;> rfl
    · rw [if_neg hc, if_neg hc]
      rfl

theorem RingBufferReadLoopTraced_erase (MaxLength : Nat) :
    ∀ (fuel : Nat) (Ring : RING_BUFFER) (Data : List UCHAR) (Read : Nat),
      (RingBufferReadLoopTraced fuel Ring Data MaxLength Read).map
          (fun r => (r.1, r.2.1, r.2.2.1)) =
        RingBufferReadLoop fuel Ring Data MaxLength Read := by
  intro fuel
  induction fuel with
  | zero => intro Ring Data Read; rfl
  | succ fuel ih =>
    intro Ring Data Read
    rw [RingBufferReadLoopTraced, RingBufferReadLoop]
    by_cases hc : Read < MaxLength ∧ 0 < Ring.Count
    · rw [if_pos hc, if_pos hc]
      dsimp only
      generalize RtlCopyMemory Data Read Ring.Buffer Ring.Tail _ = o
      cases o with
      | none => rfl
      | some Buffer =>
        dsimp only
        by_cases hS : Ring.Size = 0
        · rw [if_pos hS, if_pos hS]
          rfl
        · rw [if_neg hS, if_neg hS, ← ih]
          generalize RingBufferReadLoopTraced fuel _ Buffer MaxLength _ = t
          cases t <;> rfl
    · rw [if_neg hc, if_neg hc]
      rfl

theorem RingBufferWriteLoopTraced_mono (Data : List UCHAR) (Length : Nat) :
    ∀ (fuel : Nat) (Ring : RING_BUFFER) (Written : Nat)
      (r : RING_BUFFER × Nat × List RING_COPY),
      RingBufferWriteLoopTraced fuel Ring Data Length Written = some r →
      RingBufferWriteLoopTraced (fuel + 1) Ring Data Length Written = some r := by
  intro fuel
  induction fuel with
  | zero => intro Ring Written r h; cases h
  | succ fuel ih =>
    intro Ring Written r h
    rw [RingBufferWriteLoopTraced] at h ⊢
    split
    · next hc =>
      rw [if_pos hc] at h
      dsimp only at h ⊢
      split
      · next hB => rw [hB] at h; cases h
      · next Buffer hB =>
        rw [hB] at h
        dsimp only at h
        split at h
        · cases h
        · next Ring' Written' Copies hT =>
          rw [ih _ _ _ hT]
          exact h
    · next hc =>
      rw [if_neg hc] at h
      exact h

theorem RingBufferReadLoopTraced_mono (MaxLength : Nat) :
    ∀ (fuel : Nat) (Ring : RING_BUFFER) (Data : List UCHAR) (Read : Nat)
      (r : RING_BUFFER × List UCHAR × Nat × List RING_COPY),
      RingBufferReadLoopTraced fuel Ring Data MaxLength Read = some r →
      RingBufferReadLoopTraced (fuel + 1) Ring Data MaxLength Read = some r := by
  intro fuel
  induction fuel with
  | zero => intro Ring Data Read r h; cases h
  | succ fuel ih =>
    intro Ring Data Read r h
    rw [RingBufferReadLoopTraced] at h ⊢
    split
    · next hc =>
      rw [if_pos hc] at h
      dsimp only at h ⊢
      split
      · next hB => rw [hB] at h; cases h
      · next Buffer hB =>
        rw [hB] at h
        dsimp only at h
        split
        · next hS => rw [if_pos hS] at h; cases h
        · next hS =>
          rw [if_neg hS] at h
          split at h
          · cases h
          · next Ring' Data' Read' Copies hT =>
            rw [ih _ _ _ _ hT]
            exact h
    · next hc =>
      rw [if_neg hc] at h
      exact h

theorem RingBufferWriteLoopTraced_le (Data : List UCHAR) (Length : Nat) (Ring : RING_BUFFER)
    (Written : Nat) (r : RING_BUFFER × Nat × List RING_COPY) (fuel fuel' : Nat)
    (h : RingBufferWriteLoopTraced fuel Ring Data Length Written = some r) (hle : fuel ≤ fuel') :
    RingBufferWriteLoopTraced fuel' Ring Data Length Written = some r := by
  induction hle with
  | refl => exact h
  | step _ ih => exact RingBufferWriteLoopTraced_mono Data Length _ Ring Written r ih

theorem RingBufferReadLoopTraced_le (MaxLength : Nat) (Ring : RING_BUFFER) (Data : List UCHAR)
    (Read : Nat) (r : RING_BUFFER × List UCHAR × Nat × List RING_COPY) (fuel fuel' : Nat)
    (h : RingBufferReadLoopTraced fuel Ring Data MaxLength Read = some r) (hle : fuel ≤ fuel') :
    RingBufferReadLoopTraced fuel' Ring Data MaxLength Read = some r := by
  induction hle with
  | refl => exact h
  | step _ ih => exact RingBufferReadLoopTraced_mono MaxLength _ Ring Data Read r ih

theorem RingBufferWriteLoopTraced_stop (fuel : Nat) (Ring : RING_BUFFER) (Data : List UCHAR)
    (Length Written : Nat) (hc : ¬ (Written < Length ∧ Ring.Count < Ring.Size)) :
    RingBufferWriteLoopTraced (fuel + 1) Ring Data Length Written = some (Ring, Written, []) := by
  rw [RingBufferWriteLoopTraced, if_neg hc]

theorem RingBufferWriteLoopTraced_step (fuel : Nat) (Ring : RING_BUFFER) (Data : List UCHAR)
    (Length Written : Nat) (hA : Ring.Allocated)
    (hH : Ring.Head < Ring.Size) (hL : Length ≤ Data.length) (hLM : Length < ULONG_MODULUS)
    (h1 : Written < Length) (h2 : Ring.Count < Ring.Size) :
    ∃ B1 k, min (min (Length - Written) (Ring.Size - Ring.Count)) (Ring.Size - Ring.Head) = k ∧
      B1.length = Ring.Size ∧
      RingBufferWriteLoopTraced (fuel + 1) Ring Data Length Written =
        (RingBufferWriteLoopTraced fuel
          { Ring with Buffer := B1, Head := (Ring.Head + k) % Ring.Size, Count := Ring.Count + k }
          Data Length (Written + k)).map
          (fun r => (r.1, r.2.1, { Offset := Ring.Head, Bytes := k } :: r.2.2)) := by
  obtain ⟨hlen, hSM⟩ := hA
  have e1 : usub Length Written = Length - Written := usub_eq_sub hLM (by omega)
  have e2 : usub Ring.Size Ring.Count = Ring.Size - Ring.Count := usub_eq_sub hSM (by omega)
  have e3 : usub Ring.Size Ring.Head = Ring.Size - Ring.Head := usub_eq_sub hSM (by omega)
  simp only [RingBufferWriteLoopTraced, h1, h2, and_self, if_true, e1, e2, e3]
  generalize hk : min (min (Length - Written) (Ring.Size - Ring.Count))
    (Ring.Size - Ring.Head) = k
  obtain ⟨hk1, hk2, hk3, hk4⟩ := write_chunk h1 h2 hH hk
  clear hk e1 e2 e3
  obtain ⟨B1, hB1⟩ : ∃ B1, RtlCopyMemory Ring.Buffer Ring.Head Data Written k = some B1 :=
    ⟨_, RtlCopyMemory_eq_some (hlen ▸ hk4) (Nat.le_trans hk2 hL)⟩
  have hB1len : B1.length = Ring.Size := by rw [RtlCopyMemory_length hB1, hlen]
  have e4 : uadd Ring.Head k = Ring.Head + k := uadd_eq_add (Nat.lt_of_le_of_lt hk4 hSM)
  have e5 : uadd Ring.Count k = Ring.Count + k := uadd_eq_add (Nat.lt_of_le_of_lt hk3 hSM)
  have e6 : uadd Written k = Written + k := uadd_eq_add (Nat.lt_of_le_of_lt hk2 hLM)
  refine ⟨B1, k, rfl, hB1len, ?_⟩
  rw [hB1]
  simp only [e4, e5, e6]
  generalize RingBufferWriteLoopTraced fuel _ Data Length _ = t
  cases t <;> rfl

theorem RingBufferWriteLoopTraced_spec (Ring : RING_BUFFER) (Data : List UCHAR)
    (Length Written fuel : Nat) (hA : Ring.Allocated) (hC : Ring.Count ≤ Ring.Size)
    (hH : Ring.Head < Ring.Size) (hL : Length ≤ Data.length) (hLM : Length < ULONG_MODULUS)
    (hW : Written ≤ Length) (hf : min 2 (Length - Written) < fuel) :
    ∃ Ring' Copies, RingBufferWriteLoopTraced fuel Ring Data Length Written =
        some (Ring', Written + min (Length - Written) (Ring.Size - Ring.Count), Copies) ∧
      Copies.length ≤ 2 ∧
      ∀ c ∈ Copies, 1 ≤ c.Bytes ∧ c.Offset + c.Bytes ≤ Ring.Size := by
  obtain ⟨f1, rfl⟩ : ∃ f1, fuel = f1 + 1 := ⟨fuel - 1, by omega⟩
  by_cases hc : Written < Length ∧ Ring.Count < Ring.Size
  · obtain ⟨B1, k, hk, hB1, e1⟩ :=
      RingBufferWriteLoopTraced_step f1 Ring Data Length Written hA hH hL hLM hc.1 hc.2
    obtain ⟨hk1, hk2, hk3, hk4⟩ := write_chunk hc.1 hc.2 hH hk
    obtain ⟨f2, rfl⟩ : ∃ f2, f1 = f2 + 1 := ⟨f1 - 1, by omega⟩
    by_cases hc' : Written + k < Length ∧ Ring.Count + k < Ring.Size
    · have hk5 : Ring.Head + k = Ring.Size := by omega
      have hpos : 0 < Ring.Size := by omega
      obtain ⟨f3, rfl⟩ : ∃ f3, f2 = f3 + 1 := ⟨f2 - 1, by omega⟩
      obtain ⟨B2, k2, hk', hB2, e2⟩ :=
        RingBufferWriteLoopTraced_step (f3 + 1)
          { Ring with Buffer := B1, Head := (Ring.Head + k) % Ring.Size, Count := Ring.Count + k }
          Data Length (Written + k) ⟨hB1, hA.2⟩ (Nat.mod_lt _ hpos) hL hLM hc'.1 hc'.2
      have hk6 : min (Length - (Written + k)) (Ring.Size - (Ring.Count + k)) = k2 := by
        simp only [hk5, Nat.mod_self, Nat.sub_zero] at hk'
        omega
      clear hk'
      refine ⟨
        { Buffer := B2
          Size := Ring.Size
          Head := ((Ring.Head + k) % Ring.Size + k2) % Ring.Size
          Tail := Ring.Tail
          Count := Ring.Count + k + k2 },
        [{ Offset := Ring.Head, Bytes := k }, { Offset := (Ring.Head + k) % Ring.Size, Bytes := k2 }],
        ?_, ?_, ?_⟩
      · rw [e1, e2, RingBufferWriteLoopTraced_stop]
        · exact congrArg some (Prod.ext rfl (Prod.ext (by simp only; omega) rfl))
        · show ¬ (Written + k + k2 < Length ∧ Ring.Count + k + k2 < Ring.Size)
          omega
      · simp only [List.length_cons, List.length_nil]
        omega
      · intro c hcm
        simp only [List.mem_cons, List.mem_singleton, List.not_mem_nil, or_false] at hcm
        rcases hcm with rfl | rfl
        · exact ⟨hk1, hk4⟩
        · show 1 ≤ k2 ∧ (Ring.Head + k) % Ring.Size + k2 ≤ Ring.Size
          rw [hk5, Nat.mod_self]
          omega
    · refine ⟨
        { Buffer := B1
          Size := Ring.Size
          Head := (Ring.Head + k) % Ring.Size
          Tail := Ring.Tail
          Count := Ring.Count + k },
        [{ Offset := Ring.Head, Bytes := k }], ?_, ?_, ?_⟩
      · rw [e1, RingBufferWriteLoopTraced_stop _ _ _ _ _ hc']
        exact congrArg some (Prod.ext rfl (Prod.ext (by simp only; omega) rfl))
      · simp only [List.length_cons, List.length_nil]
        omega
      · intro c hcm
        simp only [List.mem_singleton] at hcm
        subst hcm
        exact ⟨hk1, hk4⟩
  · refine ⟨Ring, [], ?_, Nat.zero_le _, ?_⟩
    · rw [RingBufferWriteLoopTraced_stop _ _ _ _ _ hc]
      have : min (Length - Written) (Ring.Size - Ring.Count) = 0 := by omega
      rw [this, Nat.add_zero]
    · intro c hcm
      cases hcm

theorem RingBufferReadLoopTraced_stop (fuel : Nat) (Ring : RING_BUFFER) (Data : List UCHAR)
    (MaxLength Read : Nat) (hc : ¬ (Read < MaxLength ∧ 0 < Ring.Count)) :
    RingBufferReadLoopTraced (fuel + 1) Ring Data MaxLength Read = some (Ring, Data, Read, []) := by
  rw [RingBufferReadLoopTraced, if_neg hc]

theorem RingBufferReadLoopTraced_step (fuel : Nat) (Ring : RING_BUFFER) (Data : List UCHAR)
    (MaxLength Read : Nat) (hA : Ring.Allocated) (hC : Ring.Count ≤ Ring.Size)
    (hT : Ring.Tail < Ring.Size) (hD : MaxLength ≤ Data.length)
    (hMM : MaxLength < ULONG_MODULUS) (h1 : Read < MaxLength) (h2 : 0 < Ring.Count) :
    ∃ D1 k, min (min (MaxLength - Read) Ring.Count) (Ring.Size - Ring.Tail) = k ∧
      D1.length = Data.length ∧
      RingBufferReadLoopTraced (fuel + 1) Ring Data MaxLength Read =
        (RingBufferReadLoopTraced fuel
          { Ring with Tail := (Ring.Tail + k) % Ring.Size, Count := Ring.Count - k }
          D1 MaxLength (Read + k)).map
          (fun r => (r.1, r.2.1, r.2.2.1, { Offset := Ring.Tail, Bytes := k } :: r.2.2.2)) := by
  obtain ⟨hlen, hSM⟩ := hA
  have e1 : usub MaxLength Read = MaxLength - Read := usub_eq_sub hMM (by omega)
  have e3 : usub Ring.Size Ring.Tail = Ring.Size - Ring.Tail := usub_eq_sub hSM (by omega)
  have hS0 : ¬ Ring.Size = 0 := by omega
  simp only [RingBufferReadLoopTraced, h1, h2, and_self, if_true, e1, e3]
  generalize hk : min (min (MaxLength - Read) Ring.Count) (Ring.Size - Ring.Tail) = k
  obtain ⟨hk1, hk2, hk3, hk4⟩ := read_chunk h1 h2 hT hk
  clear hk e1 e3
  obtain ⟨D1, hD1⟩ : ∃ D1, RtlCopyMemory Data Read Ring.Buffer Ring.Tail k = some D1 :=
    ⟨_, RtlCopyMemory_eq_some (Nat.le_trans hk2 hD) (hlen ▸ hk4)⟩
  have hD1len : D1.length = Data.length := RtlCopyMemory_length hD1
  have e4 : uadd Ring.Tail k = Ring.Tail + k := uadd_eq_add (Nat.lt_of_le_of_lt hk4 hSM)
  have e5 : usub Ring.Count k = Ring.Count - k :=
    usub_eq_sub (Nat.lt_of_le_of_lt hC hSM) hk3
  have e6 : uadd Read k = Read + k := uadd_eq_add (Nat.lt_of_le_of_lt hk2 hMM)
  refine ⟨D1, k, rfl, hD1len, ?_⟩
  rw [hD1]
  simp only [e4, e5, e6, hS0, if_false]
  generalize RingBufferReadLoopTraced fuel _ D1 MaxLength _ = t
  cases t <;> rfl

theorem RingBufferReadLoopTraced_spec (Ring : RING_BUFFER) (Data : List UCHAR)
    (MaxLength Read fuel : Nat) (hA : Ring.Allocated) (hC : Ring.Count ≤ Ring.Size)
    (hT : Ring.Tail < Ring.Size) (hD : MaxLength ≤ Data.length)
    (hMM : MaxLength < ULONG_MODULUS) (hR : Read ≤ MaxLength)
    (hf : min 2 (MaxLength - Read) < fuel) :
    ∃ Ring' Data' Copies, RingBufferReadLoopTraced fuel Ring Data MaxLength Read =
        some (Ring', Data', Read + min (MaxLength - Read) Ring.Count, Copies) ∧
      Copies.length ≤ 2 ∧
      ∀ c ∈ Copies, 1 ≤ c.Bytes ∧ c.Offset + c.Bytes ≤ Ring.Size := by
  obtain ⟨f1, rfl⟩ : ∃ f1, fuel = f1 + 1 := ⟨fuel - 1, by omega⟩
  by_cases hc : Read < MaxLength ∧ 0 < Ring.Count
  · obtain ⟨D1, k, hk, hD1, e1⟩ :=
      RingBufferReadLoopTraced_step f1 Ring Data MaxLength Read hA hC hT hD hMM hc.1 hc.2
    obtain ⟨hk1, hk2, hk3, hk4⟩ := read_chunk hc.1 hc.2 hT hk
    obtain ⟨f2, rfl⟩ : ∃ f2, f1 = f2 + 1 := ⟨f1 - 1, by omega⟩
    by_cases hc' : Read + k < MaxLength ∧ 0 < Ring.Count - k
    · have hk5 : Ring.Tail + k = Ring.Size := by omega
      have hpos : 0 < Ring.Size := by omega
      obtain ⟨f3, rfl⟩ : ∃ f3, f2 = f3 + 1 := ⟨f2 - 1, by omega⟩
      obtain ⟨D2, k2, hk', hD2, e2⟩ :=
        RingBufferReadLoopTraced_step (f3 + 1)
          { Ring with Tail := (Ring.Tail + k) % Ring.Size, Count := Ring.Count - k }
          D1 MaxLength (Read + k) hA (Nat.le_trans (Nat.sub_le _ _) hC) (Nat.mod_lt _ hpos)
          (hD1 ▸ hD) hMM hc'.1 hc'.2
      have hk6 : min (MaxLength - (Read + k)) (Ring.Count - k) = k2 := by
        simp only [hk5, Nat.mod_self, Nat.sub_zero] at hk'
        omega
      clear hk'
      refine ⟨
        { Buffer := Ring.Buffer
          Size := Ring.Size
          Head := Ring.Head
          Tail := ((Ring.Tail + k) % Ring.Size + k2) % Ring.Size
          Count := Ring.Count - k - k2 },
        D2,
        [{ Offset := Ring.Tail, Bytes := k }, { Offset := (Ring.Tail + k) % Ring.Size, Bytes := k2 }],
        ?_, ?_, ?_⟩
      · rw [e1, e2, RingBufferReadLoopTraced_stop]
        · exact congrArg some
            (Prod.ext rfl (Prod.ext rfl (Prod.ext (by simp only; omega) rfl)))
        · show ¬ (Read + k + k2 < MaxLength ∧ 0 < Ring.Count - k - k2)
          omega
      · simp only [List.length_cons, List.length_nil]
        omega
      · intro c hcm
        simp only [List.mem_cons, List.mem_singleton, List.not_mem_nil, or_false] at hcm
        rcases hcm with rfl | rfl
        · exact ⟨hk1, hk4⟩
        · show 1 ≤ k2 ∧ (Ring.Tail + k) % Ring.Size + k2 ≤ Ring.Size
          rw [hk5, Nat.mod_self]
          omega
    · refine ⟨
        { Buffer := Ring.Buffer
          Size := Ring.Size
          Head := Ring.Head
          Tail := (Ring.Tail + k) % Ring.Size
          Count := Ring.Count - k },
        D1, [{ Offset := Ring.Tail, Bytes := k }], ?_, ?_, ?_⟩
      · rw [e1, RingBufferReadLoopTraced_stop _ _ _ _ _ hc']
        exact congrArg some
          (Prod.ext rfl (Prod.ext rfl (Prod.ext (by simp only; omega) rfl)))
      · simp only [List.length_cons, List.length_nil]
        omega
      · intro c hcm
        simp only [List.mem_singleton] at hcm
        subst hcm
        exact ⟨hk1, hk4⟩
  · refine ⟨Ring, Data, [], ?_, Nat.zero_le _, ?_⟩
    · rw [RingBufferReadLoopTraced_stop _ _ _ _ _ hc]
      have : min (MaxLength - Read) Ring.Count = 0 := by omega
      rw [this, Nat.add_zero]
    · intro c hcm
      cases hcm

/-- C24. On a well-formed ring (`Size > 0`, `Head < Size`, `Tail < Size`, `Count ≤ Size`)
the copy loops of `RingBufferWrite` and `RingBufferRead` terminate for every length argument:
three units of fuel, two iterations and the last test of the condition, are always enough
and more fuel changes nothing. Every iteration copies at least one byte (`ToWrite` and
`ToRead` are never 0) and stays inside the storage (`Offset + Bytes ≤ Size`), and a call
goes through at most two iterations. -/
theorem C24_copy_loops_terminate (Ring : RING_BUFFER) (Data Dest : List UCHAR)
    (Length MaxLength : Nat) (hAlloc : Ring.Allocated) (hInv : Ring.Invariant)
    (hData : Length ≤ Data.length) (hLength : Length < ULONG_MODULUS)
    (hDest : MaxLength ≤ Dest.length) (hMaxLength : MaxLength < ULONG_MODULUS) :
    (∃ Ring' Written Copies,
      (∀ fuel, 3 ≤ fuel →
        RingBufferWriteLoopTraced fuel Ring Data Length 0 = some (Ring', Written, Copies)) ∧
      RingBufferWrite Ring Data Length = some (Ring', Written) ∧
      Copies.length ≤ 2 ∧
      ∀ c ∈ Copies, 1 ≤ c.Bytes ∧ c.Offset + c.Bytes ≤ Ring.Size) ∧
    (∃ Ring' Dest' Read Copies,
      (∀ fuel, 3 ≤ fuel →
        RingBufferReadLoopTraced fuel Ring Dest MaxLength 0 =
          some (Ring', Dest', Read, Copies)) ∧
      RingBufferRead Ring Dest MaxLength = some (Ring', Dest', Read) ∧
      Copies.length ≤ 2 ∧
      ∀ c ∈ Copies, 1 ≤ c.Bytes ∧ c.Offset + c.Bytes ≤ Ring.Size) := by
  obtain ⟨hC, hH, hT⟩ := hInv
  constructor
  · obtain ⟨Ring', Copies, e, h1, h2⟩ :=
      RingBufferWriteLoopTraced_spec Ring Data Length 0 (min 2 Length + 1) hAlloc hC hH hData
        hLength (Nat.zero_le _) (by omega)
    refine ⟨Ring', 0 + min (Length - 0) (Ring.Size - Ring.Count), Copies, ?_, ?_, h1, h2⟩
    · intro fuel hfuel
      exact RingBufferWriteLoopTraced_le Data Length Ring 0 _ _ fuel e (by omega)
    · rw [RingBufferWrite, ← RingBufferWriteLoopTraced_erase,
        RingBufferWriteLoopTraced_le Data Length Ring 0 _ _ (Length + 2) e (by omega)]
      rfl
  · obtain ⟨Ring', Dest', Copies, e, h1, h2⟩ :=
      RingBufferReadLoopTraced_spec Ring Dest MaxLength 0 (min 2 MaxLength + 1) hAlloc hC hT
        hDest hMaxLength (Nat.zero_le _) (by omega)
    refine ⟨Ring', Dest', 0 + min (MaxLength - 0) Ring.Count, Copies, ?_, ?_, h1, h2⟩
    · intro fuel hfuel
      exact RingBufferReadLoopTraced_le MaxLength Ring Dest 0 _ _ fuel e (by omega)
    · rw [RingBufferRead, ← RingBufferReadLoopTraced_erase,
        RingBufferReadLoopTraced_le MaxLength Ring Dest 0 _ _ (MaxLength + 2) e (by omega)]
      rfl

/-- A write of three bytes and a read of two on `exampleWrapped`. -/
theorem C24_copy_loops_terminate_witness :
    (∃ Ring' Written Copies,
      (∀ fuel, 3 ≤ fuel →
        RingBufferWriteLoopTraced fuel exampleWrapped [1, 2, 3] 3 0 =
          some (Ring', Written, Copies)) ∧
      RingBufferWrite exampleWrapped [1, 2, 3] 3 = some (Ring', Written) ∧
      Copies.length ≤ 2 ∧
      ∀ c ∈ Copies, 1 ≤ c.Bytes ∧ c.Offset + c.Bytes ≤ exampleWrapped.Size) ∧
    (∃ Ring' Dest' Read Copies,
      (∀ fuel, 3 ≤ fuel →
        RingBufferReadLoopTraced fuel exampleWrapped [0, 0] 2 0 =
          some (Ring', Dest', Read, Copies)) ∧
      RingBufferRead exampleWrapped [0, 0] 2 = some (Ring', Dest', Read) ∧
      Copies.length ≤ 2 ∧
      ∀ c ∈ Copies, 1 ≤ c.Bytes ∧ c.Offset + c.Bytes ≤ exampleWrapped.Size) :=
  C24_copy_loops_terminate exampleWrapped [1, 2, 3] [0, 0] 3 2 (by decide) (by decide)
    (by decide) (by decide) (by decide) (by decide)

/-! ## The cursors of a ring -/

theorem RING_BUFFER.Queued_getElem? (Ring : RING_BUFFER) (hA : Ring.Allocated)
    (hT : Ring.Tail < Ring.Size) (hC : Ring.Count ≤ Ring.Size) (i : Nat)
    (hi : i < Ring.Count) :
    Ring.Queued[i]? = Ring.Buffer[(Ring.Tail + i) % Ring.Size]? := by
  obtain ⟨hlen, _⟩ := hA
  rw [RING_BUFFER.Queued, window_getElem?, if_pos hi, hlen, mod_wrap (by omega)]
  split_ifs <;> rfl

theorem RING_BUFFER.apply_wellFormed (Ring : RING_BUFFER) (op : RING_OPERATION)
    (hA : Ring.Allocated) (hI : Ring.Invariant) (hCur : Ring.Cursors) (hop : op.WellTyped) :
    ∃ Ring', Ring.apply op = some Ring' ∧ Ring'.Allocated ∧ Ring'.Invariant ∧ Ring'.Cursors := by
  obtain ⟨hC, hH, hT⟩ := hI
  cases op with
  | Write Data Length =>
    obtain ⟨hD, hLM⟩ := hop
    obtain ⟨Ring', h1, h2, h3, h4, h5, h6, h7⟩ :=
      RingBufferWrite_spec Ring Data Length hA hC hH (by omega) hLM
    refine ⟨Ring', by simp only [RING_BUFFER.apply, h1], h2, ⟨?_, h6, ?_⟩, (h7 hT hCur).1⟩
    · rw [h5, h3]; omega
    · rw [h4, h3]; exact hT
  | Read Data MaxLength =>
    obtain ⟨hD, hMM⟩ := hop
    obtain ⟨Ring', Data', h1, h2, h3, h4, _, h6, h7, _, _, _, _, h12⟩ :=
      RingBufferRead_spec Ring Data MaxLength hA hC hT (by omega) hMM
    refine ⟨Ring', by simp only [RING_BUFFER.apply, h1], h2, ⟨?_, ?_, h7⟩, h12 hCur⟩
    · rw [h6, h3]; omega
    · rw [h4, h3]; exact hH
  | Purge =>
    refine ⟨RingBufferPurge Ring, rfl, hA, ⟨Nat.zero_le _, ?_, ?_⟩, ?_⟩
    · show 0 < Ring.Size
      omega
    · show 0 < Ring.Size
      omega
    · show 0 = (0 + 0) % Ring.Size
      rw [Nat.add_zero, Nat.zero_mod]

theorem RING_BUFFER.applyAll_wellFormed (ops : List RING_OPERATION) :
    ∀ Ring : RING_BUFFER, Ring.Allocated → Ring.Invariant → Ring.Cursors →
      (∀ op ∈ ops, op.WellTyped) →
      ∃ Ring', Ring.applyAll ops = some Ring' ∧ Ring'.Allocated ∧ Ring'.Invariant ∧
        Ring'.Cursors := by
  induction ops with
  | nil => intro Ring hA hI hCur _; exact ⟨Ring, rfl, hA, hI, hCur⟩
  | cons op ops ih =>
    intro Ring hA hI hCur hops
    obtain ⟨Ring1, e1, hA1, hI1, hCur1⟩ :=
      Ring.apply_wellFormed op hA hI hCur (hops op (List.mem_cons_self _ _))
    obtain ⟨Ring2, e2, h2⟩ := ih Ring1 hA1 hI1 hCur1
      (fun d hd => hops d (List.mem_cons_of_mem _ hd))
    exact ⟨Ring2, by simp only [RING_BUFFER.applyAll, e1, e2], h2⟩

/-- C22. In every ring reached from `RingBufferInit` with `Size > 0` by calls of
`RingBufferWrite` and `RingBufferRead` and purge resets, `Head = (Tail + Count) mod Size`.
Hence the `Count` queued bytes are the bytes at the positions `Tail`, `Tail + 1`, ...,
`Tail + Count - 1` (mod `Size`), oldest first, and a further write leaves every one of these
positions as it was: it never overwrites a byte that has not been read yet. -/
theorem C22_cursor_invariant (Buffer : List UCHAR) (Size : Nat) (Ring : RING_BUFFER)
    (ops : List RING_OPERATION) (hSize : 0 < Size) (hULONG : Size < ULONG_MODULUS)
    (hPool : Buffer.length = Size)
    (hInit : RingBufferInit (some Buffer) Size = Except.ok Ring)
    (hTyped : ∀ op ∈ ops, op.WellTyped) :
    ∃ Reached, Ring.applyAll ops = some Reached ∧
      Reached.Head = (Reached.Tail + Reached.Count) % Reached.Size ∧
      (∀ i, i < Reached.Count →
        Reached.Queued[i]? = Reached.Buffer[(Reached.Tail + i) % Reached.Size]?) ∧
      ∀ (Data : List UCHAR) (Length : Nat), Data.length = Length → Length < ULONG_MODULUS →
        ∃ Ring' Written, RingBufferWrite Reached Data Length = some (Ring', Written) ∧
          ∀ i, i < Reached.Count →
            Ring'.Buffer[(Reached.Tail + i) % Reached.Size]? =
              Reached.Buffer[(Reached.Tail + i) % Reached.Size]? := by
  simp only [RingBufferInit, Except.ok.injEq] at hInit
  subst hInit
  obtain ⟨Reached, e, hA, ⟨hC, hH, hT⟩, hCur⟩ :=
    RING_BUFFER.applyAll_wellFormed ops
      { Buffer := Buffer, Size := Size, Head := 0, Tail := 0, Count := 0 }
      ⟨hPool, hULONG⟩ ⟨Nat.zero_le _, hSize, hSize⟩
      (by simp only [RING_BUFFER.Cursors, Nat.add_zero, Nat.zero_mod]) hTyped
  refine ⟨Reached, e, hCur, fun i hi => Reached.Queued_getElem? hA hT hC i hi, ?_⟩
  intro Data Length hD hLM
  obtain ⟨Ring', h1, h2, h3, h4, h5, h6, h7⟩ :=
    RingBufferWrite_spec Reached Data Length hA hC hH (by omega) hLM
  obtain ⟨_, h9⟩ := h7 hT hCur
  refine ⟨Ring', _, h1, ?_⟩
  intro i hi
  have hq := Ring'.Queued_getElem? h2 (by rw [h4, h3]; exact hT) (by rw [h5, h3]; omega) i
    (by rw [h5]; omega)
  have hlen : Reached.Queued.length = Reached.Count :=
    window_length Reached.Buffer Reached.Tail Reached.Count (by rw [hA.1]; omega)
      (by rw [hA.1]; exact hC)
  rw [h4, h3] at hq
  rw [← hq, h9, List.getElem?_append_left (by rw [hlen]; exact hi)]
  exact Reached.Queued_getElem? hA hT hC i hi

/-- The operations of `exampleOperations` on a four byte ring. -/
theorem C22_cursor_invariant_witness :
    ∃ Reached,
      RING_BUFFER.applyAll { Buffer := [0, 0, 0, 0], Size := 4, Head := 0, Tail := 0, Count := 0 }
        exampleOperations = some Reached ∧
      Reached.Head = (Reached.Tail + Reached.Count) % Reached.Size ∧
      (∀ i, i < Reached.Count →
        Reached.Queued[i]? = Reached.Buffer[(Reached.Tail + i) % Reached.Size]?) ∧
      ∀ (Data : List UCHAR) (Length : Nat), Data.length = Length → Length < ULONG_MODULUS →
        ∃ Ring' Written, RingBufferWrite Reached Data Length = some (Ring', Written) ∧
          ∀ i, i < Reached.Count →
            Ring'.Buffer[(Reached.Tail + i) % Reached.Size]? =
              Reached.Buffer[(Reached.Tail + i) % Reached.Size]? :=
  C22_cursor_invariant [0, 0, 0, 0] 4 _ exampleOperations (by decide) (by decide) rfl rfl
    (by decide)

/-! ## What a completion attempt and a write leave alone -/

theorem TryCompleteRead_yields (s : DRIVER) (Dev : DEVICE_OBJECT) (Irp : Nat)
    (hSlot : (s.Ext Dev).PendingReadIrp = some Irp)
    (hData : (s.Ext Dev).RxBuffer.Count ≠ 0)
    (hHook : (s.Irps Irp).CancelRoutine = false) :
    TryCompleteRead s Dev =
      some ((s.setExt Dev { s.Ext Dev with PendingReadIrp := none }).setIrp Irp
        { s.Irps Irp with CancelRoutine := false }) := by
  simp only [TryCompleteRead, hSlot, RingBufferBytesAvailable, hData, if_false,
    IoSetCancelRoutine, hHook, DRIVER.Irps_setExt, if_true]

theorem TryCompleteRead_faults (s : DRIVER) (Dev : DEVICE_OBJECT) (Irp : Nat)
    (hSlot : (s.Ext Dev).PendingReadIrp = some Irp)
    (hData : (s.Ext Dev).RxBuffer.Count ≠ 0)
    (hHook : (s.Irps Irp).CancelRoutine = true)
    (hRead : RingBufferRead (s.Ext Dev).RxBuffer (s.Irps Irp).SystemBuffer (s.Irps Irp).Length =
      none) :
    TryCompleteRead s Dev = none := by
  simp only [TryCompleteRead, hSlot, RingBufferBytesAvailable, hData, if_false,
    IoSetCancelRoutine, hHook, KeCancelTimer, DRIVER.Ext_setExt_same, DRIVER.Irps_setExt,
    DRIVER.Irps_setIrp_same, DRIVER.Ext_setIrp, hRead]
  rfl

theorem TryCompleteRead_frame (s s' : DRIVER) (Dev : DEVICE_OBJECT)
    (h : TryCompleteRead s Dev = some s') :
    (∀ Dev', Dev' ≠ Dev → s'.Ext Dev' = s.Ext Dev') ∧
      (s'.Ext Dev).Peer = (s.Ext Dev).Peer ∧ (s'.Ext Dev).PortIndex = (s.Ext Dev).PortIndex ∧
      (s'.Ext Dev).Config = (s.Ext Dev).Config ∧
      (s'.Ext Dev).BytesWritten = (s.Ext Dev).BytesWritten := by
  cases hSlot : (s.Ext Dev).PendingReadIrp with
  | none =>
    rw [TryCompleteRead_idle s Dev hSlot] at h
    cases h
    exact ⟨fun _ _ => rfl, rfl, rfl, rfl, rfl⟩
  | some Irp =>
    by_cases hData : (s.Ext Dev).RxBuffer.Count = 0
    · rw [TryCompleteRead_empty s Dev hData] at h
      cases h
      exact ⟨fun _ _ => rfl, rfl, rfl, rfl, rfl⟩
    · cases hHook : (s.Irps Irp).CancelRoutine with
      | false =>
        rw [TryCompleteRead_yields s Dev Irp hSlot hData hHook] at h
        cases h
        refine ⟨fun Dev' hne => ?_, ?_, ?_, ?_, ?_⟩
        · simp [hne]
        all_goals simp
      | true =>
        cases hRead : RingBufferRead (s.Ext Dev).RxBuffer (s.Irps Irp).SystemBuffer
            (s.Irps Irp).Length with
        | none =>
          rw [TryCompleteRead_faults s Dev Irp hSlot hData hHook hRead] at h
          cases h
        | some r =>
          obtain ⟨Ring, Buffer, BytesRead⟩ := r
          obtain ⟨s'', e, h1, h2, _⟩ :=
            TryCompleteRead_delivers s Dev Irp Ring Buffer BytesRead hSlot hData hHook hRead
          rw [e] at h
          cases h
          refine ⟨h2, ?_, ?_, ?_, ?_⟩ <;> rw [h1]

theorem VSerialWrite_frame (s s' : DRIVER) (A B : DEVICE_OBJECT) (W : Nat) (Status : NTSTATUS)
    (hAB : A ≠ B) (hLinked : (s.Ext A).Peer = some B ∧ (s.Ext B).Peer = some A)
    (hCounter : (s.Ext A).BytesWritten < ULONG_MODULUS)
    (hWrite : VSerialWrite s A W = some (s', Status)) :
    (s'.Ext A).RxBuffer = (s.Ext A).RxBuffer ∧
    (s'.Ext A).PendingReadIrp = (s.Ext A).PendingReadIrp ∧
    (s'.Ext A).Config = (s.Ext A).Config ∧
    (s'.Ext B).Config = (s.Ext B).Config ∧
    s'.Ext A = { s.Ext A with
      BytesWritten := uadd (s.Ext A).BytesWritten (s'.Irps W).Information } ∧
    s'.Ext B = { s.Ext B with
      RxBuffer := (s'.Ext B).RxBuffer
      PendingReadIrp := (s'.Ext B).PendingReadIrp
      ReadTimer := (s'.Ext B).ReadTimer
      BytesRead := (s'.Ext B).BytesRead } := by
  have hBA : B ≠ A := fun h => hAB h.symm
  by_cases hLen : (s.Irps W).Length = 0
  · simp only [VSerialWrite, hLen, if_true, Option.some.injEq, Prod.mk.injEq] at hWrite
    obtain ⟨rfl, _⟩ := hWrite
    have hz : uadd (s.Ext A).BytesWritten 0 = (s.Ext A).BytesWritten := by
      simp only [uadd, Nat.add_zero, Nat.mod_eq_of_lt hCounter]
    simp [hz]
  · simp only [VSerialWrite, hLen, if_false, hLinked.1] at hWrite
    split at hWrite
    · cases hWrite
    · next Ring n hw =>
      split at hWrite
      · cases hWrite
      · next s3 ht =>
        simp only [Option.some.injEq, Prod.mk.injEq] at hWrite
        obtain ⟨rfl, _⟩ := hWrite
        obtain ⟨h1, h2, h3, h4, h5⟩ := TryCompleteRead_frame _ s3 B ht
        have hA := h1 A hAB
        simp only [DRIVER.Ext_setExt_same, DRIVER.Ext_setExt_ne _ _ hBA,
          DRIVER.Ext_setExt_ne _ _ hAB] at hA h2 h3 h4 h5
        simp only [IoCompleteRequest_Ext, DRIVER.Ext_setIrp, IoCompleteRequest_Irps,
          DRIVER.Irps_setIrp_same, hA]
        refine ⟨trivial, trivial, trivial, h4, trivial, ?_⟩
        cases hs3 : s3.Ext B
        cases hs : s.Ext B
        rw [hs3, hs] at h2 h3 h4 h5
        simp only at h2 h3 h4 h5
        simp only [h2, h3, h4, h5]

/-! ## What every step of the pair keeps -/

theorem DRIVER.SameBuffers.refl (s : DRIVER) : s.SameBuffers s :=
  fun _ => ⟨rfl, rfl⟩

theorem DRIVER.SameBuffers.trans {s1 s2 s3 : DRIVER} (h12 : s1.SameBuffers s2)
    (h23 : s2.SameBuffers s3) : s1.SameBuffers s3 :=
  fun Irp => ⟨(h23 Irp).1.trans (h12 Irp).1, (h23 Irp).2.trans (h12 Irp).2⟩

theorem DRIVER.SameBuffers_setIrp (s : DRIVER) (Irp : Nat) (v : IRP)
    (hv : v.SystemBuffer.length = (s.Irps Irp).SystemBuffer.length ∧
      v.Length = (s.Irps Irp).Length) :
    s.SameBuffers (s.setIrp Irp v) := by
  intro Irp'
  by_cases hi : Irp' = Irp
  · subst hi
    rw [DRIVER.Irps_setIrp_same]
    exact hv
  · rw [DRIVER.Irps_setIrp_ne _ _ hi]
    exact ⟨rfl, rfl⟩

theorem DRIVER.SameBuffers_of_Irps {s s' : DRIVER} (h : s'.Irps = s.Irps) : s.SameBuffers s' :=
  fun Irp => by rw [h]; exact ⟨rfl, rfl⟩

theorem DRIVER.WellFormed_update (s s' : DRIVER) (Dev : DEVICE_OBJECT) (hW : s.WellFormed)
    (hOther : ∀ Dev', Dev' ≠ Dev → s'.Ext Dev' = s.Ext Dev')
    (hPeer : (s'.Ext Dev).Peer = (s.Ext Dev).Peer)
    (hRing : (s'.Ext Dev).RxBuffer.Allocated ∧ (s'.Ext Dev).RxBuffer.Invariant)
    (hTimeouts : (s'.Ext Dev).Config.Timeouts.length = 5)
    (hIrps : s.SameBuffers s') :
    s'.WellFormed := by
  obtain ⟨h1, h2, h3, h4⟩ := hW
  refine ⟨fun Dev' => ?_, fun Dev' => ?_, fun Dev' => ?_, fun Irp => ?_⟩
  · by_cases hd : Dev' = Dev
    · subst hd
      rw [hPeer]
      exact h1 Dev'
    · rw [hOther Dev' hd]
      exact h1 Dev'
  · by_cases hd : Dev' = Dev
    · subst hd
      exact hRing
    · rw [hOther Dev' hd]
      exact h2 Dev'
  · by_cases hd : Dev' = Dev
    · subst hd
      exact hTimeouts
    · rw [hOther Dev' hd]
      exact h3 Dev'
  · rw [(hIrps Irp).1, (hIrps Irp).2]
    exact h4 Irp

theorem DRIVER.invariant_update (s s' : DRIVER) (Dev : DEVICE_OBJECT) (hW : s.WellFormed)
    (hP : s.PendingImpliesEmpty)
    (hOther : ∀ Dev', Dev' ≠ Dev → s'.Ext Dev' = s.Ext Dev')
    (hPeer : (s'.Ext Dev).Peer = (s.Ext Dev).Peer)
    (hRing : (s'.Ext Dev).RxBuffer.Allocated ∧ (s'.Ext Dev).RxBuffer.Invariant)
    (hTimeouts : (s'.Ext Dev).Config.Timeouts.length = 5)
    (hSlot : (s'.Ext Dev).PendingReadIrp ≠ none → (s'.Ext Dev).RxBuffer.Count = 0)
    (hIrps : s.SameBuffers s') :
    s'.WellFormed ∧ s'.PendingImpliesEmpty ∧ s.SameBuffers s' := by
  refine ⟨DRIVER.WellFormed_update s s' Dev hW hOther hPeer hRing hTimeouts hIrps,
    fun Dev' => ?_, hIrps⟩
  by_cases hd : Dev' = Dev
  · subst hd
    exact hSlot
  · rw [hOther Dev' hd]
    exact hP Dev'

theorem TryCompleteRead_keeps (s : DRIVER) (Dev : DEVICE_OBJECT) (hW : s.WellFormed) :
    ∃ s', TryCompleteRead s Dev = some s' ∧ s'.WellFormed ∧
      ((s'.Ext Dev).PendingReadIrp ≠ none → (s'.Ext Dev).RxBuffer.Count = 0) ∧
      (∀ Dev', Dev' ≠ Dev → s'.Ext Dev' = s.Ext Dev') ∧ s.SameBuffers s' := by
  cases hSlot : (s.Ext Dev).PendingReadIrp with
  | none =>
    exact ⟨s, TryCompleteRead_idle s Dev hSlot, hW, fun h => absurd hSlot h, fun _ _ => rfl,
      DRIVER.SameBuffers.refl s⟩
  | some Irp =>
    by_cases hData : (s.Ext Dev).RxBuffer.Count = 0
    · exact ⟨s, TryCompleteRead_empty s Dev hData, hW, fun _ => hData, fun _ _ => rfl,
        DRIVER.SameBuffers.refl s⟩
    · cases hHook : (s.Irps Irp).CancelRoutine with
      | false =>
        have hB : s.SameBuffers ((s.setExt Dev { s.Ext Dev with PendingReadIrp := none }).setIrp
            Irp { s.Irps Irp with CancelRoutine := false }) := by
          intro Irp'
          by_cases hi : Irp' = Irp
          · subst hi
            simp
          · simp [hi]
        refine ⟨_, TryCompleteRead_yields s Dev Irp hSlot hData hHook, ?_, ?_, ?_, hB⟩
        · refine DRIVER.WellFormed_update s _ Dev hW ?_ ?_ ?_ ?_ hB
          · intro Dev' hd
            simp [hd]
          · simp
          · simpa using hW.2.1 Dev
          · simpa using hW.2.2.1 Dev
        · simp
        · intro Dev' hd
          simp [hd]
      | true =>
        obtain ⟨hA, hC, hH, hT⟩ := hW.2.1 Dev
        obtain ⟨hD, hMM⟩ := hW.2.2.2 Irp
        obtain ⟨Ring', Data', r1, r2, r3, r4, _, r6, r7, r8, _⟩ :=
          RingBufferRead_spec (s.Ext Dev).RxBuffer (s.Irps Irp).SystemBuffer (s.Irps Irp).Length
            hA hC hT hD hMM
        obtain ⟨s', e, h1, h2, h3, h4, _⟩ :=
          TryCompleteRead_delivers s Dev Irp Ring' Data' _ hSlot hData hHook r1
        have hB : s.SameBuffers s' := by
          intro Irp'
          by_cases hi : Irp' = Irp
          · subst hi
            rw [h3]
            exact ⟨r8, rfl⟩
          · rw [h4 Irp' hi]
            exact ⟨rfl, rfl⟩
        refine ⟨s', e, ?_, ?_, h2, hB⟩
        · refine DRIVER.WellFormed_update s s' Dev hW h2 (by rw [h1]) ?_ ?_ hB
          · rw [h1]
            exact ⟨r2, by rw [r6, r3]; omega, by rw [r4, r3]; exact hH, r7⟩
          · rw [h1]
            exact hW.2.2.1 Dev
        · rw [h1]
          intro hne
          exact absurd rfl hne

theorem DRIVER.invariant_setIrp (s : DRIVER) (Irp : Nat) (v : IRP) (hW : s.WellFormed)
    (hP : s.PendingImpliesEmpty)
    (hv : v.SystemBuffer.length = (s.Irps Irp).SystemBuffer.length ∧
      v.Length = (s.Irps Irp).Length) :
    (IoCompleteRequest (s.setIrp Irp v) Irp).WellFormed ∧
      (IoCompleteRequest (s.setIrp Irp v) Irp).PendingImpliesEmpty ∧
      s.SameBuffers (IoCompleteRequest (s.setIrp Irp v) Irp) := by
  refine DRIVER.invariant_update s _ DEVICE_OBJECT.VirtualSerial0 hW hP ?_ ?_ ?_ ?_ ?_
    (DRIVER.SameBuffers_setIrp s Irp v hv)
  · intro Dev' _
    simp
  · simp
  · simpa using hW.2.1 DEVICE_OBJECT.VirtualSerial0
  · simpa using hW.2.2.1 DEVICE_OBJECT.VirtualSerial0
  · simpa using hP DEVICE_OBJECT.VirtualSerial0

theorem VSerialRead_keeps (s : DRIVER) (Dev : DEVICE_OBJECT) (Irp : Nat) (hW : s.WellFormed)
    (hP : s.PendingImpliesEmpty) :
    ∃ s' Status, VSerialRead s Dev Irp = some (s', Status) ∧ s'.WellFormed ∧
      s'.PendingImpliesEmpty ∧ s.SameBuffers s' := by
  by_cases hLen : (s.Irps Irp).Length = 0
  · have e : VSerialRead s Dev Irp = some (IoCompleteRequest
        (s.setIrp Irp { s.Irps Irp with Status := STATUS_SUCCESS, Information := 0 }) Irp,
        STATUS_SUCCESS) := by
      unfold VSerialRead
      exact if_pos hLen
    exact ⟨_, _, e, DRIVER.invariant_setIrp s Irp _ hW hP ⟨rfl, rfl⟩⟩
  · by_cases hData : (s.Ext Dev).RxBuffer.Count = 0
    · rw [VSerialRead_of_empty s Dev Irp hLen hData]
      split
      · exact ⟨_, _, rfl, DRIVER.invariant_setIrp s Irp _ hW hP ⟨rfl, rfl⟩⟩
      · next hSlot =>
        split
        · exact ⟨_, _, rfl, DRIVER.invariant_setIrp s Irp _ hW hP ⟨rfl, rfl⟩⟩
        · refine ⟨_, _, rfl, ?_⟩
          refine DRIVER.invariant_update s _ Dev hW hP ?_ ?_ ?_ ?_ ?_ ?_
          · intro Dev' hd
            simp [VSerialReadPend, IoMarkIrpPending, KeSetTimer, hd]
          · simp [VSerialReadPend, IoMarkIrpPending, KeSetTimer]
          · simpa [VSerialReadPend, IoMarkIrpPending, KeSetTimer] using hW.2.1 Dev
          · simpa [VSerialReadPend, IoMarkIrpPending, KeSetTimer] using hW.2.2.1 Dev
          · intro _
            simpa [VSerialReadPend, IoMarkIrpPending, KeSetTimer] using hData
          · intro Irp'
            by_cases hi : Irp' = Irp
            · subst hi
              simp [VSerialReadPend, IoMarkIrpPending, KeSetTimer]
            · simp [VSerialReadPend, IoMarkIrpPending, KeSetTimer, hi]
    · obtain ⟨hA, hC, hH, hT⟩ := hW.2.1 Dev
      obtain ⟨hD, hMM⟩ := hW.2.2.2 Irp
      obtain ⟨Ring', Data', r1, r2, r3, r4, _, r6, r7, r8, _⟩ :=
        RingBufferRead_spec (s.Ext Dev).RxBuffer (s.Irps Irp).SystemBuffer (s.Irps Irp).Length
          hA hC hT hD hMM
      obtain ⟨s', e, h1, h2, h3, h4, _⟩ :=
        VSerialRead_immediate s Dev Irp Ring' Data' _ hLen r1 (by omega)
      refine ⟨s', _, e, ?_⟩
      refine DRIVER.invariant_update s s' Dev hW hP h2 (by rw [h1]) ?_ ?_ ?_ ?_
      · rw [h1]
        exact ⟨r2, by rw [r6, r3]; omega, by rw [r4, r3]; exact hH, r7⟩
      · rw [h1]
        exact hW.2.2.1 Dev
      · rw [h1]
        intro hne
        exact absurd (hP Dev hne) hData
      · intro Irp'
        by_cases hi : Irp' = Irp
        · subst hi
          rw [h3]
          exact ⟨r8, rfl⟩
        · rw [h4 Irp' hi]
          exact ⟨rfl, rfl⟩

theorem VSerialWrite_run (s : DRIVER) (Dev : DEVICE_OBJECT) (Irp : Nat) (hW : s.WellFormed)
    (hLen : (s.Irps Irp).Length ≠ 0) :
    ∃ Peer s3 BytesWritten, Peer ≠ Dev ∧
      VSerialWrite s Dev Irp = some (IoCompleteRequest
        (s3.setIrp Irp { s3.Irps Irp with
          Status := STATUS_SUCCESS
          Information := BytesWritten }) Irp, STATUS_SUCCESS) ∧
      s3.WellFormed ∧
      ((s3.Ext Peer).PendingReadIrp ≠ none → (s3.Ext Peer).RxBuffer.Count = 0) ∧
      (∀ Dev', Dev' ≠ Peer →
        (s3.Ext Dev').PendingReadIrp = (s.Ext Dev').PendingReadIrp ∧
        (s3.Ext Dev').RxBuffer = (s.Ext Dev').RxBuffer) ∧
      s.SameBuffers s3 := by
  obtain ⟨Peer, hLink, hPD⟩ := hW.1 Dev
  have hDP : Dev ≠ Peer := fun h => hPD h.symm
  obtain ⟨hA, hC, hH, hT⟩ := hW.2.1 Peer
  obtain ⟨hD, hLM⟩ := hW.2.2.2 Irp
  obtain ⟨Ring', w1, w2, w3, w4, w5, w6, _⟩ :=
    RingBufferWrite_spec (s.Ext Peer).RxBuffer (s.Irps Irp).SystemBuffer (s.Irps Irp).Length
      hA hC hH hD hLM
  have hW1 : (s.setExt Peer { s.Ext Peer with RxBuffer := Ring' }).WellFormed := by
    refine DRIVER.WellFormed_update s _ Peer hW ?_ ?_ ?_ ?_
      (DRIVER.SameBuffers_of_Irps (DRIVER.Irps_setExt _ _ _))
    · intro Dev' hd
      simp [hd]
    · simp
    · simp only [DRIVER.Ext_setExt_same]
      exact ⟨w2, by rw [w5, w3]; omega, w6, by rw [w4, w3]; exact hT⟩
    · simpa using hW.2.2.1 Peer
  obtain ⟨s2, hs2⟩ : ∃ s2, s2 = (s.setExt Peer { s.Ext Peer with RxBuffer := Ring' }).setExt Dev
      { (s.setExt Peer { s.Ext Peer with RxBuffer := Ring' }).Ext Dev with
        BytesWritten :=
          uadd ((s.setExt Peer { s.Ext Peer with RxBuffer := Ring' }).Ext Dev).BytesWritten
            (min (s.Irps Irp).Length ((s.Ext Peer).RxBuffer.Size - (s.Ext Peer).RxBuffer.Count)) } :=
    ⟨_, rfl⟩
  have hI2 : s2.Irps = s.Irps := by
    rw [hs2, DRIVER.Irps_setExt, DRIVER.Irps_setExt]
  have hW2 : s2.WellFormed := by
    rw [hs2]
    refine DRIVER.WellFormed_update _ _ Dev hW1 ?_ ?_ ?_ ?_
      (DRIVER.SameBuffers_of_Irps (DRIVER.Irps_setExt _ _ _))
    · intro Dev' hd
      simp [hd]
    · simp
    · simp only [DRIVER.Ext_setExt_same]
      exact hW1.2.1 Dev
    · simp only [DRIVER.Ext_setExt_same]
      exact hW1.2.2.1 Dev
  have hDev : s2.Ext Dev = { s.Ext Dev with
      BytesWritten := uadd (s.Ext Dev).BytesWritten
        (min (s.Irps Irp).Length ((s.Ext Peer).RxBuffer.Size - (s.Ext Peer).RxBuffer.Count)) } := by
    rw [hs2]
    simp [hDP]
  obtain ⟨s3, e3, hW3, hSlot3, hOther3, hB3⟩ := TryCompleteRead_keeps s2 Peer hW2
  have e : VSerialWrite s Dev Irp = some (IoCompleteRequest
      (s3.setIrp Irp { s3.Irps Irp with
        Status := STATUS_SUCCESS
        Information :=
          min (s.Irps Irp).Length ((s.Ext Peer).RxBuffer.Size - (s.Ext Peer).RxBuffer.Count) })
      Irp, STATUS_SUCCESS) := by
    rw [hs2] at e3
    simp only [VSerialWrite, hLen, if_false, hLink, w1, e3]
  refine ⟨Peer, s3, _, hPD, e, hW3, hSlot3, ?_, (DRIVER.SameBuffers_of_Irps hI2).trans hB3⟩
  intro Dev' hd
  rw [hOther3 Dev' hd]
  by_cases hd2 : Dev' = Dev
  · subst hd2
    rw [hDev]
    exact ⟨rfl, rfl⟩
  · rw [hs2, DRIVER.Ext_setExt_ne _ _ hd2, DRIVER.Ext_setExt_ne _ _ hd]
    exact ⟨rfl, rfl⟩

theorem VSerialWrite_returns (s : DRIVER) (Dev : DEVICE_OBJECT) (Irp : Nat)
    (hW : s.WellFormed) :
    ∃ s' Status, VSerialWrite s Dev Irp = some (s', Status) := by
  by_cases hLen : (s.Irps Irp).Length = 0
  · have e : VSerialWrite s Dev Irp = some (IoCompleteRequest
        (s.setIrp Irp { s.Irps Irp with Status := STATUS_SUCCESS, Information := 0 }) Irp,
        STATUS_SUCCESS) := by
      unfold VSerialWrite
      exact if_pos hLen
    exact ⟨_, _, e⟩
  · obtain ⟨_, _, _, _, e, _⟩ := VSerialWrite_run s Dev Irp hW hLen
    exact ⟨_, _, e⟩

theorem VSerialWrite_keeps (s : DRIVER) (Dev : DEVICE_OBJECT) (Irp : Nat) (hW : s.WellFormed)
    (hP : s.PendingImpliesEmpty) :
    ∃ s' Status, VSerialWrite s Dev Irp = some (s', Status) ∧ s'.WellFormed ∧
      s'.PendingImpliesEmpty ∧ s.SameBuffers s' := by
  by_cases hLen : (s.Irps Irp).Length = 0
  · have e : VSerialWrite s Dev Irp = some (IoCompleteRequest
        (s.setIrp Irp { s.Irps Irp with Status := STATUS_SUCCESS, Information := 0 }) Irp,
        STATUS_SUCCESS) := by
      unfold VSerialWrite
      exact if_pos hLen
    exact ⟨_, _, e, DRIVER.invariant_setIrp s Irp _ hW hP ⟨rfl, rfl⟩⟩
  · obtain ⟨Peer, s3, BytesWritten, hPD, e, hW3, hSlot3, hOther3, hB3⟩ :=
      VSerialWrite_run s Dev Irp hW hLen
    have hB : s3.SameBuffers (IoCompleteRequest
        (s3.setIrp Irp { s3.Irps Irp with
          Status := STATUS_SUCCESS
          Information := BytesWritten })
        Irp) := DRIVER.SameBuffers_setIrp s3 Irp _ ⟨rfl, rfl⟩
    refine ⟨_, _, e, ?_, ?_, hB3.trans hB⟩
    · refine DRIVER.WellFormed_update s3 _ Dev hW3 ?_ ?_ ?_ ?_ hB
      · intro Dev' _
        simp
      · simp
      · simpa using hW3.2.1 Dev
      · simpa using hW3.2.2.1 Dev
    · intro Dev'
      simp only [IoCompleteRequest_Ext, DRIVER.Ext_setIrp]
      by_cases hd : Dev' = Peer
      · subst hd
        exact hSlot3
      · rw [(hOther3 Dev' hd).1, (hOther3 Dev' hd).2]
        exact hP Dev'

theorem IoCancelIrp_keeps (s : DRIVER) (Dev : DEVICE_OBJECT) (Irp : Nat) (hW : s.WellFormed)
    (hP : s.PendingImpliesEmpty) :
    (IoCancelIrp s Dev Irp).1.WellFormed ∧ (IoCancelIrp s Dev Irp).1.PendingImpliesEmpty ∧
      s.SameBuffers (IoCancelIrp s Dev Irp).1 := by
  refine DRIVER.invariant_update s _ Dev hW hP ?_ ?_ ?_ ?_ ?_ ?_
  · intro Dev' hd
    simp only [IoCancelIrp, IoSetCancelRoutine, VSerialCancelRead, KeCancelTimer]
    split_ifs <;> simp [hd]
  · simp only [IoCancelIrp, IoSetCancelRoutine, VSerialCancelRead, KeCancelTimer]
    split_ifs <;> simp
  · have h := hW.2.1 Dev
    simp only [IoCancelIrp, IoSetCancelRoutine, VSerialCancelRead, KeCancelTimer]
    split_ifs <;> simpa using h
  · have h := hW.2.2.1 Dev
    simp only [IoCancelIrp, IoSetCancelRoutine, VSerialCancelRead, KeCancelTimer]
    split_ifs <;> simpa using h
  · have h := hP Dev
    simp only [IoCancelIrp, IoSetCancelRoutine, VSerialCancelRead, KeCancelTimer]
    split_ifs <;> simp_all
  · intro Irp'
    simp only [IoCancelIrp, IoSetCancelRoutine, VSerialCancelRead, KeCancelTimer]
    by_cases hi : Irp' = Irp
    · subst hi
      split_ifs <;> simp
    · split_ifs <;> simp [hi]

theorem VSerialCleanup_keeps (s : DRIVER) (Dev : DEVICE_OBJECT) (Irp : Nat) (hW : s.WellFormed)
    (hP : s.PendingImpliesEmpty) :
    (VSerialCleanup s Dev Irp).1.WellFormed ∧ (VSerialCleanup s Dev Irp).1.PendingImpliesEmpty ∧
      s.SameBuffers (VSerialCleanup s Dev Irp).1 := by
  refine DRIVER.invariant_update s _ Dev hW hP ?_ ?_ ?_ ?_ ?_ ?_
  · intro Dev' hd
    simp only [VSerialCleanup, KeCancelTimer]
    split <;> simp [hd]
  · simp only [VSerialCleanup, KeCancelTimer]
    split <;> simp
  · have h := hW.2.1 Dev
    simp only [VSerialCleanup, KeCancelTimer]
    split <;> simpa using h
  · have h := hW.2.2.1 Dev
    simp only [VSerialCleanup, KeCancelTimer]
    split <;> simpa using h
  · simp only [VSerialCleanup, KeCancelTimer]
    split <;> simp
  · intro Irp'
    simp only [VSerialCleanup, KeCancelTimer]
    split
    · next Pending _ =>
      by_cases hi : Irp' = Irp
      · subst hi
        by_cases hj : Irp' = Pending
        · subst hj
          simp
        · simp [hj]
      · by_cases hj : Irp' = Pending
        · subst hj
          simp [hi]
        · simp [hi, hj]
    · by_cases hi : Irp' = Irp <;> simp [hi]

/-! ## Device control requests -/

theorem VSerialDeviceControlSwitch_keeps (s : DRIVER) (Dev : DEVICE_OBJECT)
    (Buffer Buffer' : List UCHAR) (IoControlCode : IOCTL) (InputLength OutputLength : Nat)
    (DevExt : DEVICE_EXTENSION) (Status : NTSTATUS) (Information : Nat)
    (hTimeouts : (s.Ext Dev).Config.Timeouts.length = 5)
    (h : VSerialDeviceControlSwitch s Dev Buffer IoControlCode InputLength OutputLength =
      some (DevExt, Buffer', Status, Information)) :
    Buffer'.length = Buffer.length ∧ DevExt.Peer = (s.Ext Dev).Peer ∧
      DevExt.PendingReadIrp = (s.Ext Dev).PendingReadIrp ∧
      DevExt.Config.Timeouts.length = 5 ∧
      (DevExt.RxBuffer = (s.Ext Dev).RxBuffer ∨
        DevExt.RxBuffer = RingBufferPurge (s.Ext Dev).RxBuffer) := by
  cases IoControlCode <;> simp only [VSerialDeviceControlSwitch] at h
  all_goals repeat' split at h
  all_goals first
    | cases h; done
    | (simp only [Option.some.injEq, Prod.mk.injEq] at h
       obtain ⟨rfl, rfl, _, _⟩ := h
       refine ⟨?_, rfl, rfl, ?_, ?_⟩
       · first
         | rfl
         | exact RtlCopyMemory_length (by assumption)
         | exact (RtlCopyMemory_length (by assumption)).trans
             (RtlCopyMemory_length (by assumption))
       · first
         | exact hTimeouts
         | rfl
       · first
         | exact Or.inl rfl
         | exact Or.inr rfl)

theorem storeULONG_some (Buffer : List UCHAR) (Index v : Nat)
    (h : sizeof_ULONG * Index + sizeof_ULONG ≤ Buffer.length) :
    ∃ B, storeULONG Buffer Index v = some B :=
  ⟨_, RtlCopyMemory_eq_some h (Nat.le_refl _)⟩

theorem loadULONG_some (Buffer : List UCHAR) (Index : Nat)
    (h : sizeof_ULONG * Index + sizeof_ULONG ≤ Buffer.length) :
    ∃ v, loadULONG Buffer Index = some v := by
  have hl : 4 ≤ (Buffer.drop (sizeof_ULONG * Index)).length := by
    rw [List.length_drop]
    simp only [sizeof_ULONG] at h ⊢
    omega
  unfold loadULONG
  match hd : Buffer.drop (sizeof_ULONG * Index), hl with
  | b0 :: b1 :: b2 :: b3 :: _, _ => exact ⟨_, rfl⟩
  | [], hl => simp at hl
  | [_], hl => simp at hl
  | [_, _], hl => simp at hl
  | [_, _, _], hl => simp at hl

theorem ULONGs_bytes_length (vs : List Nat) : (ULONGs_bytes vs).length = sizeof_ULONG * vs.length := by
  induction vs with
  | nil => rfl
  | cons v vs ih =>
    simp only [ULONGs_bytes, List.length_append, ih, ULONG_bytes, List.length_cons,
      List.length_nil, sizeof_ULONG]
    omega

theorem VSerialDeviceControlSwitch_returns (s : DRIVER) (Dev : DEVICE_OBJECT)
    (Buffer : List UCHAR) (IoControlCode : IOCTL) (InputLength OutputLength : Nat)
    (hTimeouts : (s.Ext Dev).Config.Timeouts.length = 5)
    (hIn : InputLength ≤ Buffer.length) (hOut : OutputLength ≤ Buffer.length) :
    ∃ r, VSerialDeviceControlSwitch s Dev Buffer IoControlCode InputLength OutputLength =
      some r := by
  cases IoControlCode <;> simp only [VSerialDeviceControlSwitch]
  case IOCTL_SERIAL_GET_BAUD_RATE =>
    split
    · next hc =>
      obtain ⟨B, hB⟩ := storeULONG_some Buffer 0 (s.Ext Dev).Config.BaudRate
        (by simp only [sizeof_ULONG] at hc ⊢; omega)
      rw [hB]
      exact ⟨_, rfl⟩
    · exact ⟨_, rfl⟩
  case IOCTL_SERIAL_GET_MODEMSTATUS =>
    split
    · next hc =>
      obtain ⟨B, hB⟩ := storeULONG_some Buffer 0 (ModemStatus s Dev)
        (by simp only [sizeof_ULONG] at hc ⊢; omega)
      rw [hB]
      exact ⟨_, rfl⟩
    · exact ⟨_, rfl⟩
  case IOCTL_SERIAL_GET_WAIT_MASK =>
    split
    · next hc =>
      obtain ⟨B, hB⟩ := storeULONG_some Buffer 0 (s.Ext Dev).Config.WaitMask
        (by simp only [sizeof_ULONG] at hc ⊢; omega)
      rw [hB]
      exact ⟨_, rfl⟩
    · exact ⟨_, rfl⟩
  case IOCTL_SERIAL_SET_BAUD_RATE =>
    split
    · next hc =>
      obtain ⟨v, hv⟩ := loadULONG_some Buffer 0 (by simp only [sizeof_ULONG] at hc ⊢; omega)
      rw [hv]
      exact ⟨_, rfl⟩
    · exact ⟨_, rfl⟩
  case IOCTL_SERIAL_SET_WAIT_MASK =>
    split
    · next hc =>
      obtain ⟨v, hv⟩ := loadULONG_some Buffer 0 (by simp only [sizeof_ULONG] at hc ⊢; omega)
      rw [hv]
      exact ⟨_, rfl⟩
    · exact ⟨_, rfl⟩
  case IOCTL_SERIAL_GET_LINE_CONTROL =>
    split
    · next hc =>
      rw [RtlCopyMemory_eq_some (by omega) (by simp)]
      exact ⟨_, rfl⟩
    · exact ⟨_, rfl⟩
  case IOCTL_SERIAL_SET_LINE_CONTROL =>
    split
    · next hc =>
      match Buffer, hIn with
      | In0 :: In1 :: In2 :: _, _ => exact ⟨_, rfl⟩
      | [], hIn => simp at hIn; omega
      | [_], hIn => simp at hIn; omega
      | [_, _], hIn => simp at hIn; omega
    · exact ⟨_, rfl⟩
  case IOCTL_SERIAL_GET_TIMEOUTS =>
    split
    · next hc =>
      rw [RtlCopyMemory_eq_some (by simp only [sizeof_ULONG] at hc ⊢; omega)
        (by rw [ULONGs_bytes_length, hTimeouts]; simp [sizeof_ULONG])]
      exact ⟨_, rfl⟩
    · exact ⟨_, rfl⟩
  case IOCTL_SERIAL_SET_TIMEOUTS =>
    split
    · next hc =>
      obtain ⟨t0, h0⟩ := loadULONG_some Buffer 0 (by simp only [sizeof_ULONG] at hc ⊢; omega)
      obtain ⟨t1, h1⟩ := loadULONG_some Buffer 1 (by simp only [sizeof_ULONG] at hc ⊢; omega)
      obtain ⟨t2, h2⟩ := loadULONG_some Buffer 2 (by simp only [sizeof_ULONG] at hc ⊢; omega)
      obtain ⟨t3, h3⟩ := loadULONG_some Buffer 3 (by simp only [sizeof_ULONG] at hc ⊢; omega)
      obtain ⟨t4, h4⟩ := loadULONG_some Buffer 4 (by simp only [sizeof_ULONG] at hc ⊢; omega)
      rw [h0, h1, h2, h3, h4]
      exact ⟨_, rfl⟩
    · exact ⟨_, rfl⟩
  case IOCTL_SERIAL_GET_COMMSTATUS =>
    split
    · next hc =>
      have hz : RtlZeroMemory Buffer 18 = some _ :=
        RtlCopyMemory_eq_some (by omega) (by simp)
      rw [hz]
      obtain ⟨B, hB⟩ := storeULONG_some
        (Buffer.take 0 ++ (((List.replicate 18 0).drop 0).take 18 ++ Buffer.drop (0 + 18))) 2
        (RingBufferBytesAvailable (s.Ext Dev).RxBuffer)
        (by rw [RtlCopyMemory_length hz]; simp only [sizeof_ULONG]; omega)
      simp only [hB]
      exact ⟨_, rfl⟩
    · exact ⟨_, rfl⟩
  case IOCTL_SERIAL_GET_PROPERTIES =>
    split
    · next hc =>
      have hz : RtlZeroMemory Buffer 64 = some _ :=
        RtlCopyMemory_eq_some (by omega) (by simp)
      rw [hz]
      simp only
      rw [RtlCopyMemory_eq_some
        (by rw [RtlCopyMemory_length hz]; simp only [sizeof_ULONG]; omega)
        (by rw [ULONGs_bytes_length]; simp [sizeof_ULONG])]
      exact ⟨_, rfl⟩
    · exact ⟨_, rfl⟩
  all_goals exact ⟨_, rfl⟩

theorem VSerialDeviceControl_keeps (s : DRIVER) (Dev : DEVICE_OBJECT) (Irp : Nat)
    (IoControlCode : IOCTL) (InputLength OutputLength : Nat)
    (hW : s.WellFormed) (hP : s.PendingImpliesEmpty)
    (hIn : InputLength ≤ (s.Irps Irp).SystemBuffer.length)
    (hOut : OutputLength ≤ (s.Irps Irp).SystemBuffer.length) :
    ∃ s' Status, VSerialDeviceControl s Dev Irp IoControlCode InputLength OutputLength =
        some (s', Status) ∧
      s'.WellFormed ∧ s'.PendingImpliesEmpty ∧ s.SameBuffers s' := by
  obtain ⟨r, hSwitch⟩ := VSerialDeviceControlSwitch_returns s Dev (s.Irps Irp).SystemBuffer
    IoControlCode InputLength OutputLength (hW.2.2.1 Dev) hIn hOut
  obtain ⟨DevExt, Buffer, Status, Information⟩ := r
  obtain ⟨k1, k2, k3, k4, k5⟩ :=
    VSerialDeviceControlSwitch_keeps s Dev _ _ _ _ _ _ _ _ (hW.2.2.1 Dev) hSwitch
  obtain ⟨hA, hC, hH, hT⟩ := hW.2.1 Dev
  have e : VSerialDeviceControl s Dev Irp IoControlCode InputLength OutputLength =
      some (IoCompleteRequest ((s.setExt Dev DevExt).setIrp Irp
        { (s.setExt Dev DevExt).Irps Irp with
          SystemBuffer := Buffer
          Status := Status
          Information := Information }) Irp, Status) := by
    simp only [VSerialDeviceControl, hSwitch]
  refine ⟨_, _, e, ?_⟩
  refine DRIVER.invariant_update s _ Dev hW hP ?_ ?_ ?_ ?_ ?_ ?_
  · intro Dev' hd
    simp [hd]
  · simpa using k2
  · simp only [IoCompleteRequest_Ext, DRIVER.Ext_setIrp, DRIVER.Ext_setExt_same]
    rcases k5 with k5 | k5
    · rw [k5]
      exact ⟨hA, hC, hH, hT⟩
    · rw [k5]
      exact ⟨hA, Nat.zero_le _, Nat.lt_of_le_of_lt (Nat.zero_le _) hH,
        Nat.lt_of_le_of_lt (Nat.zero_le _) hH⟩
  · simpa using k4
  · simp only [IoCompleteRequest_Ext, DRIVER.Ext_setIrp, DRIVER.Ext_setExt_same, k3]
    intro hne
    rcases k5 with k5 | k5
    · rw [k5]
      exact hP Dev hne
    · rw [k5]
      rfl
  · intro Irp'
    by_cases hi : Irp' = Irp
    · subst hi
      simpa using k1
    · simp [hi]

/-! ## Sequences of steps -/

theorem DRIVER.step_keeps (s : DRIVER) (op : DRIVER_OPERATION) (hW : s.WellFormed)
    (hP : s.PendingImpliesEmpty) (hSized : op.Sized s) :
    ∃ s', s.step op = some s' ∧ s'.WellFormed ∧ s'.PendingImpliesEmpty ∧ s.SameBuffers s' := by
  cases op with
  | Read Dev Irp =>
    obtain ⟨s1, Status, e, h1⟩ := VSerialRead_keeps s Dev Irp hW hP
    exact ⟨s1, by simp only [DRIVER.step, e], h1⟩
  | Write Dev Irp =>
    obtain ⟨s1, Status, e, h1⟩ := VSerialWrite_keeps s Dev Irp hW hP
    exact ⟨s1, by simp only [DRIVER.step, e], h1⟩
  | TimerExpiry Dev =>
    obtain ⟨s1, e, h1, h2, h3, h4⟩ := TryCompleteRead_keeps s Dev hW
    refine ⟨s1, by simp only [DRIVER.step, VSerialReadDpc, e], h1, fun Dev' => ?_, h4⟩
    by_cases hd : Dev' = Dev
    · subst hd
      exact h2
    · rw [h3 Dev' hd]
      exact hP Dev'
  | Cancel Dev Irp => exact ⟨_, rfl, IoCancelIrp_keeps s Dev Irp hW hP⟩
  | Cleanup Dev Irp => exact ⟨_, rfl, VSerialCleanup_keeps s Dev Irp hW hP⟩
  | DeviceControl Dev Irp IoControlCode InputLength OutputLength =>
    obtain ⟨s1, Status, e, h1⟩ := VSerialDeviceControl_keeps s Dev Irp IoControlCode
      InputLength OutputLength hW hP hSized.1 hSized.2
    exact ⟨s1, by simp only [DRIVER.step, e], h1⟩

theorem DRIVER_OPERATION.Sized_of_SameBuffers (s0 s : DRIVER) (op : DRIVER_OPERATION)
    (hB : s0.SameBuffers s) (h : op.Sized s0) : op.Sized s := by
  cases op with
  | DeviceControl Dev Irp IoControlCode InputLength OutputLength =>
    show _ ≤ (s.Irps Irp).SystemBuffer.length ∧ _ ≤ (s.Irps Irp).SystemBuffer.length
    rw [(hB Irp).1]
    exact h
  | _ => trivial

theorem DRIVER.stepAll_keeps (s0 : DRIVER) (ops : List DRIVER_OPERATION) :
    ∀ s : DRIVER, s.WellFormed → s.PendingImpliesEmpty → s0.SameBuffers s →
      (∀ op ∈ ops, op.Sized s0) →
      ∃ s', s.stepAll ops = some s' ∧ s'.WellFormed ∧ s'.PendingImpliesEmpty := by
  induction ops with
  | nil => intro s hW hP _ _; exact ⟨s, rfl, hW, hP⟩
  | cons op ops ih =>
    intro s hW hP hB hops
    obtain ⟨s1, e1, hW1, hP1, hB1⟩ := s.step_keeps op hW hP
      (DRIVER_OPERATION.Sized_of_SameBuffers s0 s op hB (hops op (List.mem_cons_self _ _)))
    obtain ⟨s2, e2, h2⟩ := ih s1 hW1 hP1 (hB.trans hB1)
      (fun d hd => hops d (List.mem_cons_of_mem _ hd))
    exact ⟨s2, by simp only [DRIVER.stepAll, e1, e2], h2⟩

theorem DRIVER.Fresh_keeps (s : DRIVER) (h : s.Fresh) : s.WellFormed ∧ s.PendingImpliesEmpty := by
  obtain ⟨h0, h1, h2⟩ := h
  refine ⟨⟨fun Dev => ?_, fun Dev => ?_, fun Dev => ?_, h2⟩, fun Dev => ?_⟩
  · cases Dev
    · exact ⟨DEVICE_OBJECT.VirtualSerial1, by simp only [DRIVER.Ext, h0, freshPort], by decide⟩
    · exact ⟨DEVICE_OBJECT.VirtualSerial0, by simp only [DRIVER.Ext, h1, freshPort], by decide⟩
  · cases Dev
    · simp only [DRIVER.Ext, h0, freshPort, RING_BUFFER.Allocated, RING_BUFFER.Invariant,
        List.length_replicate, VSERIAL_BUFFER_SIZE, ULONG_MODULUS]
      decide
    · simp only [DRIVER.Ext, h1, freshPort, RING_BUFFER.Allocated, RING_BUFFER.Invariant,
        List.length_replicate, VSERIAL_BUFFER_SIZE, ULONG_MODULUS]
      decide
  · cases Dev
    · simp only [DRIVER.Ext, h0, freshPort, defaultConfig, List.length_cons, List.length_nil]
    · simp only [DRIVER.Ext, h1, freshPort, defaultConfig, List.length_cons, List.length_nil]
  · cases Dev
    · simp only [DRIVER.Ext, h0, freshPort, ne_eq, not_true_eq_false, false_implies]
    · simp only [DRIVER.Ext, h1, freshPort, ne_eq, not_true_eq_false, false_implies]

theorem exampleDriver_typed : exampleDriver.IrpsTyped := by
  intro Irp
  simp only [exampleDriver, freshIrp]
  split_ifs <;> decide

/-- C23. From a freshly created, linked pair every sequence of reads, writes, timer expiries,
cancellations, cleanups and device-control requests, each taken as one atomic step, runs to
a state in which a port whose pending slot is not empty has an empty receive buffer
(`Count = 0`): no read is left pending while data is queued for it. -/
theorem C23_pending_read_implies_empty_buffer (s : DRIVER) (ops : List DRIVER_OPERATION)
    (hFresh : s.Fresh) (hSized : ∀ op ∈ ops, op.Sized s) :
    ∃ s', s.stepAll ops = some s' ∧
      ∀ Dev, (s'.Ext Dev).PendingReadIrp ≠ none → (s'.Ext Dev).RxBuffer.Count = 0 := by
  obtain ⟨hW, hP⟩ := DRIVER.Fresh_keeps s hFresh
  obtain ⟨s', e, _, hP'⟩ := DRIVER.stepAll_keeps s ops s hW hP (DRIVER.SameBuffers.refl s) hSized
  exact ⟨s', e, hP'⟩

/-- The requests of `exampleSteps` on `exampleDriver`. -/
theorem C23_pending_read_implies_empty_buffer_witness :
    ∃ s', exampleDriver.stepAll exampleSteps = some s' ∧
      ∀ Dev, (s'.Ext Dev).PendingReadIrp ≠ none → (s'.Ext Dev).RxBuffer.Count = 0 :=
  C23_pending_read_implies_empty_buffer exampleDriver exampleSteps
    ⟨rfl, rfl, exampleDriver_typed⟩ (by decide)

/-! ## Claim on what a write leaves alone -/

theorem examplePended_wellFormed : examplePended.WellFormed := by
  obtain ⟨hW, hP⟩ := DRIVER.Fresh_keeps exampleDriver ⟨rfl, rfl, exampleDriver_typed⟩
  obtain ⟨s', Status, e, hW', _⟩ :=
    VSerialRead_keeps exampleDriver DEVICE_OBJECT.VirtualSerial0 1 hW hP
  rw [examplePended_eq] at e
  cases e
  exact hW'

/-- C25. A write on port `A` of a linked pair returns, and it touches nothing of `A` but its
`BytesWritten` counter, which grows by the returned count modulo 2^32: the receive buffer and
the pending slot of `A` and the configuration records of both ports are as before, and all
that can differ on the peer `B` is its receive buffer, pending slot, timer and `BytesRead`
counter. -/
theorem C25_write_frame (s : DRIVER) (A B : DEVICE_OBJECT) (W : Nat)
    (hAB : A ≠ B) (hLinked : (s.Ext A).Peer = some B ∧ (s.Ext B).Peer = some A)
    (hTyped : s.WellFormed) (hCounter : (s.Ext A).BytesWritten < ULONG_MODULUS) :
    ∃ s' Status, VSerialWrite s A W = some (s', Status) ∧
      (s'.Ext A).RxBuffer = (s.Ext A).RxBuffer ∧
      (s'.Ext A).PendingReadIrp = (s.Ext A).PendingReadIrp ∧
      (s'.Ext A).Config = (s.Ext A).Config ∧
      (s'.Ext B).Config = (s.Ext B).Config ∧
      s'.Ext A = { s.Ext A with
        BytesWritten := uadd (s.Ext A).BytesWritten (s'.Irps W).Information } ∧
      s'.Ext B = { s.Ext B with
        RxBuffer := (s'.Ext B).RxBuffer
        PendingReadIrp := (s'.Ext B).PendingReadIrp
        ReadTimer := (s'.Ext B).ReadTimer
        BytesRead := (s'.Ext B).BytesRead } := by
  obtain ⟨s', Status, e⟩ := VSerialWrite_returns s A W hTyped
  exact ⟨s', Status, e, VSerialWrite_frame s s' A B W Status hAB hLinked hCounter e⟩

/-- The write of "hello" on port 1 of `examplePended`, where request 1 waits on port 0. -/
theorem C25_write_frame_witness :
    ∃ s' Status, VSerialWrite examplePended DEVICE_OBJECT.VirtualSerial1 2 = some (s', Status) ∧
      (s'.Ext DEVICE_OBJECT.VirtualSerial1).RxBuffer =
        (examplePended.Ext DEVICE_OBJECT.VirtualSerial1).RxBuffer ∧
      (s'.Ext DEVICE_OBJECT.VirtualSerial1).PendingReadIrp =
        (examplePended.Ext DEVICE_OBJECT.VirtualSerial1).PendingReadIrp ∧
      (s'.Ext DEVICE_OBJECT.VirtualSerial1).Config =
        (examplePended.Ext DEVICE_OBJECT.VirtualSerial1).Config ∧
      (s'.Ext DEVICE_OBJECT.VirtualSerial0).Config =
        (examplePended.Ext DEVICE_OBJECT.VirtualSerial0).Config ∧
      s'.Ext DEVICE_OBJECT.VirtualSerial1 =
        { examplePended.Ext DEVICE_OBJECT.VirtualSerial1 with
          BytesWritten :=
            uadd (examplePended.Ext DEVICE_OBJECT.VirtualSerial1).BytesWritten
              (s'.Irps 2).Information } ∧
      s'.Ext DEVICE_OBJECT.VirtualSerial0 =
        { examplePended.Ext DEVICE_OBJECT.VirtualSerial0 with
          RxBuffer := (s'.Ext DEVICE_OBJECT.VirtualSerial0).RxBuffer
          PendingReadIrp := (s'.Ext DEVICE_OBJECT.VirtualSerial0).PendingReadIrp
          ReadTimer := (s'.Ext DEVICE_OBJECT.VirtualSerial0).ReadTimer
          BytesRead := (s'.Ext DEVICE_OBJECT.VirtualSerial0).BytesRead } :=
  C25_write_frame examplePended DEVICE_OBJECT.VirtualSerial1 DEVICE_OBJECT.VirtualSerial0 2
    (by decide) ⟨rfl, rfl⟩ examplePended_wellFormed (by decide)

/-! ## Claim on the order of the locks -/

/-- C21, as stated, fails. With request 1 in the pending slot of port 0 (`examplePended`)
`TryCompleteRead` calls `RingBufferBytesAvailable`, which takes the lock of the receive ring,
before it releases `ReadLock`: the ring lock of port 0 is acquired while the read-state lock
of port 0 is held. -/
theorem C21_ring_lock_acquired_under_read_lock :
    NestedAcquisitions [] (TryCompleteReadLocks examplePended DEVICE_OBJECT.VirtualSerial0) =
      [(LOCK.ReadLock DEVICE_OBJECT.VirtualSerial0, LOCK.RingLock DEVICE_OBJECT.VirtualSerial0)] := by
  decide

/-- C21, amended. Locks are nested in one place and in one order: `TryCompleteRead`, and with
it `VSerialReadDpc` and `VSerialWrite`, acquires the ring lock of a port while it holds the
`ReadLock` of that port, exactly when a request is in the pending slot. `ReadLock` is never
acquired while another lock is held, and `VSerialRead`, `VSerialCancelRead`, `VSerialCleanup`
and the purge never hold two locks. -/
theorem C21_locks_nest_in_one_order (s : DRIVER) (Dev : DEVICE_OBJECT) (Irp : Nat) :
    NestedAcquisitions [] (VSerialReadLocks s Dev Irp) = [] ∧
    NestedAcquisitions [LOCK.CancelSpinLock] (VSerialCancelReadLocks Dev) = [] ∧
    NestedAcquisitions [] (VSerialCleanupLocks Dev) = [] ∧
    NestedAcquisitions [] (PurgeLocks Dev) = [] ∧
    NestedAcquisitions [] (TryCompleteReadLocks s Dev) =
      (if (s.Ext Dev).PendingReadIrp = none then []
        else [(LOCK.ReadLock Dev, LOCK.RingLock Dev)]) ∧
    NestedAcquisitions [] (VSerialReadDpcLocks s Dev) =
      (if (s.Ext Dev).PendingReadIrp = none then []
        else [(LOCK.ReadLock Dev, LOCK.RingLock Dev)]) ∧
    ∀ Pair ∈ NestedAcquisitions [] (VSerialWriteLocks s Dev Irp),
      ∃ Peer, (s.Ext Dev).Peer = some Peer ∧ Pair = (LOCK.ReadLock Peer, LOCK.RingLock Peer) := by
  have hTry : ∀ (t : DRIVER) (D : DEVICE_OBJECT),
      NestedAcquisitions [] (TryCompleteReadLocks t D) =
        (if (t.Ext D).PendingReadIrp = none then [] else [(LOCK.ReadLock D, LOCK.RingLock D)]) := by
    intro t D
    unfold TryCompleteReadLocks
    cases (t.Ext D).PendingReadIrp with
    | none => simp [NestedAcquisitions]
    | some R =>
      by_cases h1 : RingBufferBytesAvailable (t.Ext D).RxBuffer = 0
      · simp [h1, NestedAcquisitions, RingBufferLocks]
      · by_cases h2 : (IoSetCancelRoutine
            (t.setExt D { t.Ext D with PendingReadIrp := none }) R false).2 = false
        · simp [h1, h2, NestedAcquisitions, RingBufferLocks]
        · simp [h1, h2, NestedAcquisitions, RingBufferLocks]
  have hRing : ∀ (D : DEVICE_OBJECT) (Events : List LOCK_EVENT),
      NestedAcquisitions [] (RingBufferLocks D ++ Events) = NestedAcquisitions [] Events := by
    intro D Events
    simp [RingBufferLocks, NestedAcquisitions]
  refine ⟨?_, ?_, ?_, ?_, hTry s Dev, hTry s Dev, ?_⟩
  · simp only [VSerialReadLocks]
    by_cases h0 : (s.Irps Irp).Length = 0
    · rw [if_pos h0]
      rfl
    · rw [if_neg h0, hRing]
      cases RingBufferRead (s.Ext Dev).RxBuffer (s.Irps Irp).SystemBuffer (s.Irps Irp).Length with
      | none => rfl
      | some r =>
        by_cases h1 : 0 < r.2.2
        · simp [h1, NestedAcquisitions]
        · simp [h1, NestedAcquisitions]
  · simp [VSerialCancelReadLocks, NestedAcquisitions]
  · simp [VSerialCleanupLocks, NestedAcquisitions]
  · simp [PurgeLocks, NestedAcquisitions]
  · intro Pair hPair
    simp only [VSerialWriteLocks] at hPair
    by_cases h0 : (s.Irps Irp).Length = 0
    · rw [if_pos h0] at hPair
      cases hPair
    · rw [if_neg h0] at hPair
      cases hLink : (s.Ext Dev).Peer with
      | none =>
        rw [hLink] at hPair
        cases hPair
      | some Peer =>
        refine ⟨Peer, rfl, ?_⟩
        rw [hLink] at hPair
        simp only [hRing] at hPair
        cases hw : RingBufferWrite (s.Ext Peer).RxBuffer (s.Irps Irp).SystemBuffer
            (s.Irps Irp).Length with
        | none =>
          rw [hw] at hPair
          cases hPair
        | some r =>
          rw [hw] at hPair
          simp only [hTry] at hPair
          split_ifs at hPair
          · cases hPair
          · simpa using hPair

/-! ## Claim on the cancel routine -/

theorem IoCancelIrp_eq (s : DRIVER) (Dev : DEVICE_OBJECT) (Irp : Nat) :
    IoCancelIrp s Dev Irp =
      if (IoCancelIrpTakeRoutine s Irp).2 then
        (VSerialCancelRead (IoCancelIrpTakeRoutine s Irp).1 Dev Irp, true)
      else ((IoCancelIrpTakeRoutine s Irp).1, false) := rfl

theorem VSerialCancelRead_effect (s : DRIVER) (Dev : DEVICE_OBJECT) (R : Nat) :
    (VSerialCancelRead s Dev R).Completed = s.Completed ++ [R] ∧
    (∀ Irp, (VSerialCancelRead s Dev R).Irps Irp =
      if Irp = R then { s.Irps R with Status := STATUS_CANCELLED, Information := 0 }
      else s.Irps Irp) ∧
    (∀ Dev', (VSerialCancelRead s Dev R).Ext Dev' =
      if Dev' = Dev then
        { s.Ext Dev with
          PendingReadIrp :=
            if (s.Ext Dev).PendingReadIrp = some R then none else (s.Ext Dev).PendingReadIrp
          ReadTimer := none }
      else s.Ext Dev') := by
  refine ⟨?_, ?_, ?_⟩
  · unfold VSerialCancelRead
    split <;> simp [KeCancelTimer]
  · intro Irp
    unfold VSerialCancelRead
    split <;> simp [KeCancelTimer, DRIVER.setIrp]
  · intro Dev'
    unfold VSerialCancelRead
    by_cases hd : Dev' = Dev
    · subst hd
      split <;> rename_i hs <;> simp [KeCancelTimer, hs]
    · split <;> simp [KeCancelTimer, hd]

theorem VSerialWrite_yields (s : DRIVER) (A B : DEVICE_OBJECT) (R W : Nat) (hAB : A ≠ B)
    (hWR : W ≠ R) (hLink : PairLinked s A B W)
    (hSlot : (s.Ext A).PendingReadIrp = some R)
    (hHook : (s.Irps R).CancelRoutine = false)
    (hEmpty : (s.Ext A).RxBuffer.Count = 0) :
    ∃ s', VSerialWrite s B W = some (s', STATUS_SUCCESS) ∧
      (s'.Ext A).PendingReadIrp = none ∧
      (s'.Ext A).ReadTimer = (s.Ext A).ReadTimer ∧
      (s'.Ext A).RxBuffer.Count = min (s.Irps W).Length (s.Ext A).RxBuffer.Size ∧
      (s'.Irps R).Status = (s.Irps R).Status ∧
      (s'.Irps R).Information = (s.Irps R).Information ∧
      s'.Completed = s.Completed ++ [W] := by
  obtain ⟨hLink, hAlloc, ⟨hC, hH, hT⟩, hWlen, hW0, hWM⟩ := hLink
  obtain ⟨Ring1, e1, a1, a2, a3, a4, a5, _⟩ :=
    RingBufferWrite_spec (s.Ext A).RxBuffer (s.Irps W).SystemBuffer (s.Irps W).Length hAlloc
      hC hH (by omega) hWM
  have hc1 : Ring1.Count ≠ 0 := by omega
  have hk : Ring1.Count = min (s.Irps W).Length (s.Ext A).RxBuffer.Size := by
    rw [a4, hEmpty, Nat.zero_add, Nat.sub_zero]
  generalize min (s.Irps W).Length ((s.Ext A).RxBuffer.Size - (s.Ext A).RxBuffer.Count) = k
    at e1
  have hBA : B ≠ A := fun h => hAB h.symm
  have e3 := TryCompleteRead_yields
    ((s.setExt A { s.Ext A with RxBuffer := Ring1 }).setExt B
      { (s.setExt A { s.Ext A with RxBuffer := Ring1 }).Ext B with
        BytesWritten :=
          uadd ((s.setExt A { s.Ext A with RxBuffer := Ring1 }).Ext B).BytesWritten k })
    A R (by simp [hAB, hSlot]) (by simp [hAB, hc1]) (by simp [hHook])
  obtain ⟨s3, hs3⟩ : ∃ s3, TryCompleteRead
      ((s.setExt A { s.Ext A with RxBuffer := Ring1 }).setExt B
        { (s.setExt A { s.Ext A with RxBuffer := Ring1 }).Ext B with
          BytesWritten :=
            uadd ((s.setExt A { s.Ext A with RxBuffer := Ring1 }).Ext B).BytesWritten k })
      A = some s3 := ⟨_, e3⟩
  have e : VSerialWrite s B W = some (IoCompleteRequest (s3.setIrp W
      { s3.Irps W with Status := STATUS_SUCCESS, Information := k }) W, STATUS_SUCCESS) := by
    simp only [VSerialWrite, hW0, if_false, hLink, e1, hs3]
  rw [e3, Option.some.injEq] at hs3
  subst hs3
  refine ⟨_, e, ?_, ?_, ?_, ?_, ?_, ?_⟩
  · simp
  · simp [hAB]
  · simp [hAB, hk]
  · simp [hWR.symm]
  · simp [hWR.symm]
  · simp

theorem IoCancelIrpTakeRoutine_parked (s : DRIVER) (A B : DEVICE_OBJECT) (R W : Nat)
    (hWR : W ≠ R) (h : ReadParked s A B R W) :
    (IoCancelIrpTakeRoutine s R).2 = true ∧
      PairLinked (IoCancelIrpTakeRoutine s R).1 A B W ∧
      (∀ Dev, (IoCancelIrpTakeRoutine s R).1.Ext Dev = s.Ext Dev) ∧
      ((IoCancelIrpTakeRoutine s R).1.Irps R).CancelRoutine = false ∧
      ((IoCancelIrpTakeRoutine s R).1.Irps W) = s.Irps W ∧
      (IoCancelIrpTakeRoutine s R).1.Completed = s.Completed := by
  obtain ⟨⟨hLink, hAlloc, hInv, hWlen, hW0, hWM⟩, hSlot, hHook, hEmpty, hRlen, hRM⟩ := h
  refine ⟨?_, ⟨?_, ?_, ?_, ?_, ?_, ?_⟩, ?_, ?_, ?_, ?_⟩ <;>
    simp [IoCancelIrpTakeRoutine, IoSetCancelRoutine, hHook, hLink, hAlloc, hInv, hWR, hWlen,
      hW0, hWM]

theorem cancel_race (s : DRIVER) (A B : DEVICE_OBJECT) (R W : Nat) (hAB : A ≠ B) (hWR : W ≠ R)
    (h : ReadParked s A B R W) :
    (IoCancelIrpTakeRoutine s R).2 = true ∧
    ((IoCancelIrp s A R).2 = true ∧
      (IoCancelIrp s A R).1.Ext A =
        { s.Ext A with PendingReadIrp := none, ReadTimer := none } ∧
      (IoCancelIrp s A R).1.Completed = s.Completed ++ [R] ∧
      ((IoCancelIrp s A R).1.Irps R).Status = STATUS_CANCELLED ∧
      ((IoCancelIrp s A R).1.Irps R).Information = 0) ∧
    (∃ s2, VSerialWrite (IoCancelIrpTakeRoutine s R).1 B W = some (s2, STATUS_SUCCESS) ∧
      (s2.Ext A).PendingReadIrp = none ∧
      s2.Completed = s.Completed ++ [W] ∧
      (s2.Ext A).RxBuffer.Count = min (s.Irps W).Length (s.Ext A).RxBuffer.Size ∧
      (s2.Ext A).ReadTimer = (s.Ext A).ReadTimer ∧
      (VSerialCancelRead s2 A R).Completed = s.Completed ++ [W, R] ∧
      ((VSerialCancelRead s2 A R).Irps R).Status = STATUS_CANCELLED ∧
      ((VSerialCancelRead s2 A R).Irps R).Information = 0 ∧
      (VSerialCancelRead s2 A R).Ext A = { s2.Ext A with ReadTimer := none } ∧
      (VSerialCancelRead s2 A R).Ext B = s2.Ext B) ∧
    (∃ s3, VSerialWrite s B W = some (s3, STATUS_SUCCESS) ∧
      s3.Completed = s.Completed ++ [R, W] ∧
      (IoCancelIrp s3 A R).2 = false ∧
      (IoCancelIrp s3 A R).1.Completed = s3.Completed ∧
      ∀ Dev, (IoCancelIrp s3 A R).1.Ext Dev = s3.Ext Dev) := by
  have hBA : B ≠ A := fun h => hAB h.symm
  obtain ⟨t1, t2, t3, t4, t5, t6⟩ := IoCancelIrpTakeRoutine_parked s A B R W hWR h
  have hSlot := h.2.1
  have hEmpty := h.2.2.2.1
  refine ⟨t1, ?_, ?_, ?_⟩
  · obtain ⟨c1, c2, c3⟩ := VSerialCancelRead_effect (IoCancelIrpTakeRoutine s R).1 A R
    rw [IoCancelIrp_eq, t1]
    simp only [if_true]
    refine ⟨trivial, ?_, ?_, ?_, ?_⟩
    · rw [c3 A, if_pos rfl, t3 A, hSlot]
      simp
    · rw [c1, t6]
    · rw [c2 R, if_pos rfl]
    · rw [c2 R, if_pos rfl]
  · obtain ⟨s2, e, y1, y2, y3, y4, y5, y6⟩ :=
      VSerialWrite_yields (IoCancelIrpTakeRoutine s R).1 A B R W hAB hWR t2
        (by rw [t3 A]; exact hSlot) t4 (by rw [t3 A]; exact hEmpty)
    obtain ⟨c1, c2, c3⟩ := VSerialCancelRead_effect s2 A R
    rw [t3 A] at y2 y3
    rw [t5] at y3
    rw [t6] at y6
    refine ⟨s2, e, y1, y6, y3, y2, ?_, ?_, ?_, ?_, ?_⟩
    · rw [c1, y6, List.append_assoc]
      rfl
    · rw [c2 R, if_pos rfl]
    · rw [c2 R, if_pos rfl]
    · rw [c3 A, if_pos rfl, y1]
      simp [y1]
    · rw [c3 B, if_neg hBA]
  · obtain ⟨s3, e, ⟨_, _, hHook3⟩, hC3⟩ := VSerialWrite_parked s A B R W hAB hWR h
    have e3 : IoCancelIrp s3 A R = ((s3.setIrp R { s3.Irps R with Cancel := true }).setIrp R
        { s3.Irps R with Cancel := true, CancelRoutine := false }, false) := by
      simp [IoCancelIrp, IoSetCancelRoutine, hHook3]
    refine ⟨s3, e, hC3, ?_, ?_, ?_⟩
    · rw [e3]
    · rw [e3]
      simp
    · intro Dev
      rw [e3]
      simp

theorem examplePended_parked :
    ReadParked examplePended DEVICE_OBJECT.VirtualSerial0 DEVICE_OBJECT.VirtualSerial1 1 2 :=
  (VSerialRead_parks exampleDriver examplePended DEVICE_OBJECT.VirtualSerial0
    DEVICE_OBJECT.VirtualSerial1 1 2 (by decide) (by decide)
    ⟨rfl, ⟨List.length_replicate _ _, by decide⟩, by decide, rfl, by decide, by decide⟩
    rfl (by decide) examplePended_eq).1

/-- C9, as stated, fails. `VSerialRead` has parked request 1 on port 0 (`examplePended`). The
cancellation signal takes its cancel routine; before `VSerialCancelRead` is entered, "hello"
is written on port 1 and `TryCompleteRead` empties the slot without completing the request
("let cancel routine handle it"). `VSerialCancelRead` then finds a slot that does not hold
request 1, and yet it completes request 1 with `STATUS_CANCELLED` and cancels the timer of the
port. -/
theorem C9_cancel_completes_after_detach :
    (IoCancelIrpTakeRoutine examplePended 1).2 = true ∧
    ∃ s2, VSerialWrite (IoCancelIrpTakeRoutine examplePended 1).1 DEVICE_OBJECT.VirtualSerial1 2 =
        some (s2, STATUS_SUCCESS) ∧
      (s2.Ext DEVICE_OBJECT.VirtualSerial0).PendingReadIrp ≠ some 1 ∧
      1 ∉ s2.Completed ∧
      1 ∈ (VSerialCancelRead s2 DEVICE_OBJECT.VirtualSerial0 1).Completed ∧
      ((VSerialCancelRead s2 DEVICE_OBJECT.VirtualSerial0 1).Irps 1).Status = STATUS_CANCELLED ∧
      (s2.Ext DEVICE_OBJECT.VirtualSerial0).ReadTimer = some (-10000000) ∧
      ((VSerialCancelRead s2 DEVICE_OBJECT.VirtualSerial0 1).Ext
        DEVICE_OBJECT.VirtualSerial0).ReadTimer = none := by
  obtain ⟨t1, _, ⟨s2, e, y1, y2, _, y4, y5, y6, _, y8, _⟩, _⟩ :=
    cancel_race examplePended DEVICE_OBJECT.VirtualSerial0 DEVICE_OBJECT.VirtualSerial1 1 2
      (by decide) (by decide) examplePended_parked
  refine ⟨t1, s2, e, ?_, ?_, ?_, y6, ?_, ?_⟩
  · rw [y1]
    decide
  · rw [y2]
    decide
  · rw [y5]
    decide
  · rw [y4]
    decide
  · rw [y8]

/-- C9, amended. What settles the race between the cancellation signal and the other
completion paths is the exchange of the cancel routine, not the pending slot. Let
`VSerialRead` have parked the read `R` on port `A` of a linked pair. The cancellation signal
then finds the cancel routine registered and takes it, so `VSerialCancelRead` is entered.
Entered at once, it finds `R` in the slot, empties the slot, cancels the timer and completes
`R` with `STATUS_CANCELLED` and zero bytes. When a write `W` on the peer `B` runs in between,
`TryCompleteRead` empties the slot but, the routine being taken, does not complete `R`;
`VSerialCancelRead`, entered with an empty slot, still completes `R` with `STATUS_CANCELLED`
and zero bytes, which is the one completion of `R`, and cancels the timer, and leaves the
slot, the receive buffer with the written bytes and the other port as they are. A
cancellation signal that comes after the write has delivered to `R` finds no cancel routine:
`VSerialCancelRead` is not entered, `R` is not completed again and no port changes. -/
theorem C9_cancel_settled_by_routine_exchange (s0 s : DRIVER) (A B : DEVICE_OBJECT) (R W : Nat)
    (hAB : A ≠ B) (hWR : W ≠ R) (hLink : PairLinked s0 A B W)
    (hBuffer : (s0.Irps R).SystemBuffer.length = (s0.Irps R).Length)
    (hULONG : (s0.Irps R).Length < ULONG_MODULUS)
    (hPended : VSerialRead s0 A R = some (s, STATUS_PENDING)) :
    (IoCancelIrpTakeRoutine s R).2 = true ∧
    ((IoCancelIrp s A R).2 = true ∧
      (IoCancelIrp s A R).1.Ext A =
        { s.Ext A with PendingReadIrp := none, ReadTimer := none } ∧
      (IoCancelIrp s A R).1.Completed = s.Completed ++ [R] ∧
      ((IoCancelIrp s A R).1.Irps R).Status = STATUS_CANCELLED ∧
      ((IoCancelIrp s A R).1.Irps R).Information = 0) ∧
    (∃ s2, VSerialWrite (IoCancelIrpTakeRoutine s R).1 B W = some (s2, STATUS_SUCCESS) ∧
      (s2.Ext A).PendingReadIrp = none ∧
      s2.Completed = s.Completed ++ [W] ∧
      (s2.Ext A).RxBuffer.Count = min (s.Irps W).Length (s.Ext A).RxBuffer.Size ∧
      (s2.Ext A).ReadTimer = (s.Ext A).ReadTimer ∧
      (VSerialCancelRead s2 A R).Completed = s.Completed ++ [W, R] ∧
      ((VSerialCancelRead s2 A R).Irps R).Status = STATUS_CANCELLED ∧
      ((VSerialCancelRead s2 A R).Irps R).Information = 0 ∧
      (VSerialCancelRead s2 A R).Ext A = { s2.Ext A with ReadTimer := none } ∧
      (VSerialCancelRead s2 A R).Ext B = s2.Ext B) ∧
    (∃ s3, VSerialWrite s B W = some (s3, STATUS_SUCCESS) ∧
      s3.Completed = s.Completed ++ [R, W] ∧
      (IoCancelIrp s3 A R).2 = false ∧
      (IoCancelIrp s3 A R).1.Completed = s3.Completed ∧
      ∀ Dev, (IoCancelIrp s3 A R).1.Ext Dev = s3.Ext Dev) :=
  cancel_race s A B R W hAB hWR
    (VSerialRead_parks s0 s A B R W hAB hWR hLink hBuffer hULONG hPended).1

/-- The read of `examplePended` and the write of "hello" on port 1. -/
theorem C9_cancel_settled_by_routine_exchange_witness :
    (IoCancelIrpTakeRoutine examplePended 1).2 = true ∧
    ((IoCancelIrp examplePended DEVICE_OBJECT.VirtualSerial0 1).2 = true ∧
      (IoCancelIrp examplePended DEVICE_OBJECT.VirtualSerial0 1).1.Ext DEVICE_OBJECT.VirtualSerial0 =
        { examplePended.Ext DEVICE_OBJECT.VirtualSerial0 with
          PendingReadIrp := none, ReadTimer := none } ∧
      (IoCancelIrp examplePended DEVICE_OBJECT.VirtualSerial0 1).1.Completed =
        examplePended.Completed ++ [1] ∧
      ((IoCancelIrp examplePended DEVICE_OBJECT.VirtualSerial0 1).1.Irps 1).Status =
        STATUS_CANCELLED ∧
      ((IoCancelIrp examplePended DEVICE_OBJECT.VirtualSerial0 1).1.Irps 1).Information = 0) ∧
    (∃ s2, VSerialWrite (IoCancelIrpTakeRoutine examplePended 1).1 DEVICE_OBJECT.VirtualSerial1 2 =
        some (s2, STATUS_SUCCESS) ∧
      (s2.Ext DEVICE_OBJECT.VirtualSerial0).PendingReadIrp = none ∧
      s2.Completed = examplePended.Completed ++ [2] ∧
      (s2.Ext DEVICE_OBJECT.VirtualSerial0).RxBuffer.Count =
        min (examplePended.Irps 2).Length
          (examplePended.Ext DEVICE_OBJECT.VirtualSerial0).RxBuffer.Size ∧
      (s2.Ext DEVICE_OBJECT.VirtualSerial0).ReadTimer =
        (examplePended.Ext DEVICE_OBJECT.VirtualSerial0).ReadTimer ∧
      (VSerialCancelRead s2 DEVICE_OBJECT.VirtualSerial0 1).Completed =
        examplePended.Completed ++ [2, 1] ∧
      ((VSerialCancelRead s2 DEVICE_OBJECT.VirtualSerial0 1).Irps 1).Status = STATUS_CANCELLED ∧
      ((VSerialCancelRead s2 DEVICE_OBJECT.VirtualSerial0 1).Irps 1).Information = 0 ∧
      (VSerialCancelRead s2 DEVICE_OBJECT.VirtualSerial0 1).Ext DEVICE_OBJECT.VirtualSerial0 =
        { s2.Ext DEVICE_OBJECT.VirtualSerial0 with ReadTimer := none } ∧
      (VSerialCancelRead s2 DEVICE_OBJECT.VirtualSerial0 1).Ext DEVICE_OBJECT.VirtualSerial1 =
        s2.Ext DEVICE_OBJECT.VirtualSerial1) ∧
    (∃ s3, VSerialWrite examplePended DEVICE_OBJECT.VirtualSerial1 2 =
        some (s3, STATUS_SUCCESS) ∧
      s3.Completed = examplePended.Completed ++ [1, 2] ∧
      (IoCancelIrp s3 DEVICE_OBJECT.VirtualSerial0 1).2 = false ∧
      (IoCancelIrp s3 DEVICE_OBJECT.VirtualSerial0 1).1.Completed = s3.Completed ∧
      ∀ Dev, (IoCancelIrp s3 DEVICE_OBJECT.VirtualSerial0 1).1.Ext Dev = s3.Ext Dev) :=
  C9_cancel_settled_by_routine_exchange exampleDriver examplePended DEVICE_OBJECT.VirtualSerial0
    DEVICE_OBJECT.VirtualSerial1 1 2 (by decide) (by decide)
    ⟨rfl, ⟨List.length_replicate _ _, by decide⟩, by decide, rfl, by decide, by decide⟩
    rfl (by decide) examplePended_eq

end VirtualSerial
